import Mathlib

/-!
# Appointment-booking front end: session layer, booking view, admin console

A shallow embedding of `app/frontend/js/auth.js`, `main.js` and `admin.js`.

* JavaScript values are the inductive type `JsVal`; numbers are integers
  (the payloads the code inspects never need a fraction).
* Strings are sequences of Unicode characters.  The phone pattern and
  `trim` only ever look at characters of the Basic Multilingual Plane, where
  UTF-16 code units and characters coincide.
* Browser state (local storage, location, notifications, issued requests,
  pending timers) is passed explicitly; `async` functions become functions
  from the state before to the state after, the server being an argument
  that answers each request.
-/

set_option autoImplicit false

/-! ## JavaScript values -/

/-- A JavaScript value as the code meets it: JSON data plus `undefined`.
Objects keep their properties in insertion order. -/
inductive JsVal where
  | undefined
  | null
  | bool (b : Bool)
  | num (n : Int)
  | str (s : String)
  | arr (xs : List JsVal)
  | obj (props : List (String × JsVal))

namespace JsVal

instance : Inhabited JsVal := ⟨JsVal.undefined⟩

/-- ToBoolean: `undefined`, `null`, `false`, `0` and `""` are falsy. -/
def truthy : JsVal → Bool
  | undefined => false
  | null => false
  | bool b => b
  | num n => n != 0
  | str s => s != ""
  | arr _ => true
  | obj _ => true

/-- The test `typeof v === 'string'`. -/
def isString : JsVal → Bool
  | str _ => true
  | _ => false

/-- The operator `a || b`. -/
def or (a b : JsVal) : JsVal := if a.truthy then a else b

/-- First binding of a key in a property list. -/
def lookup (k : String) : List (String × JsVal) → Option JsVal
  | [] => none
  | (k', v) :: rest => if k' = k then some v else lookup k rest

mutual
/-- The method `Array.prototype.join`: `undefined` and `null` elements give the
empty string, the others their ToString. -/
def joinWith (sep : String) : List JsVal → String
  | [] => ""
  | [x] => elemStr x
  | x :: y :: rest => elemStr x ++ sep ++ joinWith sep (y :: rest)
termination_by structural xs => xs
/-- The text one array element contributes to `join`. -/
def elemStr : JsVal → String
  | undefined => ""
  | null => ""
  | bool true => "true"
  | bool false => "false"
  | num n => toString n
  | str s => s
  | arr xs => joinWith "," xs
  | obj _ => "[object Object]"
termination_by structural v => v
end

/-- ToString, as applied by template literals and string concatenation. -/
def toStr : JsVal → String
  | undefined => "undefined"
  | null => "null"
  | bool true => "true"
  | bool false => "false"
  | num n => toString n
  | str s => s
  | arr xs => joinWith "," xs
  | obj _ => "[object Object]"

/-- Property read `v.k` for a name `k` that no built-in prototype defines
(`detail`, `message`, `loc`, `msg`, `access_token`, `is_admin`, ...):
`none` stands for the TypeError thrown on `undefined` and `null`. -/
def getProp (v : JsVal) (k : String) : Option JsVal :=
  match v with
  | undefined => none
  | null => none
  | obj props => some ((lookup k props).getD undefined)
  | _ => some undefined

/-- Indexed read `v[i]` on a value that is neither `undefined` nor `null`
(the code only indexes a truthy `loc`).  On a string the index counts
characters. -/
def getIndex (v : JsVal) (i : Nat) : JsVal :=
  match v with
  | arr xs => xs.getD i undefined
  | str s => match s.data.get? i with
    | some c => str (String.singleton c)
    | none => undefined
  | obj props => (lookup (toString i) props).getD undefined
  | _ => undefined

/-- The method `Array.prototype.map` for a callback that may throw (`none`):
the elements are visited in order and the first throw ends the call. -/
def mapThrowing (f : JsVal → Option JsVal) : List JsVal → Option (List JsVal)
  | [] => some []
  | x :: xs =>
    match f x with
    | none => none
    | some y =>
      match mapThrowing f xs with
      | none => none
      | some ys => some (y :: ys)

/-- Assignment `o[k] = v` on a property list: an existing key keeps its place. -/
def setProp (k : String) (v : JsVal) : List (String × JsVal) → List (String × JsVal)
  | [] => [(k, v)]
  | (k', v') :: rest => if k' = k then (k, v) :: rest else (k', v') :: setProp k v rest

/-- The own enumerable properties that the spread `...v` copies. -/
def spreadProps : JsVal → List (String × JsVal)
  | obj props => props
  | arr xs => (List.range xs.length).zip xs |>.map (fun p => (toString p.1, p.2))
  | str s => (List.range s.data.length).zip s.data |>.map
      (fun p => (toString p.1, str (String.singleton p.2)))
  | _ => []

/-- Object literal extension `{...base, ...v}`: every property of `v`
is assigned onto `base`. -/
def spreadInto (base : List (String × JsVal)) (v : JsVal) : List (String × JsVal) :=
  (spreadProps v).foldl (fun acc p => setProp p.1 p.2 acc) base

end JsVal

/-! ## JSON.stringify, whitespace, trim, parseInt -/

namespace Json

/-- The escape JSON.stringify writes for one character of a string. -/
def quoteChar (c : Char) : List Char :=
  if c = Char.ofNat 34 then [Char.ofNat 92, Char.ofNat 34]
  else if c = Char.ofNat 92 then [Char.ofNat 92, Char.ofNat 92]
  else if c = Char.ofNat 8 then [Char.ofNat 92, 'b']
  else if c = Char.ofNat 9 then [Char.ofNat 92, 't']
  else if c = Char.ofNat 10 then [Char.ofNat 92, 'n']
  else if c = Char.ofNat 12 then [Char.ofNat 92, 'f']
  else if c = Char.ofNat 13 then [Char.ofNat 92, 'r']
  else if c.toNat < 32 then
    [Char.ofNat 92, 'u', '0', '0', Nat.digitChar (c.toNat / 16), Nat.digitChar (c.toNat % 16)]
  else [c]

/-- QuoteJSONString: the string between double quotes, escaped. -/
def quote (s : String) : String :=
  String.mk ([Char.ofNat 34] ++ s.data.flatMap quoteChar ++ [Char.ofNat 34])

mutual
/-- SerializeJSONProperty for a value inside an array or object
(`undefined` inside an array is written `null`). -/
def serialize : JsVal → String
  | JsVal.undefined => "null"
  | JsVal.null => "null"
  | JsVal.bool true => "true"
  | JsVal.bool false => "false"
  | JsVal.num n => toString n
  | JsVal.str s => quote s
  | JsVal.arr xs => "[" ++ serializeElems xs ++ "]"
  | JsVal.obj props => "\x7b" ++ serializeProps true props ++ "\x7d"
termination_by structural v => v
/-- The elements of an array, comma separated. -/
def serializeElems : List JsVal → String
  | [] => ""
  | [x] => serialize x
  | x :: y :: rest => serialize x ++ "," ++ serializeElems (y :: rest)
termination_by structural xs => xs
/-- The properties of an object, comma separated; a property whose value is
`undefined` is left out.  `first` tells whether nothing has been written yet. -/
def serializeProps (first : Bool) : List (String × JsVal) → String
  | [] => ""
  | (_, JsVal.undefined) :: rest => serializeProps first rest
  | (k, v) :: rest =>
      (if first then "" else ",") ++ quote k ++ ":" ++ serialize v ++ serializeProps false rest
termination_by structural ps => ps
end

/-- The call `JSON.stringify(v)`: `undefined` for `undefined`, otherwise a
string. -/
def stringify : JsVal → JsVal
  | JsVal.undefined => JsVal.undefined
  | v => JsVal.str (serialize v)

end Json

/-- The characters matched by `\s` in a regular expression and removed by
`String.prototype.trim`: WhiteSpace and LineTerminator. -/
def isJsWhitespace (c : Char) : Bool :=
  let n := c.toNat
  (9 ≤ n && n ≤ 13) || n == 32 || n == 160 || n == 0x1680 || (0x2000 ≤ n && n ≤ 0x200A)
    || n == 0x2028 || n == 0x2029 || n == 0x202F || n == 0x205F || n == 0x3000 || n == 0xFEFF

/-- The method `String.prototype.trim`. -/
def jsTrim (s : String) : String :=
  String.mk (((s.data.dropWhile isJsWhitespace).reverse.dropWhile isJsWhitespace).reverse)

/-- The call `s.replace(/\s/g, '')`: every whitespace character removed. -/
def removeWhitespace (s : String) : String :=
  String.mk (s.data.filter (fun c => !isJsWhitespace c))

/-- Value of a digit character in the given radix, if it is one. -/
def digitValue (radix : Nat) (c : Char) : Option Nat :=
  let n := c.toNat
  let v := if 48 ≤ n && n ≤ 57 then some (n - 48)
    else if 97 ≤ n && n ≤ 102 then some (n - 87)
    else if 65 ≤ n && n ≤ 70 then some (n - 55)
    else none
  match v with
  | some d => if d < radix then some d else none
  | none => none

/-- Reads the longest prefix of digits of the radix; `none` when it is empty. -/
def parseDigits (radix : Nat) : List Char → Option Nat → Option Nat
  | [], acc => acc
  | c :: rest, acc =>
    match digitValue radix c with
    | some d => parseDigits radix rest (some (acc.getD 0 * radix + d))
    | none => acc

/-- The call `parseInt(s)` without radix: leading whitespace skipped, an
optional sign, a `0x` prefix selecting radix 16, then the longest run of
digits.  `none` is NaN.  (Exact for results that are safe integers.) -/
def parseInt (s : String) : Option Int :=
  let t := s.data.dropWhile isJsWhitespace
  let (neg, t) := match t with
    | '-' :: r => (true, r)
    | '+' :: r => (false, r)
    | r => (false, r)
  let (radix, t) := match t with
    | '0' :: 'x' :: r => (16, r)
    | '0' :: 'X' :: r => (16, r)
    | r => (10, r)
  match parseDigits radix t none with
  | some n => some (if neg then - (n : Int) else (n : Int))
  | none => none

/-! ## Regular expressions (the fragment the phone pattern uses) -/

/-- A pattern built from character classes, `?`, a class repeated at least
`n` times, and concatenation. -/
inductive Regex where
  | cls (p : Char → Bool)
  | opt (r : Regex)
  | atLeast (n : Nat) (p : Char → Bool)
  | seq (r s : Regex)

namespace Regex

/-- Remainders left by `[p]{n,}` on the input, longest match first. -/
def restAtLeast (p : Char → Bool) : Nat → List Char → List (List Char)
  | n, [] => if n = 0 then [[]] else []
  | n, c :: t =>
    (if p c then restAtLeast p (n - 1) t else []) ++ (if n = 0 then [c :: t] else [])

/-- Every remainder the backtracking matcher can leave after matching the
pattern at the start of the input, in the order it tries them. -/
def rest : Regex → List Char → List (List Char)
  | cls p, s => match s with
    | c :: t => if p c then [t] else []
    | [] => []
  | opt r, s => rest r s ++ [s]
  | atLeast n p, s => restAtLeast p n s
  | seq r q, s => (rest r s).flatMap (rest q)

/-- The call `/^r$/.test(s)`: some way of matching consumes the whole input. -/
def testAnchored (r : Regex) (s : String) : Bool :=
  (rest r s.data).any List.isEmpty

end Regex

/-! ## Browser and session state (`auth.js`) -/

/-- An HTTP response as the code reads it: the status, and what
`response.json()` resolves to (an error message when it rejects). -/
structure Response where
  status : Nat
  body : Except String JsVal

/-- The property `response.ok`: the status is in the range 200 to 299. -/
def Response.ok (r : Response) : Bool := 200 ≤ r.status && r.status ≤ 299

/-- What a call of `fetch` comes to: it rejects (no answer from the server) or
resolves to a response. -/
inductive FetchResult where
  | networkError (message : String)
  | response (r : Response)

/-- A call `fetch(url, init)`; `init` is `undefined` when omitted. -/
structure Request where
  url : String
  init : JsVal

/-- An error travelling to a `catch`, with its `message`. -/
structure Thrown where
  message : String

/-- The callbacks handed to `setTimeout`. -/
inductive TimerAction where
  | loginRedirect
  | goto (href : String)

/-- The Auth instance together with the browser state it acts on. -/
structure Session where
  token : JsVal
  user : JsVal
  localStorage : List (String × String)
  location : String
  notifications : List (JsVal × String)
  requests : List Request
  timers : List (Nat × TimerAction)

/-- The server (and network) as the code sees it: an answer to each request. -/
abbrev Server := Request → FetchResult

namespace Storage

/-- The call `localStorage.getItem(k)`. -/
def getItem (k : String) : List (String × String) → Option String
  | [] => none
  | (k', v) :: rest => if k' = k then some v else getItem k rest

/-- The call `localStorage.setItem(k, v)`. -/
def setItem (k v : String) : List (String × String) → List (String × String)
  | [] => [(k, v)]
  | (k', v') :: rest => if k' = k then (k, v) :: rest else (k', v') :: setItem k v rest

/-- The call `localStorage.removeItem(k)`. -/
def removeItem (k : String) (store : List (String × String)) : List (String × String) :=
  store.filter (fun p => p.1 != k)

end Storage

/-- The method `String.prototype.includes`. -/
def jsIncludes (s sub : String) : Bool := decide (sub.data <:+: s.data)

namespace Auth

/-- The method `Auth.showNotification(message, type)`: the notification now on
screen is the last one recorded. -/
def showNotification (message : JsVal) (type : String) (st : Session) : Session :=
  { st with notifications := st.notifications ++ [(message, type)] }

/-- The call `fetch(url, init)` recorded in the session. -/
def issue (req : Request) (st : Session) : Session :=
  { st with requests := st.requests ++ [req] }

/-- The call `setTimeout(callback, delay)`. -/
def setTimeout (action : TimerAction) (delay : Nat) (st : Session) : Session :=
  { st with timers := st.timers ++ [(delay, action)] }

/-- The method `Auth.logout` (auth.js 95-101). -/
def logout (st : Session) : Session :=
  { st with
    localStorage := Storage.removeItem "user" (Storage.removeItem "authToken" st.localStorage)
    token := JsVal.null
    user := JsVal.null
    location := "/login" }

/-- The method `Auth.checkAuth` (auth.js 103-114). -/
def checkAuth (st : Session) : Bool × Session :=
  if st.location = "/login" || st.location = "/register" then (true, st)
  else if !st.token.truthy && !jsIncludes st.location "/login"
      && !jsIncludes st.location "/register" then
    (false, { st with location := "/login" })
  else (true, st)

/-- The headers object built at auth.js 122-126. -/
def defaultHeaders (token : JsVal) (options : List (String × JsVal)) : List (String × JsVal) :=
  JsVal.spreadInto
    [("Authorization", JsVal.str ("Bearer " ++ token.toStr)),
     ("Content-Type", JsVal.str "application/json")]
    ((JsVal.lookup "headers" options).getD JsVal.undefined)

/-- The second argument of `fetch` at auth.js 129:
`{ ...defaultOptions, ...options }`. -/
def requestInit (token : JsVal) (options : List (String × JsVal)) : JsVal :=
  JsVal.obj (JsVal.spreadInto [("headers", JsVal.obj (defaultHeaders token options))]
    (JsVal.obj options))

/-- The method `Auth.makeAuthenticatedRequest(url, options)` (auth.js 116-137).
`options` is `none` when the argument is omitted (it then defaults to the
empty object) and otherwise the properties of the object passed. -/
def makeAuthenticatedRequest (server : Server) (url : String)
    (options : Option (List (String × JsVal))) (st : Session) :
    Except Thrown Response × Session :=
  if !st.token.truthy then (Except.error ⟨"Not authenticated"⟩, st)
  else
    let options := options.getD []
    let req : Request := ⟨url, requestInit st.token options⟩
    let st := issue req st
    match server req with
    | FetchResult.networkError m => (Except.error ⟨m⟩, st)
    | FetchResult.response r =>
      if r.status = 401 then (Except.error ⟨"Authentication failed"⟩, logout st)
      else (Except.ok r, st)

/-- The `catch` block of the profile fetch in `login` (auth.js 64-72). -/
def loginFallback (username : String) (st : Session) : Session :=
  let user := JsVal.obj [("username", JsVal.str username), ("is_admin", JsVal.bool false)]
  let st := { st with user := user }
  let st := { st with
    localStorage := Storage.setItem "user" (Json.stringify user).toStr st.localStorage }
  let st := showNotification (JsVal.str "Успешный вход!") "success" st
  setTimeout (TimerAction.goto "/") 1000 st

/-- The outermost `catch` of `login` (auth.js 86-88). -/
def loginConnectionError (st : Session) : Session :=
  showNotification (JsVal.str "Ошибка подключения к серверу") "error" st

/-- The error message `login` shows for a rejected `/token` request
(auth.js 75-83). -/
def loginErrorMessage (r : Response) : JsVal :=
  let errorMessage := JsVal.str "Неверное имя пользователя или пароль"
  match r.body with
  | Except.error _ => errorMessage
  | Except.ok errorData =>
    match errorData.getProp "detail" with
    | none => errorMessage
    | some detail => if detail.truthy then detail else errorMessage

/-- The `fetch` call of auth.js 32-40; the FormData body is written as the
object of its two fields. -/
def tokenRequest (username password : String) : Request :=
  let formData := JsVal.obj [("username", JsVal.str username), ("password", JsVal.str password)]
  ⟨"/token", JsVal.obj [("method", JsVal.str "POST"), ("body", formData)]⟩

/-- The method `Auth.login` (auth.js 23-93) for the entered user name and
password.  The spinner and label toggles of lines 29-30 and 90-91 touch styles
only and are left out. -/
def login (server : Server) (username password : String) (st : Session) : Session :=
  let req := tokenRequest username password
  let st := issue req st
  match server req with
  | FetchResult.networkError _ => loginConnectionError st
  | FetchResult.response response =>
    if response.ok then
      match response.body with
      | Except.error _ => loginConnectionError st
      | Except.ok data =>
        match data.getProp "access_token" with
        | none => loginConnectionError st
        | some accessToken =>
          let st := { st with token := accessToken }
          let st := { st with
            localStorage := Storage.setItem "authToken" st.token.toStr st.localStorage }
          match makeAuthenticatedRequest server "/users/me/" none st with
          | (Except.error _, st) => loginFallback username st
          | (Except.ok userResponse, st) =>
            if userResponse.ok then
              match userResponse.body with
              | Except.error _ => loginFallback username st
              | Except.ok user =>
                let st := { st with user := user }
                let st := { st with
                  localStorage :=
                    Storage.setItem "user" (Json.stringify st.user).toStr st.localStorage }
                let st := showNotification (JsVal.str "Успешный вход!") "success" st
                setTimeout TimerAction.loginRedirect 1000 st
            else loginFallback username st
    else showNotification (loginErrorMessage response) "error" st

/-- Running a timer callback when its delay has passed.  The redirect of
auth.js 56-60 reads `this.user.is_admin` at that moment and throws, changing
nothing, when the user is `null`. -/
def runTimer (action : TimerAction) (st : Session) : Session :=
  match action with
  | TimerAction.goto href => { st with location := href }
  | TimerAction.loginRedirect =>
    if jsIncludes st.location "login" then
      match st.user.getProp "is_admin" with
      | none => st
      | some isAdmin => { st with location := if isAdmin.truthy then "/admin" else "/" }
    else st

end Auth

/-! ## Calendar dates as `Date` exposes them in local time -/

/-- A local calendar date: `getFullYear()`, `getMonth()` (0 to 11) and
`getDate()`. -/
structure CalendarDate where
  year : Nat
  month : Fin 12
  date : Nat
deriving DecidableEq, Repr

/-- A `Date` read through its local-time getters. -/
structure LocalDateTime where
  day : CalendarDate
  hours : Nat
  minutes : Nat
deriving DecidableEq, Repr

namespace CalendarDate

/-- Leap years of the Gregorian calendar. -/
def isLeapYear (y : Nat) : Bool := (y % 4 == 0 && y % 100 != 0) || y % 400 == 0

/-- Number of days of a month (0 is January). -/
def daysInMonth (y : Nat) (m : Fin 12) : Nat :=
  match m.val with
  | 1 => if isLeapYear y then 29 else 28
  | 3 => 30
  | 5 => 30
  | 8 => 30
  | 10 => 30
  | _ => 31

/-- Days of the year before the first of the month. -/
def daysBeforeMonth (y : Nat) (m : Fin 12) : Nat :=
  ((List.finRange 12).filter (fun k => k.val < m.val)).foldl (fun acc k => acc + daysInMonth y k) 0

/-- DayFromYear of ECMAScript: the day number of 1 January, counted from
1 January 1970. -/
def dayFromYear (y : Nat) : Int :=
  365 * ((y : Int) - 1970) + ((y : Int) - 1969) / 4 - ((y : Int) - 1901) / 100
    + ((y : Int) - 1601) / 400

/-- Day number of the date, counted from 1 January 1970. -/
def dayNumber (d : CalendarDate) : Int :=
  dayFromYear d.year + (daysBeforeMonth d.year d.month : Int) + (d.date : Int) - 1

/-- WeekDay of ECMAScript: 0 is Sunday. -/
def weekDay (d : CalendarDate) : Nat := ((dayNumber d + 4) % 7).toNat

/-- The method `setDate(n)` for 1 ≤ n, at most one month past the end of the
month (the caller passes `getDate() + 1`): the overflow rolls into the next
month, and from December into January of the next year. -/
def setDate (d : CalendarDate) (n : Nat) : CalendarDate :=
  if n ≤ daysInMonth d.year d.month then { d with date := n }
  else if h : d.month.val + 1 < 12 then
    { year := d.year, month := ⟨d.month.val + 1, h⟩, date := n - daysInMonth d.year d.month }
  else { year := d.year + 1, month := ⟨0, by decide⟩, date := n - daysInMonth d.year d.month }

/-- Russian weekday names as `toLocaleDateString('ru-RU')` writes them. -/
def weekdayName (w : Nat) : String :=
  match w with
  | 0 => "воскресенье"
  | 1 => "понедельник"
  | 2 => "вторник"
  | 3 => "среда"
  | 4 => "четверг"
  | 5 => "пятница"
  | _ => "суббота"

/-- Russian month names in the genitive, as the long date format writes
them. -/
def monthName (m : Fin 12) : String :=
  match m.val with
  | 0 => "января"
  | 1 => "февраля"
  | 2 => "марта"
  | 3 => "апреля"
  | 4 => "мая"
  | 5 => "июня"
  | 6 => "июля"
  | 7 => "августа"
  | 8 => "сентября"
  | 9 => "октября"
  | 10 => "ноября"
  | _ => "декабря"

/-- The text of `toLocaleDateString('ru-RU', {weekday: 'long', year:
'numeric', month: 'long', day: 'numeric'})` for a valid date, for example
`четверг, 2 января 2025 г.`. -/
def ruLong (d : CalendarDate) : String :=
  weekdayName (weekDay d) ++ ", " ++ toString d.date ++ " " ++ monthName d.month ++ " "
    ++ toString d.year ++ " г."

end CalendarDate

/-- The call `String(n).padStart(2, '0')`. -/
def padStart2 (n : Nat) : String :=
  if n < 10 then "0" ++ toString n else toString n

/-- The `Date` services of the browser that the code relies on: its parser
and its local time zone. -/
structure DateHost where
  /-- The local calendar date of `new Date(s)`; `none` for an Invalid Date. -/
  localDate : String → Option CalendarDate
  /-- The time value of `new Date(s)` in milliseconds; `none` is NaN. -/
  timeValue : String → Option Int

/-- The expression `new Date(s).toLocaleDateString('ru-RU', ...)` of
main.js 396-401 and admin.js 304-309. -/
def DateHost.dateLabel (host : DateHost) (s : String) : String :=
  match host.localDate s with
  | some d => d.ruLong
  | none => "Invalid Date"

/-- The ISO date-time form `YYYY-MM-DDTHH:mm` (optionally `:ss`) without
offset, which `new Date` reads as local time: its calendar date, hours,
minutes and seconds when every field is in range. -/
def parseIsoLocal (s : String) : Option (LocalDateTime × Nat) :=
  let dig (c : Char) : Option Nat := digitValue 10 c
  let two (a b : Char) : Option Nat := do
    let x ← dig a
    let y ← dig b
    pure (10 * x + y)
  let fields (y1 y2 y3 y4 m1 m2 d1 d2 h1 h2 n1 n2 : Char) (sec : Nat) :
      Option (LocalDateTime × Nat) := do
    let yh ← two y1 y2
    let yl ← two y3 y4
    let mo ← two m1 m2
    let da ← two d1 d2
    let ho ← two h1 h2
    let mi ← two n1 n2
    if h : 1 ≤ mo ∧ mo ≤ 12 then
      let month : Fin 12 := ⟨mo - 1, by omega⟩
      let year := 100 * yh + yl
      if 1 ≤ da ∧ da ≤ CalendarDate.daysInMonth year month ∧ ho < 24 ∧ mi < 60 ∧ sec < 60 then
        some (⟨⟨year, month, da⟩, ho, mi⟩, sec)
      else none
    else none
  match s.data with
  | [y1, y2, y3, y4, '-', m1, m2, '-', d1, d2, 'T', h1, h2, ':', n1, n2] =>
    fields y1 y2 y3 y4 m1 m2 d1 d2 h1 h2 n1 n2 0
  | [y1, y2, y3, y4, '-', m1, m2, '-', d1, d2, 'T', h1, h2, ':', n1, n2, ':', s1, s2] =>
    match two s1 s2 with
    | some sec => fields y1 y2 y3 y4 m1 m2 d1 d2 h1 h2 n1 n2 sec
    | none => none
  | _ => none

/-- A browser whose local time is UTC and whose `Date` parser accepts the ISO
date-time form and answers Invalid Date to everything else.  (The engines in
use also accept further English-language forms; to the Russian long-date
labels they all answer Invalid Date, as here.) -/
def isoHost : DateHost where
  localDate s := (parseIsoLocal s).map (fun p => p.1.day)
  timeValue s := (parseIsoLocal s).map (fun p =>
    p.1.day.dayNumber * 86400000 + (p.1.hours : Int) * 3600000 + (p.1.minutes : Int) * 60000
      + (p.2 : Int) * 1000)

/-! ## Appointments and their grouping by date (`main.js`, `admin.js`) -/

/-- An appointment as the server returns it. -/
structure Appointment where
  id : Nat
  client_name : String
  client_phone : String
  service_id : Nat
  service_name : String
  service_price : Nat
  appointment_date : String
  status : String
  notes : Option String
  created_at : String
deriving DecidableEq, Repr

/-- A JavaScript object whose values are arrays of appointments, its keys in
insertion order (no key here is an array index). -/
abbrev Groups := List (String × List Appointment)

namespace Groups

/-- Property read `grouped[date]`; `none` is `undefined`. -/
def get (g : Groups) (date : String) : Option (List Appointment) :=
  match g with
  | [] => none
  | (k, v) :: rest => if k = date then some v else get rest date

/-- Assignment `grouped[date] = v`: an existing key keeps its place, a new
one goes last. -/
def set (g : Groups) (date : String) (v : List Appointment) : Groups :=
  match g with
  | [] => [(date, v)]
  | (k, w) :: rest => if k = date then (k, v) :: rest else (k, w) :: set rest date v

/-- The call `Object.keys(grouped)`. -/
def keys (g : Groups) : List String := g.map Prod.fst

end Groups

/-- Subtraction of two numbers either of which may be NaN (`none`). -/
def numSub (a b : Option Int) : Option Int :=
  match a, b with
  | some x, some y => some (x - y)
  | _, _ => none

/-- SortCompare: `x` has to come after `y` exactly when the comparator gives
a positive number; NaN counts as +0. -/
def sortsAfter {α : Type} (comparefn : α → α → Option Int) (x y : α) : Bool :=
  match comparefn x y with
  | some v => decide (0 < v)
  | none => false

/-- Insertion of one element into a sorted array, behind every element it has
to come after. -/
def jsSortInsert {α : Type} (comparefn : α → α → Option Int) (x : α) : List α → List α
  | [] => [x]
  | y :: ys => if sortsAfter comparefn x y then y :: jsSortInsert comparefn x ys else x :: y :: ys

/-- The method `Array.prototype.sort(comparefn)` as a stable insertion sort.
ECMAScript requires stability; for a comparator that is not consistent the
order is implementation-defined, and this is one such order. -/
def jsSort {α : Type} (comparefn : α → α → Option Int) : List α → List α
  | [] => []
  | x :: xs => jsSortInsert comparefn x (jsSort comparefn xs)

namespace ClientApp

/-- The body of the `forEach` callback (main.js 395-408). -/
def groupStep (host : DateHost) (grouped : Groups) (appointment : Appointment) : Groups :=
  let date := host.dateLabel appointment.appointment_date
  let grouped := if (grouped.get date).isNone then grouped.set date [] else grouped
  grouped.set date ((grouped.get date).getD [] ++ [appointment])

/-- The method `ClientApp.groupAppointmentsByDate` (main.js 392-419). -/
def groupAppointmentsByDate (host : DateHost) (appointments : List Appointment) : Groups :=
  let grouped := appointments.foldl (groupStep host) []
  let sortedKeys :=
    jsSort (fun a b => numSub (host.timeValue b) (host.timeValue a)) grouped.keys
  sortedKeys.foldl
    (fun sortedGrouped date => sortedGrouped.set date ((grouped.get date).getD [])) []

end ClientApp

namespace AdminApp

/-- The body of the `forEach` callback (admin.js 303-316). -/
def groupStep (host : DateHost) (grouped : Groups) (appointment : Appointment) : Groups :=
  let date := host.dateLabel appointment.appointment_date
  let grouped := if (grouped.get date).isNone then grouped.set date [] else grouped
  grouped.set date ((grouped.get date).getD [] ++ [appointment])

/-- The method `AdminApp.groupAppointmentsByDate` (admin.js 300-327). -/
def groupAppointmentsByDate (host : DateHost) (appointments : List Appointment) : Groups :=
  let grouped := appointments.foldl (groupStep host) []
  let sortedKeys :=
    jsSort (fun a b => numSub (host.timeValue b) (host.timeValue a)) grouped.keys
  sortedKeys.foldl
    (fun sortedGrouped date => sortedGrouped.set date ((grouped.get date).getD [])) []

end AdminApp

/-! ## The booking view (`main.js`) -/

/-- The function `encodeURIComponent`: letters, digits and `-_.!~*'()` stay,
every other character becomes the percent-escapes of its UTF-8 bytes. -/
def encodeURIComponent (s : String) : String :=
  let keep (c : Char) : Bool :=
    c.isAlphanum || c == '-' || c == '_' || c == '.' || c == '!' || c == '~' || c == '*'
      || c == Char.ofNat 39 || c == '(' || c == ')'
  let hex (n : Nat) : Char := (Nat.digitChar n).toUpper
  let escape (b : UInt8) : List Char := ['%', hex (b.toNat / 16), hex (b.toNat % 16)]
  String.mk (s.data.flatMap (fun c =>
    if keep c then [c] else (String.utf8EncodeChar c).flatMap escape))

/-- The fields `createAppointment` reads from the booking form;
`serviceSelect` is `none` when the page has no `service-select` element. -/
structure BookingForm where
  clientName : String
  clientPhone : String
  serviceSelect : Option String
  appointmentDate : String
  appointmentNotes : String
deriving DecidableEq, Repr

/-- The character class `[0-9\s\-\(\)]`. -/
def phoneClass (c : Char) : Bool :=
  c.isDigit || isJsWhitespace c || c == '-' || c == '(' || c == ')'

namespace ClientApp

/-- The pattern `/^[\+]?[0-9\s\-\(\)]{10,}$/` of main.js 239 (between its
anchors). -/
def createAppointment_phoneRegex : Regex :=
  Regex.seq (Regex.opt (Regex.cls (fun c => c == '+'))) (Regex.atLeast 10 phoneClass)

/-- The pattern `/^[\+]?[0-9\s\-\(\)]{10,}$/` of main.js 316 (between its
anchors). -/
def searchAppointments_phoneRegex : Regex :=
  Regex.seq (Regex.opt (Regex.cls (fun c => c == '+'))) (Regex.atLeast 10 phoneClass)

/-- The method `ClientApp.showNotification`, which hands over to
`window.auth.showNotification`. -/
def showNotification (message : JsVal) (type : String) (st : Session) : Session :=
  Auth.showNotification message type st

/-- The callback of `errorData.detail.map` (main.js 285-290); `none` is the
TypeError of reading a property of `null`. -/
def errorEntryText (err : JsVal) : Option JsVal :=
  match err.getProp "loc", err.getProp "msg", err.getProp "message" with
  | some loc, some msg, some message =>
    if loc.truthy && msg.truthy then
      some (JsVal.str ((loc.getIndex 1).toStr ++ ": " ++ msg.toStr))
    else some (msg.or message)
  | _, _, _ => none

/-- The error message computed for a rejected booking (main.js 276-298). -/
def errorMessage (response : Response) : JsVal :=
  let errorMessage := JsVal.str "Ошибка при создании записи"
  let httpError := JsVal.str ("HTTP Error: " ++ toString response.status)
  match response.body with
  | Except.error _ => httpError
  | Except.ok errorData =>
    match errorData.getProp "detail" with
    | none => httpError
    | some detail =>
      if detail.truthy then
        match detail with
        | JsVal.str _ => detail
        | JsVal.arr errs =>
          match JsVal.mapThrowing errorEntryText errs with
          | some texts => JsVal.str (JsVal.joinWith ", " texts)
          | none => httpError
        | JsVal.obj _ => Json.stringify detail
        | _ => errorMessage
      else errorMessage

/-- The method `ClientApp.setDefaultDateTime` (main.js 84-100): the value put
in the `appointment-date` field when `new Date()` reads `now`. -/
def setDefaultDateTime (now : LocalDateTime) : String :=
  let tomorrow : LocalDateTime :=
    { day := now.day.setDate (now.day.date + 1), hours := 10, minutes := 0 }
  toString tomorrow.day.year ++ "-" ++ padStart2 (tomorrow.day.month.val + 1) ++ "-"
    ++ padStart2 tomorrow.day.date ++ "T" ++ padStart2 tomorrow.hours ++ ":"
    ++ padStart2 tomorrow.minutes

/-- The minimum that `ClientApp.setupDateTimeInput` gives the field
(main.js 71-78). -/
def setupDateTimeInput_min (now : LocalDateTime) : String :=
  toString now.day.year ++ "-" ++ padStart2 (now.day.month.val + 1) ++ "-"
    ++ padStart2 now.day.date ++ "T" ++ padStart2 now.hours ++ ":" ++ padStart2 now.minutes

/-- The form after `reset()` followed by `setDefaultDateTime()`
(main.js 271-274): fields back to their empty defaults, the date to the default. -/
def resetForm (now : LocalDateTime) (form : BookingForm) : BookingForm :=
  { clientName := ""
    clientPhone := ""
    serviceSelect := form.serviceSelect.map (fun _ => "")
    appointmentDate := setDefaultDateTime now
    appointmentNotes := "" }

/-- The request body built at main.js 246-252. -/
def bookingData (form : BookingForm) (serviceId : Int) : JsVal :=
  JsVal.obj
    [("client_name", JsVal.str (jsTrim form.clientName)),
     ("client_phone", JsVal.str (jsTrim form.clientPhone)),
     ("service_id", JsVal.num serviceId),
     ("appointment_date", JsVal.str form.appointmentDate),
     ("notes", if form.appointmentNotes != "" then JsVal.str (jsTrim form.appointmentNotes)
       else JsVal.null)]

/-- The `fetch` call of main.js 257-263. -/
def bookingRequest (form : BookingForm) (serviceId : Int) : Request :=
  ⟨"/appointments/", JsVal.obj
    [("method", JsVal.str "POST"),
     ("headers", JsVal.obj [("Content-Type", JsVal.str "application/json")]),
     ("body", Json.stringify (bookingData form serviceId))]⟩

/-- The method `ClientApp.createAppointment` (main.js 215-305): the form and
the session afterwards. -/
def createAppointment (server : Server) (now : LocalDateTime) (form : BookingForm)
    (st : Session) : BookingForm × Session :=
  let serviceId : Option Int :=
    match form.serviceSelect with
    | some value => parseInt value
    | none => none
  let noServiceId : Bool :=
    match serviceId with
    | some n => n == 0
    | none => true
  if form.clientName = "" || form.clientPhone = "" || noServiceId
      || form.appointmentDate = "" then
    (form, showNotification (JsVal.str "Пожалуйста, заполните все обязательные поля")
      "error" st)
  else if !createAppointment_phoneRegex.testAnchored (removeWhitespace form.clientPhone) then
    (form, showNotification (JsVal.str "Пожалуйста, введите корректный номер телефона")
      "error" st)
  else
    let req := bookingRequest form (serviceId.getD 0)
    let st := Auth.issue req st
    match server req with
    | FetchResult.networkError m =>
      (form, showNotification (JsVal.str ("Ошибка подключения к серверу: " ++ m)) "error" st)
    | FetchResult.response response =>
      if response.ok then
        match response.body with
        | Except.error m =>
          (form, showNotification (JsVal.str ("Ошибка подключения к серверу: " ++ m))
            "error" st)
        | Except.ok _ =>
          (resetForm now form,
            showNotification
              (JsVal.str "Запись успешно создана! Мы свяжемся с вами для подтверждения.")
              "success" st)
      else (form, showNotification (errorMessage response) "error" st)

/-- Whether `renderClientAppointments` (main.js 338-390) runs through on the
stored value: it needs an array none of whose elements is `null`, or a value
whose `length` is 0. -/
def rendersClientAppointments (v : JsVal) : Bool :=
  match v with
  | JsVal.arr xs => xs.all (fun x => (x.getProp "appointment_date").isSome)
  | JsVal.str s => s = ""
  | JsVal.obj props =>
    match JsVal.lookup "length" props with
    | some (JsVal.num 0) => true
    | _ => false
  | _ => false

/-- The value of `this.clientAppointments.length` in a template literal. -/
def lengthText (v : JsVal) : String :=
  match v with
  | JsVal.arr xs => toString xs.length
  | JsVal.str s => toString s.data.length
  | JsVal.obj props => ((JsVal.lookup "length" props).getD JsVal.undefined).toStr
  | _ => "undefined"

/-- The method `ClientApp.searchAppointments` (main.js 307-336) for the phone
entered in the search field: the stored `clientAppointments` and the session
afterwards. -/
def searchAppointments (server : Server) (phone : String) (clientAppointments : JsVal)
    (st : Session) : JsVal × Session :=
  if phone = "" then
    (clientAppointments,
      showNotification (JsVal.str "Пожалуйста, введите номер телефона") "error" st)
  else if !searchAppointments_phoneRegex.testAnchored (removeWhitespace phone) then
    (clientAppointments,
      showNotification (JsVal.str "Пожалуйста, введите корректный номер телефона") "error" st)
  else
    let req : Request := ⟨"/client-appointments/" ++ encodeURIComponent phone, JsVal.undefined⟩
    let st := Auth.issue req st
    let connectionError := showNotification (JsVal.str "Ошибка подключения к серверу") "error" st
    match server req with
    | FetchResult.networkError _ => (clientAppointments, connectionError)
    | FetchResult.response response =>
      if response.ok then
        match response.body with
        | Except.error _ => (clientAppointments, connectionError)
        | Except.ok found =>
          if rendersClientAppointments found then
            (found, showNotification (JsVal.str ("Найдено записей: " ++ lengthText found))
              "success" st)
          else (found, connectionError)
      else
        (clientAppointments,
          showNotification (JsVal.str "Ошибка при поиске записей") "error" st)

end ClientApp

/-! ## The admin console (`admin.js`) -/

/-- The fields of an AdminApp instance, with the session it works in. -/
structure AdminApp where
  session : Session
  appointments : JsVal
  historyAppointments : JsVal
  clients : JsVal
  services : JsVal
  statistics : JsVal
  settings : JsVal

namespace AdminApp

/-- The method `AdminApp.showNotification`, which hands over to
`window.auth.showNotification`. -/
def showNotification (message : JsVal) (type : String) (app : AdminApp) : AdminApp :=
  { app with session := Auth.showNotification message type app.session }

/-- Whether `renderAppointments` (admin.js 179-225) runs through on the stored
value: `filter` needs an array, and reading `status` an element other than
`null`. -/
def rendersAppointments (v : JsVal) : Bool :=
  match v with
  | JsVal.arr xs => xs.all (fun x => (x.getProp "status").isSome)
  | _ => false

/-- The method `AdminApp.loadAppointments` (admin.js 96-105). -/
def loadAppointments (server : Server) (app : AdminApp) : AdminApp :=
  let failed (app : AdminApp) := showNotification (JsVal.str "Ошибка загрузки записей") "error" app
  match Auth.makeAuthenticatedRequest server "/appointments-with-details/" none app.session with
  | (Except.error _, st) => failed { app with session := st }
  | (Except.ok response, st) =>
    let app := { app with session := st }
    match response.body with
    | Except.error _ => failed app
    | Except.ok data =>
      let app := { app with appointments := data }
      if rendersAppointments data then app else failed app

/-- Whether `(x || 0).toFixed(2)` runs through: the value must be a number. -/
def hasToFixed (x : JsVal) : Bool :=
  match x.or (JsVal.num 0) with
  | JsVal.num _ => true
  | _ => false

/-- Whether `renderPopularServices` (admin.js 448-463) runs through on the
value of `popular_services`. -/
def rendersPopularServices (ps : JsVal) : Bool :=
  if !ps.truthy then true
  else
    match ps with
    | JsVal.arr xs => xs.all (fun x => (x.getProp "name").isSome)
    | JsVal.obj props =>
      match JsVal.lookup "length" props with
      | some (JsVal.num 0) => true
      | _ => false
    | _ => false

/-- Whether `renderStatistics` (admin.js 413-446) runs through on the stored
value. -/
def rendersStatistics (v : JsVal) : Bool :=
  match v.getProp "total_revenue", v.getProp "monthly_revenue", v.getProp "popular_services" with
  | some total, some monthly, some popular =>
    hasToFixed total && hasToFixed monthly && rendersPopularServices popular
  | _, _, _ => false

/-- The method `AdminApp.loadStatistics` (admin.js 158-167). -/
def loadStatistics (server : Server) (app : AdminApp) : AdminApp :=
  let failed (app : AdminApp) :=
    showNotification (JsVal.str "Ошибка загрузки статистики") "error" app
  match Auth.makeAuthenticatedRequest server "/statistics/" none app.session with
  | (Except.error _, st) => failed { app with session := st }
  | (Except.ok response, st) =>
    let app := { app with session := st }
    match response.body with
    | Except.error _ => failed app
    | Except.ok data =>
      let app := { app with statistics := data }
      if rendersStatistics data then app else failed app

/-- The callback of `errorData.detail.map` (admin.js 532-537); `none` is the
TypeError of reading a property of `null`. -/
def errorEntryText (err : JsVal) : Option JsVal :=
  match err.getProp "loc", err.getProp "msg", err.getProp "message" with
  | some loc, some msg, some message =>
    if loc.truthy && msg.truthy then
      some (JsVal.str ((loc.getIndex 1).toStr ++ ": " ++ msg.toStr))
    else some (msg.or message)
  | _, _, _ => none

/-- The error message computed for a rejected status update
(admin.js 523-547). -/
def errorMessage (response : Response) : JsVal :=
  let errorMessage := JsVal.str "Ошибка при обновлении статуса"
  let httpError := JsVal.str ("HTTP Error: " ++ toString response.status)
  match response.body with
  | Except.error _ => httpError
  | Except.ok errorData =>
    match errorData.getProp "detail", errorData.getProp "message" with
    | some detail, some message =>
      if detail.truthy then
        match detail with
        | JsVal.str _ => detail
        | JsVal.arr errs =>
          match JsVal.mapThrowing errorEntryText errs with
          | some texts => JsVal.str (JsVal.joinWith ", " texts)
          | none => httpError
        | JsVal.obj _ => Json.stringify detail
        | _ => errorMessage
      else if message.truthy then message
      else errorMessage
    | _, _ => httpError

/-- The options passed at admin.js 506-512. -/
def statusUpdateOptions (status : String) : List (String × JsVal) :=
  [("method", JsVal.str "PUT"),
   ("headers", JsVal.obj [("Content-Type", JsVal.str "application/json")]),
   ("body", Json.stringify (JsVal.obj [("status", JsVal.str status)]))]

/-- The method `AdminApp.updateAppointmentStatus` (admin.js 504-554). -/
def updateAppointmentStatus (server : Server) (appointmentId status : String)
    (app : AdminApp) : AdminApp :=
  match Auth.makeAuthenticatedRequest server ("/appointments/" ++ appointmentId ++ "/status")
      (some (statusUpdateOptions status)) app.session with
  | (Except.error e, st) =>
    showNotification (JsVal.str ("Ошибка подключения к серверу: " ++ e.message)) "error"
      { app with session := st }
  | (Except.ok response, st) =>
    let app := { app with session := st }
    if response.ok then
      match response.body with
      | Except.error m =>
        showNotification (JsVal.str ("Ошибка подключения к серверу: " ++ m)) "error" app
      | Except.ok _ =>
        let app := showNotification
          (JsVal.str ("Статус записи обновлен на " ++ String.mk [Char.ofNat 34] ++ status
            ++ String.mk [Char.ofNat 34])) "success" app
        let app := loadAppointments server app
        loadStatistics server app
    else showNotification (errorMessage response) "error" app

end AdminApp

/-! ## Readings of the specification -/

/-- The value of a header of an issued request, when its `init` carries one of
that name. -/
def Request.header (r : Request) (name : String) : Option JsVal :=
  match r.init with
  | JsVal.obj props =>
    match JsVal.lookup "headers" props with
    | some (JsVal.obj hs) => JsVal.lookup name hs
    | _ => none
  | _ => none

/-- The accepted phone format in the words of the specification: with all
whitespace removed, an optional leading `+` followed by at least 10 characters
each of which is a digit, `-`, `(` or `)`. -/
def phoneSpec (p : String) : Bool :=
  let q := p.data.filter (fun c => !isJsWhitespace c)
  let body := match q with
    | '+' :: rest => rest
    | _ => q
  decide (10 ≤ body.length) && body.all (fun c => c.isDigit || c == '-' || c == '(' || c == ')')

/-- The distinct labels of a list in the order in which they first appear. -/
def firstSeen (labels : List String) : List String :=
  labels.foldl (fun acc k => if k ∈ acc then acc else acc ++ [k]) []

/-- The text the specification gives one entry of an array `detail`:
`<field>: <message>` with the field taken from `loc[1]` when the entry has
`loc` and `msg`, and otherwise what `join` makes of `msg || message`. -/
def entryDisplay (e : JsVal) : String :=
  let loc := (e.getProp "loc").getD JsVal.undefined
  let msg := (e.getProp "msg").getD JsVal.undefined
  let message := (e.getProp "message").getD JsVal.undefined
  if loc.truthy && msg.truthy then (loc.getIndex 1).toStr ++ ": " ++ msg.toStr
  else (msg.or message).elemStr

/-! ## Closed forms, specification predicates and sample inputs -/

/-- The label under which an appointment is grouped. -/
def Appointment.label (host : DateHost) (a : Appointment) : String :=
  host.dateLabel a.appointment_date

/-- The object `grouped` after the `forEach` loop, in closed form: one entry per
label in order of first appearance, holding the appointments of that label in
input order. -/
def groupedSpec (host : DateHost) (xs : List Appointment) : Groups :=
  (firstSeen (xs.map (fun a => host.dateLabel a.appointment_date))).map
    (fun k => (k, xs.filter (fun a => host.dateLabel a.appointment_date = k)))

/-- The keys of the object that `groupAppointmentsByDate` returns, in order: the
labels in order of first appearance, put through the sort of main.js 412-413. -/
def sortedLabels (host : DateHost) (xs : List Appointment) : List String :=
  jsSort (fun a b => numSub (host.timeValue b) (host.timeValue a))
    (firstSeen (xs.map (fun a => host.dateLabel a.appointment_date)))

/-- Totality of a grouping of `xs` in the words of the specification: one group
per date, every appointment in exactly one group and exactly once, nothing in
a group that was not in the input, and two appointments together exactly when
they fall on the same calendar date. -/
def IsTotalGrouping (host : DateHost) (xs : List Appointment) (groups : Groups) : Prop :=
  groups.keys.Nodup
    ∧ (groups.map Prod.snd).flatten.Perm xs
    ∧ (∀ k g, (k, g) ∈ groups → ∀ a ∈ g, a.label host = k)
    ∧ (∀ a ∈ xs, ∀ b ∈ xs, (∃ k g, (k, g) ∈ groups ∧ a ∈ g ∧ b ∈ g)
        ↔ host.localDate a.appointment_date = host.localDate b.appointment_date)

/-- Stability of a grouping of `xs`: each group lists, in input order, the
appointments of the input that carry the label of the group. -/
def IsStableGrouping (host : DateHost) (xs : List Appointment) (groups : Groups) : Prop :=
  ∀ k g, (k, g) ∈ groups → g = xs.filter (fun a => a.label host = k) ∧ g.Sublist xs

/-- Reading a run of decimal digits back, continuing from `acc`. -/
def readDecimal (acc : Nat) (cs : List Char) : Nat :=
  cs.foldl (fun a c => a * 10 + (c.toNat - 48)) acc

/-- A session with nothing stored, on the booking page. -/
def emptySession : Session :=
  { token := JsVal.null, user := JsVal.null, localStorage := [], location := "/",
    notifications := [], requests := [], timers := [] }

/-- A session with nothing stored, on the login page. -/
def loginSession : Session :=
  { token := JsVal.null, user := JsVal.null, localStorage := [], location := "/login",
    notifications := [], requests := [], timers := [] }

/-- A signed-in administrator on the admin page. -/
def adminSession : Session :=
  { token := JsVal.str "abc", user := JsVal.obj [("username", JsVal.str "admin"),
      ("is_admin", JsVal.bool true)],
    localStorage := [("authToken", "abc"),
      ("user", (Json.stringify (JsVal.obj [("username", JsVal.str "admin"),
        ("is_admin", JsVal.bool true)])).toStr)],
    location := "/admin", notifications := [], requests := [], timers := [] }

/-- The admin console of a signed-in administrator before any data is loaded. -/
def adminApp : AdminApp :=
  { session := adminSession, appointments := JsVal.arr [], historyAppointments := JsVal.arr [],
    clients := JsVal.arr [], services := JsVal.arr [], statistics := JsVal.obj [],
    settings := JsVal.obj [] }

/-- A server that cannot be reached. -/
def offlineServer : Server := fun _ => FetchResult.networkError "Failed to fetch"

/-- A server that gives the same answer to every request. -/
def answering (r : Response) : Server := fun _ => FetchResult.response r

/-- A server that issues the token `abc` and then answers 401 to it. -/
def rejectingTokenServer : Server := fun req =>
  if req.url = "/token" then
    FetchResult.response ⟨200, Except.ok (JsVal.obj [("access_token", JsVal.str "abc"),
      ("token_type", JsVal.str "bearer")])⟩
  else
    FetchResult.response ⟨401, Except.ok (JsVal.obj
      [("detail", JsVal.str "Could not validate credentials")])⟩

/-- A validation error body with one well-formed entry. -/
def validationError : JsVal :=
  JsVal.obj [("detail", JsVal.arr [JsVal.obj
    [("loc", JsVal.arr [JsVal.str "body", JsVal.str "username"]),
     ("msg", JsVal.str "field required"), ("type", JsVal.str "value_error.missing")]])]

/-- Noon of 4 November 2026. -/
def sampleNow : LocalDateTime := ⟨⟨2026, 10, 4⟩, 12, 0⟩

/-- A filled booking form with the phone of the example in the specification. -/
def sampleForm : BookingForm :=
  { clientName := "Ivan", clientPhone := "+7 999 123 45 67", serviceSelect := some "2",
    appointmentDate := "2025-01-02T10:00", appointmentNotes := "" }

/-- Two appointments on consecutive days, the earlier one first. -/
def sampleAppointments : List Appointment :=
  [⟨1, "Ivan", "+7 999 123 45 67", 2, "Стрижка", 1500, "2025-01-01T10:00:00", "pending", none,
      "2024-12-30T09:00:00"⟩,
   ⟨2, "Anna", "+7 999 765 43 21", 2, "Стрижка", 1500, "2025-01-02T10:00:00", "pending", none,
      "2024-12-30T09:05:00"⟩]

/-! ## The admin console: further loads, the pending panel, the initial load -/

/-- The strict comparison `v === s` with a string literal. -/
def JsVal.isStr (v : JsVal) (s : String) : Bool :=
  match v with
  | JsVal.str t => t == s
  | _ => false

/-- The application/x-www-form-urlencoded escape of a string: letters, digits
and `*-._` stay, a space becomes `+`, every other character becomes the
percent-escapes of its UTF-8 bytes. -/
def formUrlEncode (s : String) : String :=
  let keep (c : Char) : Bool := c.isAlphanum || c == '*' || c == '-' || c == '.' || c == '_'
  let hex (n : Nat) : Char := (Nat.digitChar n).toUpper
  let escape (b : UInt8) : List Char := ['%', hex (b.toNat / 16), hex (b.toNat % 16)]
  String.mk (s.data.flatMap (fun c =>
    if keep c then [c] else if c == ' ' then ['+'] else (String.utf8EncodeChar c).flatMap escape))

/-- The text of a URLSearchParams object in a template literal: `name=value`
pairs in order of `append`, joined by `&`. -/
def urlSearchParamsText (params : List (String × String)) : String :=
  "&".intercalate (params.map (fun p => formUrlEncode p.1 ++ "=" ++ formUrlEncode p.2))

/-- What `renderAppointments` puts into the pending panel: the empty-state card,
or one card per appointment shown. -/
inductive PendingPanel where
  | emptyCard
  | cards (shown : List JsVal)

/-- The five loads of `loadInitialData`, in the order of its array. -/
inductive LoadKind where
  | appointments
  | clients
  | services
  | statistics
  | settings
deriving DecidableEq, Repr

namespace AdminApp

/-- The call `this.appointments.filter(apt => apt.status === 'pending')` on the
elements of an array; `none` is the TypeError of reading `status` of `null`. -/
def filterPending : List JsVal → Option (List JsVal)
  | [] => some []
  | apt :: rest =>
    match apt.getProp "status" with
    | none => none
    | some status =>
      match filterPending rest with
      | none => none
      | some kept => some (if status.isStr "pending" then apt :: kept else kept)

/-- The method `AdminApp.renderAppointments` (admin.js 179-225): the content it
gives the pending panel; `none` when it throws (the stored value is no array,
or has a `null` element). -/
def renderAppointments (appointments : JsVal) : Option PendingPanel :=
  match appointments with
  | JsVal.arr xs =>
    match filterPending xs with
    | none => none
    | some pendingAppointments =>
      if pendingAppointments.length = 0 then some PendingPanel.emptyCard
      else some (PendingPanel.cards pendingAppointments)
  | _ => none

/-- The `data-id` attribute written on the buttons of a card (admin.js 206-207). -/
def cardDataId (appointment : JsVal) : String :=
  ((appointment.getProp "id").getD JsVal.undefined).toStr

/-- The click listener of a confirm button (admin.js 214-218). -/
def clickConfirm (server : Server) (appointment : JsVal) (app : AdminApp) : AdminApp :=
  updateAppointmentStatus server (cardDataId appointment) "confirmed" app

/-- The click listener of a reject button (admin.js 220-224). -/
def clickCancel (server : Server) (appointment : JsVal) (app : AdminApp) : AdminApp :=
  updateAppointmentStatus server (cardDataId appointment) "cancelled" app

/-- Whether a render that asks `length === 0` and otherwise runs `forEach`,
reading the property `key` of each element, runs through on the stored value
(`renderClients`, `renderServicesManagement`, `renderHistoryAppointments`). -/
def rendersList (key : String) (v : JsVal) : Bool :=
  match v with
  | JsVal.arr xs => xs.all (fun x => (x.getProp key).isSome)
  | JsVal.str s => s = ""
  | JsVal.obj props =>
    match JsVal.lookup "length" props with
    | some (JsVal.num 0) => true
    | _ => false
  | _ => false

/-- Whether `renderSettings` (admin.js 465-475) runs through on the stored
value: it reads properties of `this.settings`. -/
def rendersSettings (v : JsVal) : Bool := (v.getProp "business_name").isSome

/-- The method `AdminApp.loadClients` (admin.js 136-145). -/
def loadClients (server : Server) (app : AdminApp) : AdminApp :=
  let failed (app : AdminApp) := showNotification (JsVal.str "Ошибка загрузки клиентов") "error" app
  match Auth.makeAuthenticatedRequest server "/clients/" none app.session with
  | (Except.error _, st) => failed { app with session := st }
  | (Except.ok response, st) =>
    let app := { app with session := st }
    match response.body with
    | Except.error _ => failed app
    | Except.ok data =>
      let app := { app with clients := data }
      if rendersList "name" data then app else failed app

/-- The method `AdminApp.loadServices` (admin.js 147-156). -/
def loadServices (server : Server) (app : AdminApp) : AdminApp :=
  let failed (app : AdminApp) := showNotification (JsVal.str "Ошибка загрузки услуг") "error" app
  match Auth.makeAuthenticatedRequest server "/services/" none app.session with
  | (Except.error _, st) => failed { app with session := st }
  | (Except.ok response, st) =>
    let app := { app with session := st }
    match response.body with
    | Except.error _ => failed app
    | Except.ok data =>
      let app := { app with services := data }
      if rendersList "name" data then app else failed app

/-- The method `AdminApp.loadSettings` (admin.js 169-177); its `catch` only
logs. -/
def loadSettings (server : Server) (app : AdminApp) : AdminApp :=
  match Auth.makeAuthenticatedRequest server "/admin/settings/" none app.session with
  | (Except.error _, st) => { app with session := st }
  | (Except.ok response, st) =>
    let app := { app with session := st }
    match response.body with
    | Except.error _ => app
    | Except.ok data => { app with settings := data }

/-- The URLSearchParams built at admin.js 113-116 from the three filter
fields. -/
def historyParams (status dateFrom dateTo : String) : List (String × String) :=
  (if status != "" && status != "all" then [("status", status)] else [])
    ++ (if dateFrom != "" then [("date_from", dateFrom)] else [])
    ++ (if dateTo != "" then [("date_to", dateTo)] else [])

/-- The method `AdminApp.loadHistoryAppointments` (admin.js 107-127) for the
values of the three filter fields. -/
def loadHistoryAppointments (server : Server) (status dateFrom dateTo : String)
    (app : AdminApp) : AdminApp :=
  let failed (app : AdminApp) :=
    showNotification (JsVal.str "Ошибка загрузки истории записей") "error" app
  let params := historyParams status dateFrom dateTo
  match Auth.makeAuthenticatedRequest server
      ("/admin/all-appointments/?" ++ urlSearchParamsText params) none app.session with
  | (Except.error _, st) => failed { app with session := st }
  | (Except.ok response, st) =>
    let app := { app with session := st }
    match response.body with
    | Except.error _ => failed app
    | Except.ok data =>
      let app := { app with historyAppointments := data }
      if rendersList "appointment_date" data then
        showNotification (JsVal.str ("Найдено записей: " ++ ClientApp.lengthText data))
          "success" app
      else failed app

end AdminApp

namespace LoadKind

/-- The loads in the order in which `loadInitialData` starts them
(admin.js 87-93). -/
def all : List LoadKind := [appointments, clients, services, statistics, settings]

/-- The endpoint a load fetches. -/
def url : LoadKind → String
  | appointments => "/appointments-with-details/"
  | clients => "/clients/"
  | services => "/services/"
  | statistics => "/statistics/"
  | settings => "/admin/settings/"

/-- The field of the console a load assigns. -/
def store (k : LoadKind) (data : JsVal) (app : AdminApp) : AdminApp :=
  match k with
  | appointments => { app with appointments := data }
  | clients => { app with clients := data }
  | services => { app with services := data }
  | statistics => { app with statistics := data }
  | settings => { app with settings := data }

/-- The field of the console a load assigns, read. -/
def read (k : LoadKind) (app : AdminApp) : JsVal :=
  match k with
  | appointments => app.appointments
  | clients => app.clients
  | services => app.services
  | statistics => app.statistics
  | settings => app.settings

/-- Whether the render that follows the assignment runs through. -/
def renders (k : LoadKind) (data : JsVal) : Bool :=
  match k with
  | appointments => AdminApp.rendersAppointments data
  | clients => AdminApp.rendersList "name" data
  | services => AdminApp.rendersList "name" data
  | statistics => AdminApp.rendersStatistics data
  | settings => AdminApp.rendersSettings data

/-- The `catch` block of a load. -/
def failed (k : LoadKind) (app : AdminApp) : AdminApp :=
  match k with
  | appointments => AdminApp.showNotification (JsVal.str "Ошибка загрузки записей") "error" app
  | clients => AdminApp.showNotification (JsVal.str "Ошибка загрузки клиентов") "error" app
  | services => AdminApp.showNotification (JsVal.str "Ошибка загрузки услуг") "error" app
  | statistics => AdminApp.showNotification (JsVal.str "Ошибка загрузки статистики") "error" app
  | settings => app

/-- The request a load issues while it holds `token`. -/
def request (k : LoadKind) (token : JsVal) : Request := ⟨k.url, Auth.requestInit token []⟩

/-- A load up to its `await fetch(...)`: without token it ends in its `catch`,
with a token the request goes out. -/
def begin (k : LoadKind) (app : AdminApp) : AdminApp :=
  if !app.session.token.truthy then k.failed app
  else { app with session := Auth.issue (k.request app.session.token) app.session }

/-- A load from the moment its `fetch` settles: the rest of
`makeAuthenticatedRequest` (auth.js 131-136), then the assignment and the
render, or the `catch`.  The flag tells whether the region was rendered. -/
def settle (k : LoadKind) (result : FetchResult) (app : AdminApp) : AdminApp × Bool :=
  match result with
  | FetchResult.networkError _ => (k.failed app, false)
  | FetchResult.response r =>
    if r.status = 401 then (k.failed { app with session := Auth.logout app.session }, false)
    else
      match r.body with
      | Except.error _ => (k.failed app, false)
      | Except.ok data =>
        let app := k.store data app
        if k.renders data then (app, true) else (k.failed app, false)

end LoadKind

/-- One step of the second phase of `loadInitialData`: the answer to the load
`k` comes in and the load finishes; a rendered region is recorded. -/
def LoadKind.settleStep (server : Server) (token : JsVal) (acc : AdminApp × List LoadKind)
    (k : LoadKind) : AdminApp × List LoadKind :=
  ((k.settle (server (k.request token)) acc.1).1,
    if (k.settle (server (k.request token)) acc.1).2 then acc.2 ++ [k] else acc.2)

namespace AdminApp

/-- The method `AdminApp.loadInitialData` (admin.js 86-94).  The five loads
start one after the other, each running up to its `await fetch(...)`, so all
requests go out with the token held at that moment; the loads then finish in
the order `arrival` in which their answers come in.  Every load ends in its own
`try` or `catch`, so the `Promise.all` is fulfilled.  The result is the console
afterwards and the regions rendered, in order. -/
def loadInitialData (server : Server) (arrival : List LoadKind) (app : AdminApp) :
    AdminApp × List LoadKind :=
  let token := app.session.token
  let started := LoadKind.all.foldl (fun app k => k.begin app) app
  if !token.truthy then (started, [])
  else arrival.foldl (LoadKind.settleStep server token) (started, [])

end AdminApp

/-! ## Further specification predicates and sample inputs -/

/-- The text `YYYY-MM-DDTHH:mm` that main.js 78 and 99 assemble from the getters of
a `Date`: the year as it is, the other fields padded to two digits. -/
def isoMinuteText (t : LocalDateTime) : String :=
  toString t.day.year ++ "-" ++ padStart2 (t.day.month.val + 1) ++ "-"
    ++ padStart2 t.day.date ++ "T" ++ padStart2 t.hours ++ ":" ++ padStart2 t.minutes

/-- The request that `updateAppointmentStatus` hands to `fetch` while the session
holds `token`. -/
def statusUpdateRequest (token : JsVal) (appointmentId status : String) : Request :=
  ⟨"/appointments/" ++ appointmentId ++ "/status",
    Auth.requestInit token (AdminApp.statusUpdateOptions status)⟩

/-- An appointment whose `status` is the string `pending`. -/
def isPendingAppointment (apt : JsVal) : Bool :=
  ((apt.getProp "status").getD JsVal.undefined).isStr "pending"

/-- A server that issues the token `abc` and answers 500 to the profile fetch. -/
def failingProfileServer : Server := fun req =>
  if req.url = "/token" then
    FetchResult.response ⟨200, Except.ok (JsVal.obj [("access_token", JsVal.str "abc"),
      ("token_type", JsVal.str "bearer")])⟩
  else
    FetchResult.response ⟨500, Except.ok (JsVal.obj
      [("detail", JsVal.str "Internal Server Error")])⟩

/-- The last minute of 2025. -/
def newYearsEve : LocalDateTime := ⟨⟨2025, 11, 31⟩, 23, 59⟩

/-- A server that accepts the status update of appointment 5 and answers every
other request with an empty array. -/
def acceptingServer : Server := fun req =>
  if req.url = "/appointments/5/status" then
    FetchResult.response ⟨200, Except.ok (JsVal.obj [("id", JsVal.num 5),
      ("status", JsVal.str "confirmed")])⟩
  else FetchResult.response ⟨200, Except.ok (JsVal.arr [])⟩

/-- A server that accepts the status update of appointment 5 and answers 401 to
every other request. -/
def expiringServer : Server := fun req =>
  if req.url = "/appointments/5/status" then
    FetchResult.response ⟨200, Except.ok (JsVal.obj [("id", JsVal.num 5),
      ("status", JsVal.str "confirmed")])⟩
  else FetchResult.response ⟨401, Except.ok (JsVal.obj
    [("detail", JsVal.str "Could not validate credentials")])⟩

/-- A pending appointment with id 5 as the server lists it. -/
def pendingAppointment : JsVal :=
  JsVal.obj [("id", JsVal.num 5), ("client_name", JsVal.str "Ivan"),
    ("status", JsVal.str "pending")]

/-- A server on which `/statistics/` cannot be reached and every other endpoint
answers: the settings with a record, the lists with an empty array. -/
def statisticsDownServer : Server := fun req =>
  if req.url = "/statistics/" then FetchResult.networkError "Failed to fetch"
  else if req.url = "/admin/settings/" then
    FetchResult.response ⟨200, Except.ok (JsVal.obj [("business_name", JsVal.str "Salon")])⟩
  else FetchResult.response ⟨200, Except.ok (JsVal.arr [])⟩

/-! ## The settings form, the start of the console, operation sequences -/

/-- The optional chain `v?.k`: `undefined` when `v` is `undefined` or `null`. -/
def JsVal.optProp (v : JsVal) (k : String) : JsVal := (v.getProp k).getD JsVal.undefined

/-- A number that may be NaN (`none`) as `JSON.stringify` writes it when it is
the value of a property: NaN is written `null`. -/
def nanAsJson : Option Int → JsVal
  | some n => JsVal.num n
  | none => JsVal.null

/-- The `value` of each field of the settings form. -/
structure SettingsForm where
  businessName : String
  businessAddress : String
  businessPhone : String
  businessEmail : String
  workingHours : String
  notificationHours : String
deriving DecidableEq, Repr

/-- What the admin page offers `bindEvents` and `setupHeader`: the number of
`.menu-item` elements and whether each of the other elements is there. -/
structure AdminPage where
  menuItems : Nat
  serviceForm : Bool
  settingsForm : Bool
  historyFiltersForm : Bool
  resetFilters : Bool
  logoutBtn : Bool
  userMenu : Bool
  userAvatar : Bool
deriving DecidableEq, Repr

/-- The event listeners `bindEvents` registers. -/
inductive Listener where
  | menuItemClick (index : Nat)
  | serviceFormSubmit
  | settingsFormSubmit
  | historyFiltersSubmit
  | resetFiltersClick
  | logoutClick
deriving DecidableEq, Repr

namespace AdminApp

/-- The method `AdminApp.renderSettings` (admin.js 465-475) on a page that has
the settings form: the values it gives the six fields, an assignment to
`value` storing the text of what is assigned.  `none` is the TypeError of
reading a property of `undefined` or `null`, thrown before any field is set. -/
def renderSettings (settings : JsVal) : Option SettingsForm :=
  match settings.getProp "business_name", settings.getProp "business_address",
    settings.getProp "business_phone", settings.getProp "business_email",
    settings.getProp "working_hours", settings.getProp "notification_reminder_hours" with
  | some name, some address, some phone, some email, some hours, some reminder =>
    some
      { businessName := (name.or (JsVal.str "")).toStr
        businessAddress := (address.or (JsVal.str "")).toStr
        businessPhone := (phone.or (JsVal.str "")).toStr
        businessEmail := (email.or (JsVal.str "")).toStr
        workingHours := (hours.or (JsVal.str "")).toStr
        notificationHours := (reminder.or (JsVal.num 24)).toStr }
  | _, _, _, _, _, _ => none

/-- The object `formData` of admin.js 557-564 as `JSON.stringify` reads it. -/
def settingsData (form : SettingsForm) : JsVal :=
  JsVal.obj
    [("business_name", JsVal.str form.businessName),
     ("business_address", JsVal.str form.businessAddress),
     ("business_phone", JsVal.str form.businessPhone),
     ("business_email", JsVal.str form.businessEmail),
     ("working_hours", JsVal.str form.workingHours),
     ("notification_reminder_hours", nanAsJson (parseInt form.notificationHours))]

/-- The options passed at admin.js 567-570. -/
def settingsUpdateOptions (form : SettingsForm) : List (String × JsVal) :=
  [("method", JsVal.str "PUT"), ("body", Json.stringify (settingsData form))]

/-- The method `AdminApp.updateSettings` (admin.js 556-582) for the values of
the form fields. -/
def updateSettings (server : Server) (form : SettingsForm) (app : AdminApp) : AdminApp :=
  match Auth.makeAuthenticatedRequest server "/admin/settings/"
      (some (settingsUpdateOptions form)) app.session with
  | (Except.error _, st) =>
    showNotification (JsVal.str "Ошибка при обновлении настроек") "error"
      { app with session := st }
  | (Except.ok response, st) =>
    let app := { app with session := st }
    if response.ok then
      let app := showNotification (JsVal.str "Настройки успешно обновлены!") "success" app
      loadSettings server app
    else showNotification (JsVal.str "Ошибка при обновлении настроек") "error" app

/-- The method `AdminApp.bindEvents` (admin.js 40-84): one click listener per
menu item, and one listener for each of the five elements the page has. -/
def bindEvents (page : AdminPage) : List Listener :=
  (List.range page.menuItems).map Listener.menuItemClick
    ++ (if page.serviceForm then [Listener.serviceFormSubmit] else [])
    ++ (if page.settingsForm then [Listener.settingsFormSubmit] else [])
    ++ (if page.historyFiltersForm then [Listener.historyFiltersSubmit] else [])
    ++ (if page.resetFilters then [Listener.resetFiltersClick] else [])
    ++ (if page.logoutBtn then [Listener.logoutClick] else [])

/-- Whether `setupHeader` (admin.js 26-38) runs through: with a user, a
`.user-menu` and a `.user-avatar` it calls `user.username.charAt(0)`, which
needs a string. -/
def setupHeaderRuns (page : AdminPage) (user : JsVal) : Bool :=
  if user.truthy && page.userMenu && page.userAvatar then
    match user.getProp "username" with
    | some (JsVal.str _) => true
    | _ => false
  else true

/-- The method `AdminApp.init` (admin.js 12-24): the console afterwards and the
listeners bound.  A throw of `setupHeader` ends it before the data is loaded. -/
def init (server : Server) (arrival : List LoadKind) (page : AdminPage) (app : AdminApp) :
    AdminApp × List Listener :=
  match Auth.checkAuth app.session with
  | (false, st) => ({ app with session := st }, [])
  | (true, st) =>
    let app := { app with session := st }
    if !(app.session.user.optProp "is_admin").truthy then
      let st := Auth.showNotification (JsVal.str "Недостаточно прав для доступа к админке")
        "error" app.session
      ({ app with session := Auth.setTimeout (TimerAction.goto "/") 2000 st }, [])
    else
      let listeners := bindEvents page
      if setupHeaderRuns page app.session.user then
        ((loadInitialData server arrival app).1, listeners)
      else (app, listeners)

end AdminApp

/-- The method of the console that a load stands for. -/
def LoadKind.load (k : LoadKind) (server : Server) (app : AdminApp) : AdminApp :=
  match k with
  | LoadKind.appointments => AdminApp.loadAppointments server app
  | LoadKind.clients => AdminApp.loadClients server app
  | LoadKind.services => AdminApp.loadServices server app
  | LoadKind.statistics => AdminApp.loadStatistics server app
  | LoadKind.settings => AdminApp.loadSettings server app

/-- A sequence of load operations, each run to its end before the next starts
and each against the server as it answers at that time. -/
def AdminApp.runLoads (ops : List (LoadKind × Server)) (app : AdminApp) : AdminApp :=
  ops.foldl (fun app op => op.1.load op.2 app) app

/-- An operation on the session: a login with the entered name and password, a
logout, or an authenticated request, each against the server as it answers at
that time. -/
inductive SessionOp where
  | login (server : Server) (username password : String)
  | logout
  | request (server : Server) (url : String) (options : Option (List (String × JsVal)))

/-- The session after an operation. -/
def SessionOp.run (op : SessionOp) (st : Session) : Session :=
  match op with
  | SessionOp.login server username password => Auth.login server username password st
  | SessionOp.logout => Auth.logout st
  | SessionOp.request server url options =>
    (Auth.makeAuthenticatedRequest server url options st).2

/-- The session after a sequence of operations. -/
def Session.runOps (ops : List SessionOp) (st : Session) : Session :=
  ops.foldl (fun st op => op.run st) st

/-- Session consistency: local storage holds a user record only if it holds a
token too. -/
def Session.userOnlyWithToken (st : Session) : Bool :=
  (Storage.getItem "user" st.localStorage).isNone
    || (Storage.getItem "authToken" st.localStorage).isSome

/-- A login whose profile fetch is not answered 401, whatever token it carries. -/
def SessionOp.ProfileNot401 (op : SessionOp) : Prop :=
  match op with
  | SessionOp.login server _ _ =>
    ∀ (init : JsVal) (r : Response),
      server ⟨"/users/me/", init⟩ = FetchResult.response r → r.status ≠ 401
  | _ => True

/-- The minute a local date-time falls in, counted from the start of
1 January 1970. -/
def LocalDateTime.minuteNumber (t : LocalDateTime) : Int :=
  t.day.dayNumber * 1440 + (t.hours : Int) * 60 + (t.minutes : Int)

/-- A value of the `Date` getters: a day of the calendar, an hour below 24 and
a minute below 60. -/
def LocalDateTime.Valid (t : LocalDateTime) : Prop :=
  1 ≤ t.day.date ∧ t.day.date ≤ CalendarDate.daysInMonth t.day.year t.day.month
    ∧ t.hours < 24 ∧ t.minutes < 60

instance (t : LocalDateTime) : Decidable t.Valid := by
  unfold LocalDateTime.Valid
  infer_instance

/-- A string all of whose characters are whitespace. -/
def isBlank (s : String) : Bool := s.data.all isJsWhitespace

/-- A settings record of a salon with the reminder set to zero hours. -/
def zeroReminderSettings : JsVal :=
  JsVal.obj [("business_name", JsVal.str "Salon"), ("notification_reminder_hours", JsVal.num 0)]

/-- A settings record of a salon with the reminder set to 48 hours. -/
def sampleSettings : JsVal :=
  JsVal.obj [("business_name", JsVal.str "Salon"), ("notification_reminder_hours", JsVal.num 48)]

/-- A server that refuses every request with 403 and a JSON error body. -/
def forbiddingServer : Server :=
  answering ⟨403, Except.ok (JsVal.obj [("detail", JsVal.str "Not enough permissions")])⟩

/-- A server that lists one client. -/
def clientListServer : Server :=
  answering ⟨200, Except.ok (JsVal.arr [JsVal.obj [("id", JsVal.num 1),
    ("name", JsVal.str "Ivan")]])⟩

/-- An admin page with three menu items and every element `bindEvents` and
`setupHeader` look for. -/
def fullAdminPage : AdminPage :=
  { menuItems := 3, serviceForm := true, settingsForm := true, historyFiltersForm := true,
    resetFilters := true, logoutBtn := true, userMenu := true, userAvatar := true }

/-- The booking form with a name that is one space. -/
def blankNameForm : BookingForm := { sampleForm with clientName := " " }

/-- A signed-in user who is no administrator, on the admin page. -/
def visitorSession : Session :=
  { adminSession with
    user := JsVal.obj [("username", JsVal.str "eve"), ("is_admin", JsVal.bool false)] }

/-- A signed-in user whose `is_admin` is the string `false`, on the admin page. -/
def stringFlagSession : Session :=
  { adminSession with
    user := JsVal.obj [("username", JsVal.str "eve"), ("is_admin", JsVal.str "false")] }

/-- A user record without token, on the admin page. -/
def staleUserSession : Session :=
  { emptySession with
    user := JsVal.obj [("username", JsVal.str "eve"), ("is_admin", JsVal.bool false)]
    location := "/admin" }

/-- The console of a session before any data is loaded. -/
def consoleOf (st : Session) : AdminApp := { adminApp with session := st }

/-! ## The phone pattern (C3) -/

/-- The repetition `[p]{n,}` can consume the whole input exactly when the input has
at least `n` characters, all of them in the class. -/
theorem restAtLeast_nil_mem (p : Char → Bool) (s : List Char) :
    ∀ n : Nat, [] ∈ Regex.restAtLeast p n s ↔ n ≤ s.length ∧ ∀ c ∈ s, p c = true := by
  induction s with
  | nil =>
    intro n
    by_cases h : n = 0 <;> simp [Regex.restAtLeast, h]
  | cons c t ih =>
    intro n
    have hne : ¬ ([] : List Char) ∈ (if n = 0 then [c :: t] else []) := by
      by_cases h : n = 0 <;> simp [h]
    simp only [Regex.restAtLeast, List.mem_append, hne, or_false]
    by_cases hp : p c = true
    · simp only [hp, if_true, ih, List.length_cons, List.mem_cons, forall_eq_or_imp, true_and]
      constructor
      · rintro ⟨h1, h2⟩; exact ⟨by omega, h2⟩
      · rintro ⟨h1, h2⟩; exact ⟨by omega, h2⟩
    · simp [hp]

/-- The phone pattern matches the whole input exactly when the class repetition
consumes what follows an optional leading `+`. -/
theorem phoneRegex_test_iff (q : List Char) :
    ((Regex.rest (Regex.seq (Regex.opt (Regex.cls (fun c => c == '+')))
        (Regex.atLeast 10 phoneClass)) q).any List.isEmpty = true)
      ↔ [] ∈ Regex.restAtLeast phoneClass 10 (match q with | '+' :: rest => rest | _ => q) := by
  have hplus : phoneClass '+' = false := by decide
  rw [List.any_eq_true]
  constructor
  · rintro ⟨x, hx, hxe⟩
    have hx0 : x = [] := by simpa using hxe
    subst hx0
    cases q with
    | nil => simpa [Regex.rest] using hx
    | cons c t =>
      by_cases hc : c = '+'
      · subst hc
        simp [Regex.rest, Regex.restAtLeast, hplus] at hx
        simpa using hx
      · have : (match c :: t with | '+' :: rest => rest | _ => c :: t) = c :: t := by
          split
          · rename_i heq; simp at heq; exact absurd heq.1 hc
          · rfl
        rw [this]
        simpa [Regex.rest, hc] using hx
  · intro h
    refine ⟨[], ?_, by simp⟩
    cases q with
    | nil => simpa [Regex.rest] using h
    | cons c t =>
      by_cases hc : c = '+'
      · subst hc
        simp [Regex.rest]
        left
        simpa using h
      · have : (match c :: t with | '+' :: rest => rest | _ => c :: t) = c :: t := by
          split
          · rename_i heq; simp at heq; exact absurd heq.1 hc
          · rfl
        rw [this] at h
        simpa [Regex.rest, hc] using h

/-- What follows the optional leading `+` is part of the input. -/
theorem phoneBody_subset (q : List Char) :
    ∀ c ∈ (match q with | '+' :: rest => rest | _ => q), c ∈ q := by
  intro c hc
  split at hc
  · exact List.mem_cons_of_mem _ hc
  · exact hc

/-- The phone pattern, tested on a string with its whitespace removed, decides the
format of the specification. -/
theorem phonePattern_eq_spec (p : String) :
    ((Regex.rest (Regex.seq (Regex.opt (Regex.cls (fun c => c == '+')))
        (Regex.atLeast 10 phoneClass)) (removeWhitespace p).data).any List.isEmpty)
      = phoneSpec p := by
  rw [Bool.eq_iff_iff, phoneRegex_test_iff, restAtLeast_nil_mem]
  have hq : (removeWhitespace p).data = p.data.filter (fun c => !isJsWhitespace c) := rfl
  rw [hq]
  simp only [phoneSpec, Bool.and_eq_true, decide_eq_true_eq, List.all_eq_true]
  refine and_congr_right (fun _ => forall₂_congr (fun c hc => ?_))
  have hmem := phoneBody_subset _ c hc
  have hws : isJsWhitespace c = false := by
    have := (List.mem_filter.mp hmem).2
    simpa using this
  simp [phoneClass, hws]

/-- Claim C3, amended: for every booking form whose client name, phone and date
are filled in and whose selected service parses to a non-zero id,
createAppointment issues the POST to `/appointments/` when the phone matches
the pattern; and for every booking form whose phone does not match, it issues
no request, leaves the form as it is and shows one error notification. -/
theorem createAppointment_posts_iff_phone (server : Server) (now : LocalDateTime)
    (form : BookingForm) (st : Session) :
    (form.clientName ≠ "" → form.clientPhone ≠ "" → form.appointmentDate ≠ "" →
      (∃ value n, form.serviceSelect = some value ∧ parseInt value = some n ∧ n ≠ 0) →
      ClientApp.createAppointment_phoneRegex.testAnchored (removeWhitespace form.clientPhone)
        = true →
      ∃ n, (ClientApp.createAppointment server now form st).2.requests
        = st.requests ++ [ClientApp.bookingRequest form n])
    ∧ (ClientApp.createAppointment_phoneRegex.testAnchored (removeWhitespace form.clientPhone)
        = false →
      (ClientApp.createAppointment server now form st).2.requests = st.requests
      ∧ (ClientApp.createAppointment server now form st).1 = form
      ∧ ∃ msg, (ClientApp.createAppointment server now form st).2.notifications
        = st.notifications ++ [(JsVal.str msg, "error")]) := by
  constructor
  · rintro hname hphone hdate ⟨value, n, hsel, hparse, hn⟩ hmatch
    refine ⟨n, ?_⟩
    simp only [ClientApp.createAppointment, hsel, hparse, hname, hphone, hdate, hmatch]
    simp [hn]
    cases server (ClientApp.bookingRequest form n) with
    | networkError m => simp [ClientApp.showNotification, Auth.showNotification, Auth.issue]
    | response r =>
      simp only []
      split
      · cases r.body <;> simp [ClientApp.showNotification, Auth.showNotification, Auth.issue]
      · simp [ClientApp.showNotification, Auth.showNotification, Auth.issue]
  · intro hmatch
    simp only [ClientApp.createAppointment, hmatch]
    split
    · exact ⟨rfl, rfl, _, rfl⟩
    · exact ⟨rfl, rfl, _, rfl⟩

/-- Witness for claim C3: the filled sample form is posted, and the same form with
the phone `12345` is not. -/
theorem createAppointment_posts_iff_phone_witness :
    (sampleForm.clientName ≠ "" ∧ sampleForm.clientPhone ≠ "" ∧ sampleForm.appointmentDate ≠ ""
      ∧ (∃ value n, sampleForm.serviceSelect = some value ∧ parseInt value = some n ∧ n ≠ 0)
      ∧ ClientApp.createAppointment_phoneRegex.testAnchored
          (removeWhitespace sampleForm.clientPhone) = true
      ∧ ∃ n, (ClientApp.createAppointment offlineServer sampleNow sampleForm emptySession).2.requests
          = emptySession.requests ++ [ClientApp.bookingRequest sampleForm n])
    ∧ (ClientApp.createAppointment_phoneRegex.testAnchored
          (removeWhitespace { sampleForm with clientPhone := "12345" }.clientPhone) = false
      ∧ (ClientApp.createAppointment offlineServer sampleNow
          { sampleForm with clientPhone := "12345" } emptySession).2.requests
          = emptySession.requests) :=
  ⟨⟨by decide, by decide, by decide, ⟨"2", 2, rfl, by decide, by decide⟩, by decide,
      (createAppointment_posts_iff_phone offlineServer sampleNow sampleForm emptySession).1
        (by decide) (by decide) (by decide) ⟨"2", 2, rfl, by decide, by decide⟩ (by decide)⟩,
    by decide,
    ((createAppointment_posts_iff_phone offlineServer sampleNow
        { sampleForm with clientPhone := "12345" } emptySession).2 (by decide)).1⟩

/-- Counterexample to claim C3 as stated: with a phone that matches the pattern but
an empty client name, createAppointment issues no request and asks for the
required fields. -/
theorem createAppointment_valid_phone_without_name_sends_nothing :
    ClientApp.createAppointment_phoneRegex.testAnchored
        (removeWhitespace { sampleForm with clientName := "" }.clientPhone) = true
      ∧ (ClientApp.createAppointment offlineServer sampleNow
          { sampleForm with clientName := "" } emptySession).2.requests.length = 0
      ∧ (ClientApp.createAppointment offlineServer sampleNow
          { sampleForm with clientName := "" } emptySession).2.notifications
          = [(JsVal.str "Пожалуйста, заполните все обязательные поля", "error")] :=
  ⟨by decide, by decide, rfl⟩

/-! ## Grouping by date: the closed form -/

/-- Appending one label to the list adds it to the first-seen labels unless it is
there already. -/
theorem firstSeen_append (ks : List String) (k : String) :
    firstSeen (ks ++ [k]) = if k ∈ firstSeen ks then firstSeen ks else firstSeen ks ++ [k] := by
  simp [firstSeen, List.foldl_append]

/-- The first-seen labels are the labels of the list. -/
theorem mem_firstSeen (ks : List String) (k : String) : k ∈ firstSeen ks ↔ k ∈ ks := by
  induction ks using List.reverseRecOn with
  | nil => simp [firstSeen]
  | append_singleton l a ih =>
    rw [firstSeen_append]
    by_cases h : a ∈ firstSeen l
    · simp only [h, if_true, List.mem_append, List.mem_singleton, ih]
      constructor
      · exact Or.inl
      · rintro (h1 | h1)
        · exact h1
        · subst h1; exact ih.mp h
    · simp [h, ih]

/-- No label appears twice among the first-seen labels. -/
theorem nodup_firstSeen (ks : List String) : (firstSeen ks).Nodup := by
  induction ks using List.reverseRecOn with
  | nil => simp [firstSeen]
  | append_singleton l a ih =>
    rw [firstSeen_append]
    by_cases h : a ∈ firstSeen l
    · simpa [h] using ih
    · simp only [h, if_false]
      rw [List.nodup_append]
      refine ⟨ih, by simp, ?_⟩
      intro x hx hx'
      simp at hx'
      subst hx'
      exact h hx

/-- Reading a key of an object built from a list of keys. -/
theorem Groups.get_map (f : String → List Appointment) (ks : List String) (k : String) :
    Groups.get (ks.map (fun k' => (k', f k'))) k = if k ∈ ks then some (f k) else none := by
  induction ks with
  | nil => simp [Groups.get]
  | cons a l ih =>
    simp only [List.map_cons, Groups.get, ih, List.mem_cons]
    by_cases h : a = k
    · subst h; simp
    · have h' : ¬ k = a := fun e => h e.symm
      simp [h, h']

/-- Assigning to a key the object does not have appends the property. -/
theorem Groups.set_of_not_mem (g : Groups) (k : String) (v : List Appointment)
    (h : k ∉ g.keys) : g.set k v = g ++ [(k, v)] := by
  induction g with
  | nil => simp [Groups.set]
  | cons p l ih =>
    obtain ⟨a, w⟩ := p
    simp only [Groups.keys, List.map_cons, List.mem_cons, not_or] at h
    have h1 : ¬ a = k := fun e => h.1 e.symm
    simp only [Groups.set, h1, if_false, List.cons_append]
    rw [ih h.2]

/-- Assigning to a key the object has replaces the value in place. -/
theorem Groups.set_map_of_mem (f : String → List Appointment) (ks : List String) (k : String)
    (v : List Appointment) (hnd : ks.Nodup) (hk : k ∈ ks) :
    Groups.set (ks.map (fun k' => (k', f k'))) k v
      = ks.map (fun k' => (k', if k' = k then v else f k')) := by
  induction ks with
  | nil => simp at hk
  | cons a l ih =>
    simp only [List.map_cons, Groups.set]
    rw [List.nodup_cons] at hnd
    by_cases h : a = k
    · subst h
      simp only [if_true, List.cons.injEq, true_and]
      apply List.map_congr_left
      intro x hx
      have : ¬ x = a := fun e => hnd.1 (e ▸ hx)
      simp [this]
    · have hk' : k ∈ l := by
        rcases List.mem_cons.mp hk with e | e
        · exact absurd e.symm h
        · exact e
      simp only [h, if_false]
      rw [ih hnd.2 hk']

/-- One step of the `forEach` loop takes the closed form for `xs` to the closed
form for `xs` followed by the appointment. -/
theorem groupStep_groupedSpec (host : DateHost) (xs : List Appointment) (a : Appointment) :
    ClientApp.groupStep host (groupedSpec host xs) a = groupedSpec host (xs ++ [a]) := by
  simp only [ClientApp.groupStep, groupedSpec, List.map_append, List.map_cons, List.map_nil,
    firstSeen_append]
  set ks := firstSeen (xs.map (fun a => host.dateLabel a.appointment_date)) with hks
  set k := host.dateLabel a.appointment_date with hk
  by_cases hmem : k ∈ ks
  · simp only [hmem, if_true, Groups.get_map, Option.isNone_some, Bool.false_eq_true, if_false,
      Option.getD_some]
    rw [Groups.set_map_of_mem _ _ _ _ (nodup_firstSeen _) hmem]
    apply List.map_congr_left
    intro k' _
    by_cases e : k' = k
    · subst e; simp [List.filter_append, hk]
    · have : ¬ k = k' := fun h => e h.symm
      simp [e, List.filter_append, ← hk, this]
  · have hnone : xs.filter (fun a => decide (host.dateLabel a.appointment_date = k)) = [] := by
      rw [List.filter_eq_nil_iff]
      intro b hb hbk
      apply hmem
      rw [hks, mem_firstSeen]
      simp only [decide_eq_true_eq] at hbk
      exact List.mem_map.mpr ⟨b, hb, hbk⟩
    have hkeys : k ∉ Groups.keys (ks.map (fun k' =>
        (k', xs.filter (fun a => decide (host.dateLabel a.appointment_date = k'))))) := by
      simpa [Groups.keys, List.map_map, Function.comp_def] using hmem
    simp only [hmem, if_false, Groups.get_map, Option.isNone_none, if_true]
    rw [Groups.set_of_not_mem _ _ _ hkeys]
    have hget : Groups.get (ks.map (fun k' =>
          (k', xs.filter (fun a => decide (host.dateLabel a.appointment_date = k'))))
          ++ [(k, [])]) k = some [] := by
      have := Groups.get_map (fun k' => xs.filter
        (fun a => decide (host.dateLabel a.appointment_date = k'))) (ks ++ [k]) k
      simpa [hnone] using this
    rw [hget]
    have hkeys2 : k ∈ ks ++ [k] := by simp
    have hnd2 : (ks ++ [k]).Nodup := by
      rw [List.nodup_append]
      refine ⟨nodup_firstSeen _, by simp, ?_⟩
      intro x hx hx'
      simp at hx'
      subst hx'
      exact hmem hx
    have := Groups.set_map_of_mem (fun k' => xs.filter
      (fun a => decide (host.dateLabel a.appointment_date = k'))) (ks ++ [k]) k
      ([] ++ [a]) hnd2 hkeys2
    simp only [List.map_append, List.map_cons, List.map_nil, hnone, Option.getD_some] at this ⊢
    rw [this]
    congr 1
    · apply List.map_congr_left
      intro k' hk'
      have e : ¬ k' = k := fun h => hmem (h ▸ hk')
      have e' : ¬ k = k' := fun h => e h.symm
      simp [e, List.filter_append, ← hk, e']
    · simp [List.filter_append, hnone, ← hk]

/-- The `forEach` loop of groupAppointmentsByDate builds the closed form. -/
theorem foldl_groupStep (host : DateHost) (xs : List Appointment) :
    xs.foldl (ClientApp.groupStep host) [] = groupedSpec host xs := by
  induction xs using List.reverseRecOn with
  | nil => simp [groupedSpec, firstSeen]
  | append_singleton l a ih =>
    rw [List.foldl_append, ih]
    simp only [List.foldl_cons, List.foldl_nil]
    exact groupStep_groupedSpec host l a

/-- Insertion into a sorted array adds the element and nothing else. -/
theorem jsSortInsert_perm {α : Type} (cmp : α → α → Option Int) (x : α) (l : List α) :
    (jsSortInsert cmp x l).Perm (x :: l) := by
  induction l with
  | nil => simp [jsSortInsert]
  | cons y ys ih =>
    simp only [jsSortInsert]
    split
    · exact ((List.Perm.cons y ih).trans (List.Perm.swap x y ys))
    · exact List.Perm.refl _

/-- Sorting rearranges the array. -/
theorem jsSort_perm {α : Type} (cmp : α → α → Option Int) (l : List α) :
    (jsSort cmp l).Perm l := by
  induction l with
  | nil => simp [jsSort]
  | cons x xs ih =>
    simp only [jsSort]
    exact (jsSortInsert_perm cmp x _).trans (List.Perm.cons x ih)

/-- An element that never has to come after another is inserted in front. -/
theorem jsSortInsert_of_never_after {α : Type} (cmp : α → α → Option Int) (x : α) (l : List α)
    (h : ∀ y ∈ l, sortsAfter cmp x y = false) : jsSortInsert cmp x l = x :: l := by
  cases l with
  | nil => rfl
  | cons y ys => simp [jsSortInsert, h y (by simp)]

/-- When the comparator never asks for an exchange, sorting changes nothing. -/
theorem jsSort_of_never_after {α : Type} (cmp : α → α → Option Int) (l : List α)
    (h : ∀ x ∈ l, ∀ y ∈ l, sortsAfter cmp x y = false) : jsSort cmp l = l := by
  induction l with
  | nil => rfl
  | cons x xs ih =>
    simp only [jsSort]
    rw [ih (fun a ha b hb => h a (List.mem_cons_of_mem _ ha) b (List.mem_cons_of_mem _ hb))]
    exact jsSortInsert_of_never_after cmp x xs
      (fun y hy => h x (by simp) y (List.mem_cons_of_mem _ hy))

/-- Filling an object key by key, with distinct new keys, appends one property per
key in order. -/
theorem foldl_set_eq_map (f : String → List Appointment) (ks : List String) :
    ∀ acc : Groups, ks.Nodup → (∀ k ∈ ks, k ∉ acc.keys) →
      ks.foldl (fun sortedGrouped date => sortedGrouped.set date (f date)) acc
        = acc ++ ks.map (fun k => (k, f k)) := by
  induction ks with
  | nil => intro acc _ _; simp
  | cons k l ih =>
    intro acc hnd hdis
    rw [List.nodup_cons] at hnd
    simp only [List.foldl_cons]
    rw [Groups.set_of_not_mem acc k (f k) (hdis k (by simp))]
    rw [ih _ hnd.2]
    · simp
    · intro k' hk'
      simp only [Groups.keys, List.map_append, List.map_cons, List.map_nil, List.mem_append,
        List.mem_singleton, not_or]
      refine ⟨hdis k' (List.mem_cons_of_mem _ hk'), ?_⟩
      rintro rfl
      exact hnd.1 hk'

/-- The keys of the closed form are the first-seen labels. -/
theorem groupedSpec_keys (host : DateHost) (xs : List Appointment) :
    (groupedSpec host xs).keys
      = firstSeen (xs.map (fun a => host.dateLabel a.appointment_date)) := by
  simp [groupedSpec, Groups.keys, List.map_map, Function.comp_def]

/-- Reading a label from the closed form gives the appointments of that label in
input order. -/
theorem groupedSpec_getD (host : DateHost) (xs : List Appointment) (k : String) :
    ((groupedSpec host xs).get k).getD []
      = xs.filter (fun a => host.dateLabel a.appointment_date = k) := by
  rw [groupedSpec, Groups.get_map]
  by_cases h : k ∈ firstSeen (xs.map (fun a => host.dateLabel a.appointment_date))
  · simp [h]
  · simp only [h, if_false, Option.getD_none]
    symm
    rw [List.filter_eq_nil_iff]
    intro b hb hbk
    apply h
    rw [mem_firstSeen]
    simp only [decide_eq_true_eq] at hbk
    exact List.mem_map.mpr ⟨b, hb, hbk⟩

/-- The result of groupAppointmentsByDate: the sorted labels, each with the
appointments of that label in input order. -/
theorem groupAppointmentsByDate_eq (host : DateHost) (xs : List Appointment) :
    ClientApp.groupAppointmentsByDate host xs
      = (sortedLabels host xs).map
          (fun k => (k, xs.filter (fun a => host.dateLabel a.appointment_date = k))) := by
  simp only [ClientApp.groupAppointmentsByDate, foldl_groupStep, groupedSpec_keys,
    groupedSpec_getD]
  have hnd : (sortedLabels host xs).Nodup :=
    (jsSort_perm _ _).nodup_iff.mpr (nodup_firstSeen _)
  have := foldl_set_eq_map
    (fun k => xs.filter (fun a => decide (host.dateLabel a.appointment_date = k)))
    (sortedLabels host xs) [] hnd (by simp [Groups.keys])
  simpa [sortedLabels] using this

/-- The admin console groups exactly as the booking view does. -/
theorem AdminApp.groupAppointmentsByDate_eq_client :
    AdminApp.groupAppointmentsByDate = ClientApp.groupAppointmentsByDate := rfl

/-- The keys of the result are the labels of the input. -/
theorem mem_sortedLabels (host : DateHost) (xs : List Appointment) (k : String) :
    k ∈ sortedLabels host xs ↔ ∃ a ∈ xs, host.dateLabel a.appointment_date = k := by
  unfold sortedLabels
  rw [(jsSort_perm _ _).mem_iff, mem_firstSeen]
  simp

/-- No key of the result appears twice. -/
theorem nodup_sortedLabels (host : DateHost) (xs : List Appointment) :
    (sortedLabels host xs).Nodup :=
  (jsSort_perm _ _).nodup_iff.mpr (nodup_firstSeen _)

/-! ## Date labels determine the calendar date -/

/-- The character of a decimal digit is a digit. -/
theorem digitChar_isDigit (k : Nat) (h : k < 10) : (Nat.digitChar k).isDigit = true := by
  interval_cases k <;> decide

/-- The character of a decimal digit has the value of the digit. -/
theorem digitChar_value (k : Nat) (h : k < 10) : (Nat.digitChar k).toNat - 48 = k := by
  interval_cases k <;> decide

/-- Every character of a decimal numeral is a digit. -/
theorem toDigitsCore_isDigit (fuel : Nat) :
    ∀ (n : Nat) (ds : List Char), (∀ c ∈ ds, c.isDigit = true) →
      ∀ c ∈ Nat.toDigitsCore 10 fuel n ds, c.isDigit = true := by
  induction fuel with
  | zero => intro n ds h; simpa [Nat.toDigitsCore] using h
  | succ f ih =>
    intro n ds h
    have hd : ∀ c ∈ Nat.digitChar (n % 10) :: ds, c.isDigit = true := by
      intro c hc
      rcases List.mem_cons.mp hc with e | e
      · rw [e]; exact digitChar_isDigit _ (Nat.mod_lt _ (by decide))
      · exact h c e
    simp only [Nat.toDigitsCore]
    split
    · exact hd
    · exact ih _ _ hd

/-- Reading a decimal numeral back gives the number. -/
theorem readDecimal_toDigitsCore (fuel : Nat) :
    ∀ (n : Nat) (ds : List Char), n < fuel →
      readDecimal 0 (Nat.toDigitsCore 10 fuel n ds) = readDecimal n ds := by
  induction fuel with
  | zero => intro n ds h; omega
  | succ f ih =>
    intro n ds h
    simp only [Nat.toDigitsCore]
    split
    · rename_i h0
      have hn : n % 10 = n := by omega
      have hv := digitChar_value (n % 10) (Nat.mod_lt n (by decide))
      rw [hn] at hv
      simp [readDecimal, hn, hv]
    · rename_i h0
      rw [ih (n / 10) _ (by omega)]
      simp only [readDecimal, List.foldl_cons, digitChar_value _ (Nat.mod_lt n (by decide))]
      congr 1
      omega

/-- The characters of the decimal text of a number. -/
theorem natRepr_data (n : Nat) : (toString n).data = Nat.toDigits 10 n := rfl

/-- Different numbers have different decimal texts. -/
theorem natRepr_injective (m n : Nat) (h : (toString m).data = (toString n).data) : m = n := by
  rw [natRepr_data, natRepr_data] at h
  have hm := readDecimal_toDigitsCore (m + 1) m [] (by omega)
  have hn := readDecimal_toDigitsCore (n + 1) n [] (by omega)
  simp only [Nat.toDigits] at h
  rw [h] at hm
  rw [hm] at hn
  simpa [readDecimal] using hn

/-- The decimal text of a number has no space. -/
theorem natRepr_no_space (n : Nat) : ' ' ∉ (toString n).data := by
  intro h
  rw [natRepr_data] at h
  have := toDigitsCore_isDigit (n + 1) n [] (by simp) ' ' h
  exact absurd this (by decide)

/-- Two texts that agree, each cut at the first occurrence of a separator, agree
before and after the cut. -/
theorem split_at_separator (c : Char) :
    ∀ (x y r r' : List Char), c ∉ x → c ∉ y → x ++ c :: r = y ++ c :: r' → x = y ∧ r = r' := by
  intro x
  induction x with
  | nil =>
    intro y r r' _ hy h
    cases y with
    | nil => simpa using h
    | cons b t =>
      simp only [List.nil_append, List.cons_append, List.cons.injEq] at h
      exact absurd (by rw [← h.1]; simp) hy
  | cons a s ih =>
    intro y r r' hx hy h
    cases y with
    | nil =>
      simp only [List.nil_append, List.cons_append, List.cons.injEq] at h
      exact absurd (by rw [h.1]; simp) hx
    | cons b t =>
      simp only [List.cons_append, List.cons.injEq] at h
      have := ih t r r' (fun m => hx (List.mem_cons_of_mem _ m))
        (fun m => hy (List.mem_cons_of_mem _ m)) h.2
      exact ⟨by rw [h.1, this.1], this.2⟩

/-- No weekday name has a comma. -/
theorem weekdayName_no_comma (w : Nat) : ',' ∉ (CalendarDate.weekdayName w).data := by
  unfold CalendarDate.weekdayName
  split <;> decide

/-- No month name has a space. -/
theorem monthName_no_space (m : Fin 12) : ' ' ∉ (CalendarDate.monthName m).data := by
  revert m; decide

/-- Different months have different names. -/
theorem monthName_injective (a b : Fin 12)
    (h : (CalendarDate.monthName a).data = (CalendarDate.monthName b).data) : a = b := by
  revert a b; decide

/-- The characters of a long Russian date. -/
theorem ruLong_data (d : CalendarDate) :
    d.ruLong.data = (CalendarDate.weekdayName d.weekDay).data ++ ',' :: ' ' ::
      ((toString d.date).data ++ ' ' :: ((CalendarDate.monthName d.month).data ++ ' ' ::
        ((toString d.year).data ++ [' ', 'г', '.']))) := by
  simp [CalendarDate.ruLong, String.data_append]

/-- Different calendar dates have different long Russian dates. -/
theorem ruLong_injective (d e : CalendarDate) (h : d.ruLong = e.ruLong) : d = e := by
  have h' : d.ruLong.data = e.ruLong.data := by rw [h]
  rw [ruLong_data, ruLong_data] at h'
  obtain ⟨_, h1⟩ := split_at_separator ',' _ _ _ _ (weekdayName_no_comma _)
    (weekdayName_no_comma _) h'
  simp only [List.cons.injEq, true_and] at h1
  obtain ⟨hdate, h2⟩ := split_at_separator ' ' _ _ _ _ (natRepr_no_space _)
    (natRepr_no_space _) h1
  obtain ⟨hmonth, h3⟩ := split_at_separator ' ' _ _ _ _ (monthName_no_space _)
    (monthName_no_space _) h2
  have hyear := List.append_cancel_right h3
  cases d with
  | mk y m dd =>
    cases e with
    | mk y' m' dd' =>
      simp only [CalendarDate.mk.injEq]
      exact ⟨natRepr_injective _ _ hyear, monthName_injective _ _ hmonth,
        natRepr_injective _ _ hdate⟩

/-- No long Russian date reads `Invalid Date`. -/
theorem ruLong_ne_invalid (d : CalendarDate) : d.ruLong ≠ "Invalid Date" := by
  intro h
  have h' : d.ruLong.data = "Invalid Date".data := by rw [h]
  rw [ruLong_data] at h'
  have : ',' ∈ "Invalid Date".data := by rw [← h']; simp
  exact absurd this (by decide)

/-- Two timestamps get the same label exactly when they fall on the same local
calendar date (or are both invalid). -/
theorem dateLabel_eq_iff (host : DateHost) (s t : String) :
    host.dateLabel s = host.dateLabel t ↔ host.localDate s = host.localDate t := by
  unfold DateHost.dateLabel
  cases hs : host.localDate s <;> cases ht : host.localDate t <;> simp
  · exact fun h => ruLong_ne_invalid _ h.symm
  · exact ruLong_ne_invalid _
  · exact ⟨ruLong_injective _ _, fun h => by rw [h]⟩

/-! ## Grouping by date: totality, order, stability (C5, C6, C7) -/

/-- How often an appointment occurs in the groups of distinct labels taken
together. -/
theorem count_flatten_filters (label : Appointment → String) (xs : List Appointment)
    (a : Appointment) (ks : List String) (hnd : ks.Nodup) :
    ((ks.map (fun k => xs.filter (fun b => label b = k))).flatten).count a
      = if label a ∈ ks then xs.count a else 0 := by
  induction ks with
  | nil => simp
  | cons k l ih =>
    rw [List.nodup_cons] at hnd
    simp only [List.map_cons, List.flatten_cons, List.count_append, ih hnd.2, List.mem_cons]
    by_cases h : label a = k
    · have hl : label a ∉ l := fun m => hnd.1 (h ▸ m)
      simp only [h, true_or, if_true]
      have : ¬ k ∈ l := hnd.1
      rw [List.count_filter (by simpa using h)]
      simp [this]
    · have h0 : List.count a (xs.filter (fun b => decide (label b = k))) = 0 := by
        rw [List.count_eq_zero]
        intro m
        have := (List.mem_filter.mp m).2
        simp only [decide_eq_true_eq] at this
        exact h this
      simp [h0, h]

/-- The groups of distinct labels that cover the input, taken together, are a
rearrangement of the input. -/
theorem flatten_filters_perm (label : Appointment → String) (xs : List Appointment)
    (ks : List String) (hnd : ks.Nodup) (hall : ∀ a ∈ xs, label a ∈ ks) :
    ((ks.map (fun k => xs.filter (fun b => label b = k))).flatten).Perm xs := by
  rw [List.perm_iff_count]
  intro a
  rw [count_flatten_filters label xs a ks hnd]
  by_cases h : label a ∈ ks
  · simp [h]
  · simp only [h, if_false]
    symm
    rw [List.count_eq_zero]
    exact fun m => h (hall a m)

/-- The grouping of the booking view is total. -/
theorem isTotalGrouping_client (host : DateHost) (xs : List Appointment) :
    IsTotalGrouping host xs (ClientApp.groupAppointmentsByDate host xs) := by
  rw [groupAppointmentsByDate_eq]
  refine ⟨?_, ?_, ?_, ?_⟩
  · simpa [Groups.keys, List.map_map, Function.comp_def] using nodup_sortedLabels host xs
  · simp only [List.map_map, Function.comp_def]
    exact flatten_filters_perm (fun a => host.dateLabel a.appointment_date) xs _
      (nodup_sortedLabels host xs) (fun a ha => (mem_sortedLabels host xs _).mpr ⟨a, ha, rfl⟩)
  · intro k g hkg a ha
    obtain ⟨k', _, hk'⟩ := List.mem_map.mp hkg
    simp only [Prod.mk.injEq] at hk'
    obtain ⟨rfl, rfl⟩ := hk'
    simpa [Appointment.label] using (List.mem_filter.mp ha).2
  · intro a ha b hb
    rw [← dateLabel_eq_iff]
    constructor
    · rintro ⟨k, g, hkg, hag, hbg⟩
      obtain ⟨k', _, hk'⟩ := List.mem_map.mp hkg
      simp only [Prod.mk.injEq] at hk'
      obtain ⟨rfl, rfl⟩ := hk'
      have h1 := (List.mem_filter.mp hag).2
      have h2 := (List.mem_filter.mp hbg).2
      simp only [decide_eq_true_eq] at h1 h2
      rw [h1, h2]
    · intro h
      refine ⟨host.dateLabel a.appointment_date, _, List.mem_map.mpr
        ⟨host.dateLabel a.appointment_date,
          (mem_sortedLabels host xs _).mpr ⟨a, ha, rfl⟩, rfl⟩, ?_, ?_⟩
      · simp [List.mem_filter, ha]
      · simp [List.mem_filter, hb, h]

/-- The grouping of the booking view is stable. -/
theorem isStableGrouping_client (host : DateHost) (xs : List Appointment) :
    IsStableGrouping host xs (ClientApp.groupAppointmentsByDate host xs) := by
  rw [groupAppointmentsByDate_eq]
  intro k g hkg
  obtain ⟨k', _, hk'⟩ := List.mem_map.mp hkg
  simp only [Prod.mk.injEq] at hk'
  obtain ⟨rfl, rfl⟩ := hk'
  exact ⟨rfl, List.filter_sublist _⟩

/-- Claim C5: for every list of appointments, groupAppointmentsByDate (booking view
and admin console) is total: the date groups have distinct keys, the groups
taken together are a rearrangement of the input (every appointment exactly
once, nothing that was not in the input), every appointment lies in the group
of its own date, and two appointments share a group exactly when they fall on
the same calendar date. -/
theorem groupAppointmentsByDate_total (host : DateHost) (xs : List Appointment) :
    IsTotalGrouping host xs (ClientApp.groupAppointmentsByDate host xs)
      ∧ IsTotalGrouping host xs (AdminApp.groupAppointmentsByDate host xs) :=
  ⟨isTotalGrouping_client host xs, isTotalGrouping_client host xs⟩

/-- Claim C6 (code defect): when `new Date` answers Invalid Date to the labels of
the appointments, as it does to Russian long dates, the comparator of main.js
413 and admin.js 321 yields NaN and the date groups come out in the order in
which the dates first appear in the input, not in descending date order. -/
theorem groupAppointmentsByDate_keeps_input_order (host : DateHost) (xs : List Appointment)
    (h : ∀ a ∈ xs, host.timeValue (a.label host) = none) :
    (ClientApp.groupAppointmentsByDate host xs).keys = firstSeen (xs.map (fun a => a.label host))
      ∧ (AdminApp.groupAppointmentsByDate host xs).keys
        = firstSeen (xs.map (fun a => a.label host)) := by
  have key : (ClientApp.groupAppointmentsByDate host xs).keys
      = firstSeen (xs.map (fun a => a.label host)) := by
    rw [groupAppointmentsByDate_eq]
    simp only [Groups.keys, List.map_map, Function.comp_def, List.map_id']
    unfold sortedLabels
    apply jsSort_of_never_after
    intro x hx y _
    rw [mem_firstSeen] at hx
    obtain ⟨a, ha, rfl⟩ := List.mem_map.mp hx
    have := h a ha
    simp only [Appointment.label] at this
    simp [sortsAfter, numSub, this]
  exact ⟨key, key⟩

/-- Witness for claim C6: appointments of 1 and 2 January 2025, given in that
order, come out with the older date first. -/
theorem groupAppointmentsByDate_keeps_input_order_witness :
    (∀ a ∈ sampleAppointments, isoHost.timeValue (a.label isoHost) = none)
      ∧ (ClientApp.groupAppointmentsByDate isoHost sampleAppointments).keys
          = ["среда, 1 января 2025 г.", "четверг, 2 января 2025 г."]
      ∧ (AdminApp.groupAppointmentsByDate isoHost sampleAppointments).keys
          = ["среда, 1 января 2025 г.", "четверг, 2 января 2025 г."] :=
  ⟨by decide,
    (groupAppointmentsByDate_keeps_input_order isoHost sampleAppointments (by decide)).1.trans
      (by decide),
    (groupAppointmentsByDate_keeps_input_order isoHost sampleAppointments (by decide)).2.trans
      (by decide)⟩

/-- Claim C7: for every list of appointments, within each date group of
groupAppointmentsByDate (booking view and admin console) the appointments are
those of the input with that date, in the same relative order as in the
input. -/
theorem groupAppointmentsByDate_stable (host : DateHost) (xs : List Appointment) :
    IsStableGrouping host xs (ClientApp.groupAppointmentsByDate host xs)
      ∧ IsStableGrouping host xs (AdminApp.groupAppointmentsByDate host xs) :=
  ⟨isStableGrouping_client host xs, isStableGrouping_client host xs⟩

/-! ## The bearer header (C1) -/

/-- The `init` that makeAuthenticatedRequest builds from the options of
updateAppointmentStatus: the headers are those of the options alone. -/
theorem requestInit_statusUpdate (token : JsVal) (status : String) :
    Auth.requestInit token (AdminApp.statusUpdateOptions status)
      = JsVal.obj [("headers", JsVal.obj [("Content-Type", JsVal.str "application/json")]),
          ("method", JsVal.str "PUT"),
          ("body", Json.stringify (JsVal.obj [("status", JsVal.str status)]))] := by
  simp [Auth.requestInit, AdminApp.statusUpdateOptions, JsVal.spreadInto, JsVal.spreadProps,
    JsVal.setProp]

/-- Assigning one property leaves the others as they are. -/
theorem lookup_setProp_ne (k k' : String) (v : JsVal) (props : List (String × JsVal))
    (h : k' ≠ k) : JsVal.lookup k (JsVal.setProp k' v props) = JsVal.lookup k props := by
  induction props with
  | nil => simp [JsVal.setProp, JsVal.lookup, h]
  | cons p l ih =>
    obtain ⟨a, w⟩ := p
    by_cases e : a = k'
    · subst e; simp [JsVal.setProp, JsVal.lookup, h]
    · by_cases e' : a = k
      · subst e'
        simp [JsVal.setProp, JsVal.lookup, e]
      · simp [JsVal.setProp, JsVal.lookup, e, e', ih]

/-- For options without a `headers` property the request carries the bearer header. -/
theorem makeAuthenticatedRequest_bearer_of_no_headers (token : JsVal)
    (options : List (String × JsVal)) (h : ∀ p ∈ options, p.1 ≠ "headers") (url : String) :
    (⟨url, Auth.requestInit token options⟩ : Request).header "Authorization"
      = some (JsVal.str ("Bearer " ++ token.toStr)) := by
  have hl : JsVal.lookup "headers" options = none := by
    induction options with
    | nil => rfl
    | cons p l ih =>
      obtain ⟨a, w⟩ := p
      have := h (a, w) (by simp)
      simp only [JsVal.lookup, this, if_false] at *
      exact ih (fun q hq => h q (List.mem_cons_of_mem _ hq))
  have hfold : ∀ (base : List (String × JsVal)) (l : List (String × JsVal)),
      (∀ p ∈ l, p.1 ≠ "headers") →
      JsVal.lookup "headers" (l.foldl (fun acc p => JsVal.setProp p.1 p.2 acc) base)
        = JsVal.lookup "headers" base := by
    intro base l
    induction l generalizing base with
    | nil => intro _; rfl
    | cons p t ih =>
      intro hp
      simp only [List.foldl_cons]
      rw [ih _ (fun q hq => hp q (List.mem_cons_of_mem _ hq))]
      exact lookup_setProp_ne _ _ _ _ (hp p (by simp))
  simp only [Request.header, Auth.requestInit, JsVal.spreadInto, JsVal.spreadProps]
  rw [hfold _ _ h]
  simp [JsVal.lookup, Auth.defaultHeaders, hl, JsVal.spreadInto, JsVal.spreadProps]

/-- Claim C1 (code defect): with the options that updateAppointmentStatus passes,
which bring their own `headers`, the request that makeAuthenticatedRequest
issues carries the Content-Type header and no Authorization header: the
spread of `options` at auth.js 129 replaces the merged headers. -/
theorem makeAuthenticatedRequest_statusUpdate_without_bearer (server : Server)
    (url status : String) (st : Session) (h : st.token.truthy = true) :
    ∃ req : Request,
      (Auth.makeAuthenticatedRequest server url (some (AdminApp.statusUpdateOptions status))
          st).2.requests = st.requests ++ [req]
        ∧ req.url = url
        ∧ req.header "Authorization" = none
        ∧ req.header "Content-Type" = some (JsVal.str "application/json") := by
  refine ⟨⟨url, Auth.requestInit st.token (AdminApp.statusUpdateOptions status)⟩, ?_, rfl, ?_, ?_⟩
  · simp only [Auth.makeAuthenticatedRequest, h, Bool.not_true, Bool.false_eq_true, if_false,
      Option.getD_some]
    cases server ⟨url, Auth.requestInit st.token (AdminApp.statusUpdateOptions status)⟩ with
    | networkError m => simp [Auth.issue]
    | response r =>
      simp only []
      split <;> simp [Auth.issue, Auth.logout]
  · rw [requestInit_statusUpdate]; simp [Request.header, JsVal.lookup]
  · rw [requestInit_statusUpdate]; simp [Request.header, JsVal.lookup]

/-- Witness for claim C1: confirming appointment 5 as a signed-in administrator
sends a request without Authorization header. -/
theorem makeAuthenticatedRequest_statusUpdate_without_bearer_witness :
    adminSession.token.truthy = true
      ∧ ∃ req : Request,
        (Auth.makeAuthenticatedRequest offlineServer "/appointments/5/status"
            (some (AdminApp.statusUpdateOptions "confirmed")) adminSession).2.requests
          = adminSession.requests ++ [req]
        ∧ req.url = "/appointments/5/status"
        ∧ req.header "Authorization" = none
        ∧ req.header "Content-Type" = some (JsVal.str "application/json") :=
  ⟨by decide, makeAuthenticatedRequest_statusUpdate_without_bearer offlineServer
    "/appointments/5/status" "confirmed" adminSession (by decide)⟩

/-! ## A 401 answer during login (C2) -/

/-- An item that was set is read back. -/
theorem Storage.getItem_setItem (k v : String) (s : List (String × String)) :
    Storage.getItem k (Storage.setItem k v s) = some v := by
  induction s with
  | nil => simp [Storage.setItem, Storage.getItem]
  | cons p l ih =>
    obtain ⟨a, w⟩ := p
    by_cases e : a = k
    · subst e; simp [Storage.setItem, Storage.getItem]
    · simp [Storage.setItem, Storage.getItem, e, ih]

/-- Setting one item leaves the others as they are. -/
theorem Storage.getItem_setItem_ne (k k' v : String) (s : List (String × String))
    (h : k' ≠ k) : Storage.getItem k (Storage.setItem k' v s) = Storage.getItem k s := by
  induction s with
  | nil => simp [Storage.setItem, Storage.getItem, h]
  | cons p l ih =>
    obtain ⟨a, w⟩ := p
    by_cases e : a = k'
    · subst e; simp [Storage.setItem, Storage.getItem, h]
    · by_cases e' : a = k
      · subst e'; simp [Storage.setItem, Storage.getItem, e]
      · simp [Storage.setItem, Storage.getItem, e, e', ih]

/-- An item that was removed is gone. -/
theorem Storage.getItem_removeItem (k : String) (s : List (String × String)) :
    Storage.getItem k (Storage.removeItem k s) = none := by
  induction s with
  | nil => rfl
  | cons p l ih =>
    obtain ⟨a, w⟩ := p
    by_cases e : a = k
    · subst e; simpa [Storage.removeItem, List.filter_cons] using ih
    · simp only [Storage.removeItem, List.filter_cons] at ih ⊢
      simp [e, Storage.getItem, ih]

/-- Removing one item leaves the others as they are. -/
theorem Storage.getItem_removeItem_ne (k k' : String) (s : List (String × String))
    (h : k' ≠ k) : Storage.getItem k (Storage.removeItem k' s) = Storage.getItem k s := by
  induction s with
  | nil => rfl
  | cons p l ih =>
    obtain ⟨a, w⟩ := p
    simp only [Storage.removeItem, List.filter_cons] at ih ⊢
    by_cases e : a = k'
    · subst e
      simp [Storage.getItem, h, ih]
    · by_cases e' : a = k
      · subst e'; simp [Storage.getItem, e]
      · simp [Storage.getItem, e, e', ih]

/-- Claim C2 (code defect): when the token request of login succeeds and the
profile fetch is answered 401, login ends with the fallback user in local
storage and in memory, without token, on the login page and with a redirect to
`/` pending: the `catch` of auth.js 64-72 runs after the logout of line 132. -/
theorem login_profile_401_stores_user (server : Server) (username password : String)
    (st : Session) (tokenResponse : Response) (data accessToken : JsVal)
    (body : Except String JsVal)
    (hok : tokenResponse.ok = true) (hbody : tokenResponse.body = Except.ok data)
    (htoken : server (Auth.tokenRequest username password) = FetchResult.response tokenResponse)
    (haccess : data.getProp "access_token" = some accessToken)
    (htruthy : accessToken.truthy = true)
    (hprofile : server ⟨"/users/me/", Auth.requestInit accessToken []⟩
      = FetchResult.response ⟨401, body⟩) :
    let fallback := JsVal.obj [("username", JsVal.str username), ("is_admin", JsVal.bool false)]
    let st' := Auth.login server username password st
    Storage.getItem "user" st'.localStorage = some (Json.stringify fallback).toStr
      ∧ st'.user = fallback
      ∧ Storage.getItem "authToken" st'.localStorage = none
      ∧ st'.token = JsVal.null
      ∧ st'.location = "/login"
      ∧ st'.timers = st.timers ++ [(1000, TimerAction.goto "/")] := by
  intro fallback st'
  have hst : st' = Auth.loginFallback username (Auth.logout (Auth.issue
      ⟨"/users/me/", Auth.requestInit accessToken []⟩
      { Auth.issue (Auth.tokenRequest username password) st with
        token := accessToken
        localStorage := Storage.setItem "authToken" accessToken.toStr st.localStorage })) := by
    simp only [st', Auth.login, htoken, hok, if_true, hbody, haccess,
      Auth.makeAuthenticatedRequest, htruthy, Bool.not_true, Bool.false_eq_true, if_false,
      Option.getD_none, hprofile]
    rfl
  rw [hst]
  refine ⟨?_, rfl, ?_, rfl, rfl, rfl⟩
  · simp [Auth.loginFallback, Auth.setTimeout, Auth.showNotification, Storage.getItem_setItem,
      fallback]
  · simp only [Auth.loginFallback, Auth.setTimeout, Auth.showNotification, Auth.logout,
      Auth.issue]
    rw [Storage.getItem_setItem_ne _ _ _ _ (by decide),
      Storage.getItem_removeItem_ne _ _ _ (by decide), Storage.getItem_removeItem]

/-- Witness for claim C2: a login as `admin` against a server that rejects the
token it has just issued. -/
theorem login_profile_401_stores_user_witness :
    Storage.getItem "user" (Auth.login rejectingTokenServer "admin" "secret"
        loginSession).localStorage
        = some (Json.stringify (JsVal.obj [("username", JsVal.str "admin"),
          ("is_admin", JsVal.bool false)])).toStr
      ∧ (Auth.login rejectingTokenServer "admin" "secret" loginSession).user
        = JsVal.obj [("username", JsVal.str "admin"), ("is_admin", JsVal.bool false)]
      ∧ Storage.getItem "authToken" (Auth.login rejectingTokenServer "admin" "secret"
        loginSession).localStorage = none
      ∧ (Auth.login rejectingTokenServer "admin" "secret" loginSession).token = JsVal.null
      ∧ (Auth.login rejectingTokenServer "admin" "secret" loginSession).location = "/login"
      ∧ (Auth.login rejectingTokenServer "admin" "secret" loginSession).timers
        = loginSession.timers ++ [(1000, TimerAction.goto "/")] :=
  login_profile_401_stores_user rejectingTokenServer "admin" "secret" loginSession
    ⟨200, Except.ok (JsVal.obj [("access_token", JsVal.str "abc"),
      ("token_type", JsVal.str "bearer")])⟩
    (JsVal.obj [("access_token", JsVal.str "abc"), ("token_type", JsVal.str "bearer")])
    (JsVal.str "abc")
    (Except.ok (JsVal.obj [("detail", JsVal.str "Could not validate credentials")]))
    (by decide) rfl rfl rfl (by decide) rfl

/-! ## Error messages of rejected requests (C8, C9, C10) -/

/-- A value whose `detail` can be read lets `message` be read too. -/
theorem getProp_message_of_detail (errorData detail : JsVal)
    (h : errorData.getProp "detail" = some detail) :
    ∃ message, errorData.getProp "message" = some message := by
  cases errorData <;> simp [JsVal.getProp] at h ⊢

/-- A booking that passes validation and is answered with a non-2xx status shows
the error message computed from the response. -/
theorem createAppointment_rejected (server : Server) (now : LocalDateTime) (form : BookingForm)
    (st : Session) (value : String) (n : Int) (r : Response)
    (hname : form.clientName ≠ "") (hphone : form.clientPhone ≠ "")
    (hdate : form.appointmentDate ≠ "") (hsel : form.serviceSelect = some value)
    (hparse : parseInt value = some n) (hn : n ≠ 0)
    (hmatch : ClientApp.createAppointment_phoneRegex.testAnchored
      (removeWhitespace form.clientPhone) = true)
    (hserver : server (ClientApp.bookingRequest form n) = FetchResult.response r)
    (hok : r.ok = false) :
    (ClientApp.createAppointment server now form st).2.notifications
      = st.notifications ++ [(ClientApp.errorMessage r, "error")] := by
  simp only [ClientApp.createAppointment, hsel, hparse, hname, hphone, hdate, hmatch]
  simp [hn, hserver, hok, ClientApp.showNotification, Auth.showNotification, Auth.issue]

/-- A status update answered with a non-2xx status other than 401 shows the error
message computed from the response. -/
theorem updateAppointmentStatus_rejected (server : Server) (appointmentId status : String)
    (app : AdminApp) (r : Response)
    (htoken : app.session.token.truthy = true)
    (hserver : server ⟨"/appointments/" ++ appointmentId ++ "/status",
      Auth.requestInit app.session.token (AdminApp.statusUpdateOptions status)⟩
      = FetchResult.response r)
    (h401 : r.status ≠ 401) (hok : r.ok = false) :
    (AdminApp.updateAppointmentStatus server appointmentId status app).session.notifications
      = app.session.notifications ++ [(AdminApp.errorMessage r, "error")] := by
  simp only [AdminApp.updateAppointmentStatus, Auth.makeAuthenticatedRequest, htoken,
    Bool.not_true, Bool.false_eq_true, if_false, Option.getD_some, hserver, h401, hok]
  simp [AdminApp.showNotification, Auth.showNotification, Auth.issue]

/-- A non-empty string `detail` is the error message, in the booking view and in
the admin console. -/
theorem errorMessage_string_detail (r : Response) (errorData : JsVal) (d : String)
    (hbody : r.body = Except.ok errorData)
    (hdetail : errorData.getProp "detail" = some (JsVal.str d)) (hd : d ≠ "") :
    ClientApp.errorMessage r = JsVal.str d ∧ AdminApp.errorMessage r = JsVal.str d := by
  obtain ⟨message, hm⟩ := getProp_message_of_detail _ _ hdetail
  constructor
  · simp [ClientApp.errorMessage, hbody, hdetail, JsVal.truthy, hd]
  · simp [AdminApp.errorMessage, hbody, hdetail, hm, JsVal.truthy, hd]

/-- Claim C8, amended: for every non-2xx response whose JSON body has a non-empty
string `detail`, the error notification of a booking submission, and of a
status update unless the status is 401, is that detail string verbatim. -/
theorem rejection_detail_shown_verbatim (server : Server) (r : Response) (errorData : JsVal)
    (d : String) (hok : r.ok = false) (hbody : r.body = Except.ok errorData)
    (hdetail : errorData.getProp "detail" = some (JsVal.str d)) (hd : d ≠ "") :
    (∀ (now : LocalDateTime) (form : BookingForm) (st : Session) (value : String) (n : Int),
      form.clientName ≠ "" → form.clientPhone ≠ "" → form.appointmentDate ≠ "" →
      form.serviceSelect = some value → parseInt value = some n → n ≠ 0 →
      ClientApp.createAppointment_phoneRegex.testAnchored
        (removeWhitespace form.clientPhone) = true →
      server (ClientApp.bookingRequest form n) = FetchResult.response r →
      (ClientApp.createAppointment server now form st).2.notifications
        = st.notifications ++ [(JsVal.str d, "error")])
    ∧ (∀ (appointmentId status : String) (app : AdminApp),
      app.session.token.truthy = true →
      server ⟨"/appointments/" ++ appointmentId ++ "/status",
        Auth.requestInit app.session.token (AdminApp.statusUpdateOptions status)⟩
        = FetchResult.response r →
      r.status ≠ 401 →
      (AdminApp.updateAppointmentStatus server appointmentId status app).session.notifications
        = app.session.notifications ++ [(JsVal.str d, "error")]) := by
  obtain ⟨h1, h2⟩ := errorMessage_string_detail r errorData d hbody hdetail hd
  constructor
  · intro now form st value n hname hphone hdate hsel hparse hn hmatch hserver
    rw [createAppointment_rejected server now form st value n r hname hphone hdate hsel hparse
      hn hmatch hserver hok, h1]
  · intro appointmentId status app htoken hserver h401
    rw [updateAppointmentStatus_rejected server appointmentId status app r htoken hserver h401
      hok, h2]

/-- Witness for claim C8: a 404 answer with detail `Appointment not found`. -/
theorem rejection_detail_shown_verbatim_witness :
    (ClientApp.createAppointment
        (answering ⟨404, Except.ok (JsVal.obj [("detail", JsVal.str "Appointment not found")])⟩)
        sampleNow sampleForm emptySession).2.notifications
        = emptySession.notifications ++ [(JsVal.str "Appointment not found", "error")]
      ∧ (AdminApp.updateAppointmentStatus
        (answering ⟨404, Except.ok (JsVal.obj [("detail", JsVal.str "Appointment not found")])⟩)
        "5" "confirmed" adminApp).session.notifications
        = adminApp.session.notifications ++ [(JsVal.str "Appointment not found", "error")] :=
  ⟨(rejection_detail_shown_verbatim
      (answering ⟨404, Except.ok (JsVal.obj [("detail", JsVal.str "Appointment not found")])⟩)
      ⟨404, Except.ok (JsVal.obj [("detail", JsVal.str "Appointment not found")])⟩
      (JsVal.obj [("detail", JsVal.str "Appointment not found")]) "Appointment not found"
      (by decide) rfl rfl (by decide)).1 sampleNow sampleForm emptySession "2" 2
      (by decide) (by decide) (by decide) rfl (by decide) (by decide) (by decide) rfl,
    (rejection_detail_shown_verbatim
      (answering ⟨404, Except.ok (JsVal.obj [("detail", JsVal.str "Appointment not found")])⟩)
      ⟨404, Except.ok (JsVal.obj [("detail", JsVal.str "Appointment not found")])⟩
      (JsVal.obj [("detail", JsVal.str "Appointment not found")]) "Appointment not found"
      (by decide) rfl rfl (by decide)).2 "5" "confirmed" adminApp (by decide) rfl (by decide)⟩

/-- Counterexample to claim C8 as stated: an empty string `detail` on a rejected
booking gives the default message, and a 401 answer to a status update gives
the authentication failure message whatever its detail. -/
theorem rejection_detail_not_always_shown :
    ((ClientApp.createAppointment
        (answering ⟨400, Except.ok (JsVal.obj [("detail", JsVal.str "")])⟩)
        sampleNow sampleForm emptySession).2.notifications
        = [(JsVal.str "Ошибка при создании записи", "error")]
      ∧ JsVal.str "Ошибка при создании записи" ≠ JsVal.str "")
    ∧ ((AdminApp.updateAppointmentStatus
        (answering ⟨401, Except.ok (JsVal.obj
          [("detail", JsVal.str "Could not validate credentials")])⟩)
        "5" "confirmed" adminApp).session.notifications
        = [(JsVal.str "Ошибка подключения к серверу: Authentication failed", "error")]
      ∧ JsVal.str "Ошибка подключения к серверу: Authentication failed"
        ≠ JsVal.str "Could not validate credentials") :=
  ⟨⟨rfl, by simp⟩, ⟨rfl, by simp⟩⟩

/-- The accumulating loop of `String.intercalate` agrees with `join`. -/
theorem intercalate_go_joinWith (sep : String) (l : List JsVal) :
    ∀ acc : String, String.intercalate.go acc sep (l.map JsVal.elemStr)
      = acc ++ (match l with
        | [] => ""
        | _ :: _ => sep ++ JsVal.joinWith sep l) := by
  induction l with
  | nil => intro acc; simp [String.intercalate.go]
  | cons x t ih =>
    intro acc
    simp only [List.map_cons, String.intercalate.go, ih]
    cases t with
    | nil => simp [JsVal.joinWith, String.append_assoc]
    | cons y r => simp [JsVal.joinWith, String.append_assoc]

/-- The method `join` puts the separator between the texts of the elements. -/
theorem joinWith_eq_intercalate (sep : String) (l : List JsVal) :
    JsVal.joinWith sep l = sep.intercalate (l.map JsVal.elemStr) := by
  cases l with
  | nil => simp [JsVal.joinWith, String.intercalate]
  | cons x t =>
    simp only [List.map_cons, String.intercalate, intercalate_go_joinWith]
    cases t with
    | nil => simp [JsVal.joinWith]
    | cons y r => simp [JsVal.joinWith, String.append_assoc]

/-- On an entry other than `null` the `map` callback of both views returns a value
whose text in `join` is the display text of the entry. -/
theorem errorEntryText_display (e : JsVal) (h : e ≠ JsVal.null ∧ e ≠ JsVal.undefined) :
    ∃ v, ClientApp.errorEntryText e = some v ∧ AdminApp.errorEntryText e = some v
      ∧ v.elemStr = entryDisplay e := by
  have key : ∀ k, ∃ w, e.getProp k = some w := by
    intro k
    cases e <;> simp [JsVal.getProp] at h ⊢
  obtain ⟨loc, hloc⟩ := key "loc"
  obtain ⟨msg, hmsg⟩ := key "msg"
  obtain ⟨message, hmessage⟩ := key "message"
  simp only [ClientApp.errorEntryText, AdminApp.errorEntryText, entryDisplay, hloc, hmsg,
    hmessage, Option.getD_some]
  by_cases c : (loc.truthy && msg.truthy) = true
  · simp only [c, if_true]
    exact ⟨_, rfl, rfl, by simp [JsVal.elemStr]⟩
  · simp only [c, if_false]
    exact ⟨_, rfl, rfl, rfl⟩

/-- On entries other than `null` the `map` call of both views runs through, and
the texts of its results are the display texts of the entries. -/
theorem mapM_errorEntryText (errs : List JsVal)
    (h : ∀ e ∈ errs, e ≠ JsVal.null ∧ e ≠ JsVal.undefined) :
    ∃ texts, JsVal.mapThrowing ClientApp.errorEntryText errs = some texts
      ∧ JsVal.mapThrowing AdminApp.errorEntryText errs = some texts
      ∧ texts.map JsVal.elemStr = errs.map entryDisplay := by
  induction errs with
  | nil => exact ⟨[], rfl, rfl, rfl⟩
  | cons e l ih =>
    obtain ⟨texts, h1, h2, h3⟩ := ih (fun x hx => h x (List.mem_cons_of_mem _ hx))
    obtain ⟨v, hv1, hv2, hv3⟩ := errorEntryText_display e (h e (by simp))
    refine ⟨v :: texts, ?_, ?_, ?_⟩
    · simp [JsVal.mapThrowing, hv1, h1]
    · simp [JsVal.mapThrowing, hv2, h2]
    · simp [hv3, h3]

/-- An array `detail` without `null` entry gives the display texts of its entries
joined with a comma and a space. -/
theorem errorMessage_array_detail (r : Response) (errorData : JsVal) (errs : List JsVal)
    (hbody : r.body = Except.ok errorData)
    (hdetail : errorData.getProp "detail" = some (JsVal.arr errs))
    (hentries : ∀ e ∈ errs, e ≠ JsVal.null ∧ e ≠ JsVal.undefined) :
    ClientApp.errorMessage r = JsVal.str (", ".intercalate (errs.map entryDisplay))
      ∧ AdminApp.errorMessage r = JsVal.str (", ".intercalate (errs.map entryDisplay)) := by
  obtain ⟨message, hm⟩ := getProp_message_of_detail _ _ hdetail
  obtain ⟨texts, h1, h2, h3⟩ := mapM_errorEntryText errs hentries
  constructor
  · simp [ClientApp.errorMessage, hbody, hdetail, JsVal.truthy, h1, joinWith_eq_intercalate, h3]
  · simp [AdminApp.errorMessage, hbody, hdetail, hm, JsVal.truthy, h2, joinWith_eq_intercalate,
      h3]

/-- Claim C9, amended: for every non-2xx response whose `detail` is an array with
no `null` entry, the notification text of a booking submission, and of a
status update unless the status is 401, is the display texts of the entries
joined with `, ` in array order, where an entry whose `loc` and `msg` are both
truthy displays as `loc[1]`, a colon, a space and `msg`, and any other entry as
what `join` makes of `msg || message`. -/
theorem rejection_array_detail_rendered (server : Server) (r : Response) (errorData : JsVal)
    (errs : List JsVal) (hok : r.ok = false) (hbody : r.body = Except.ok errorData)
    (hdetail : errorData.getProp "detail" = some (JsVal.arr errs))
    (hentries : ∀ e ∈ errs, e ≠ JsVal.null ∧ e ≠ JsVal.undefined) :
    (∀ (now : LocalDateTime) (form : BookingForm) (st : Session) (value : String) (n : Int),
      form.clientName ≠ "" → form.clientPhone ≠ "" → form.appointmentDate ≠ "" →
      form.serviceSelect = some value → parseInt value = some n → n ≠ 0 →
      ClientApp.createAppointment_phoneRegex.testAnchored
        (removeWhitespace form.clientPhone) = true →
      server (ClientApp.bookingRequest form n) = FetchResult.response r →
      (ClientApp.createAppointment server now form st).2.notifications
        = st.notifications
          ++ [(JsVal.str (", ".intercalate (errs.map entryDisplay)), "error")])
    ∧ (∀ (appointmentId status : String) (app : AdminApp),
      app.session.token.truthy = true →
      server ⟨"/appointments/" ++ appointmentId ++ "/status",
        Auth.requestInit app.session.token (AdminApp.statusUpdateOptions status)⟩
        = FetchResult.response r →
      r.status ≠ 401 →
      (AdminApp.updateAppointmentStatus server appointmentId status app).session.notifications
        = app.session.notifications
          ++ [(JsVal.str (", ".intercalate (errs.map entryDisplay)), "error")]) := by
  obtain ⟨h1, h2⟩ := errorMessage_array_detail r errorData errs hbody hdetail hentries
  constructor
  · intro now form st value n hname hphone hdate hsel hparse hn hmatch hserver
    rw [createAppointment_rejected server now form st value n r hname hphone hdate hsel hparse
      hn hmatch hserver hok, h1]
  · intro appointmentId status app htoken hserver h401
    rw [updateAppointmentStatus_rejected server appointmentId status app r htoken hserver h401
      hok, h2]

/-- Witness for claim C9: a 422 answer with one entry for the field `username`. -/
theorem rejection_array_detail_rendered_witness :
    (ClientApp.createAppointment (answering ⟨422, Except.ok validationError⟩)
        sampleNow sampleForm emptySession).2.notifications
        = emptySession.notifications ++ [(JsVal.str "username: field required", "error")]
      ∧ (AdminApp.updateAppointmentStatus (answering ⟨422, Except.ok validationError⟩)
        "5" "confirmed" adminApp).session.notifications
        = adminApp.session.notifications
          ++ [(JsVal.str "username: field required", "error")] :=
  ⟨(rejection_array_detail_rendered (answering ⟨422, Except.ok validationError⟩)
      ⟨422, Except.ok validationError⟩ validationError _ (by decide) rfl rfl
      (by intro e he; simp at he; subst he; simp)).1 sampleNow sampleForm emptySession "2" 2
      (by decide) (by decide) (by decide) rfl (by decide) (by decide) (by decide) rfl,
    (rejection_array_detail_rendered (answering ⟨422, Except.ok validationError⟩)
      ⟨422, Except.ok validationError⟩ validationError _ (by decide) rfl rfl
      (by intro e he; simp at he; subst he; simp)).2 "5" "confirmed" adminApp
      (by decide) rfl (by decide)⟩

/-- Counterexample to claim C9 as stated: a `null` entry in the array turns the
notification into `HTTP Error: 422`, a 401 answer to a status update gives the
authentication failure message, and an entry with `loc` and an empty `msg` is
not rendered with its field. -/
theorem rejection_array_detail_not_always_rendered :
    ((ClientApp.createAppointment
        (answering ⟨422, Except.ok (JsVal.obj [("detail", JsVal.arr
          [JsVal.obj [("loc", JsVal.arr [JsVal.str "body", JsVal.str "client_phone"]),
            ("msg", JsVal.str "invalid")], JsVal.null])])⟩)
        sampleNow sampleForm emptySession).2.notifications
        = [(JsVal.str "HTTP Error: 422", "error")]
      ∧ entryDisplay (JsVal.obj [("loc", JsVal.arr [JsVal.str "body", JsVal.str "client_phone"]),
            ("msg", JsVal.str "invalid")]) = "client_phone: invalid"
      ∧ ¬ ("client_phone: invalid".data <:+: "HTTP Error: 422".data))
    ∧ ((AdminApp.updateAppointmentStatus (answering ⟨401, Except.ok validationError⟩)
        "5" "confirmed" adminApp).session.notifications
        = [(JsVal.str "Ошибка подключения к серверу: Authentication failed", "error")]
      ∧ ¬ ("username: field required".data
          <:+: "Ошибка подключения к серверу: Authentication failed".data))
    ∧ ((ClientApp.createAppointment
        (answering ⟨422, Except.ok (JsVal.obj [("detail", JsVal.arr
          [JsVal.obj [("loc", JsVal.arr [JsVal.str "body", JsVal.str "client_phone"]),
            ("msg", JsVal.str "")]])])⟩)
        sampleNow sampleForm emptySession).2.notifications
        = [(JsVal.str "", "error")]) :=
  ⟨⟨rfl, by decide, by decide⟩, ⟨rfl, by decide⟩, rfl⟩

/-- The error message of a rejected booking is a string, whatever the response. -/
theorem ClientApp.errorMessage_isString (r : Response) :
    ∃ s, ClientApp.errorMessage r = JsVal.str s := by
  unfold ClientApp.errorMessage
  cases r.body with
  | error m => exact ⟨_, rfl⟩
  | ok errorData =>
    simp only []
    cases errorData.getProp "detail" with
    | none => exact ⟨_, rfl⟩
    | some detail =>
      simp only []
      split
      · cases detail with
        | str s => exact ⟨_, rfl⟩
        | arr errs =>
          simp only []
          cases JsVal.mapThrowing ClientApp.errorEntryText errs <;> exact ⟨_, rfl⟩
        | obj props => exact ⟨_, rfl⟩
        | undefined => exact ⟨_, rfl⟩
        | null => exact ⟨_, rfl⟩
        | bool b => exact ⟨_, rfl⟩
        | num n => exact ⟨_, rfl⟩
      · exact ⟨_, rfl⟩

/-- Without a truthy `detail`, a status update passes a truthy `message` on as it
is. -/
theorem AdminApp.errorMessage_message_unconverted (r : Response) (errorData detail message : JsVal)
    (hbody : r.body = Except.ok errorData)
    (hdetail : errorData.getProp "detail" = some detail) (hfalsy : detail.truthy = false)
    (hmessage : errorData.getProp "message" = some message) (htruthy : message.truthy = true) :
    AdminApp.errorMessage r = message := by
  simp [AdminApp.errorMessage, hbody, hdetail, hfalsy, hmessage, htruthy]

/-- Claim C10 (code defect): login hands a truthy `detail` of a rejected token
request to the notification as it is, so an array or object `detail` reaches
the notification unconverted, where createAppointment builds a string. -/
theorem login_passes_detail_unconverted (server : Server) (username password : String)
    (st : Session) (r : Response) (errorData detail : JsVal)
    (hserver : server (Auth.tokenRequest username password) = FetchResult.response r)
    (hok : r.ok = false) (hbody : r.body = Except.ok errorData)
    (hdetail : errorData.getProp "detail" = some detail) (htruthy : detail.truthy = true) :
    (Auth.login server username password st).notifications
      = st.notifications ++ [(detail, "error")] := by
  simp [Auth.login, hserver, hok, Auth.loginErrorMessage, hbody, hdetail, htruthy,
    Auth.showNotification, Auth.issue]

/-- Witness for claim C10: a 422 answer to the token request, whose `detail` is an
array, puts that array and no string into the notification. -/
theorem login_passes_detail_unconverted_witness :
    (Auth.login (answering ⟨422, Except.ok validationError⟩) "" "secret"
        loginSession).notifications
        = loginSession.notifications ++ [(JsVal.arr [JsVal.obj
          [("loc", JsVal.arr [JsVal.str "body", JsVal.str "username"]),
           ("msg", JsVal.str "field required"), ("type", JsVal.str "value_error.missing")]],
          "error")]
      ∧ (JsVal.arr [JsVal.obj
          [("loc", JsVal.arr [JsVal.str "body", JsVal.str "username"]),
           ("msg", JsVal.str "field required"),
           ("type", JsVal.str "value_error.missing")]]).isString = false :=
  ⟨login_passes_detail_unconverted (answering ⟨422, Except.ok validationError⟩) "" "secret"
      loginSession ⟨422, Except.ok validationError⟩ validationError _ rfl (by decide) rfl rfl
      (by decide), by decide⟩

/-! ## The access gate, the request wrapper and logout (C11, C12, C13) -/

/-- A string includes itself. -/
theorem jsIncludes_self (s : String) : jsIncludes s s = true := by
  simp [jsIncludes]

/-- Claim C11, amended: with no token, checkAuth returns true exactly when the path
contains `/login` or `/register` (the paths `/login` and `/register` among them)
and then redirects nowhere, and for every other path it sets the location to
`/login` and returns false; with a token it returns true for every path and
redirects nowhere. -/
theorem checkAuth_gate (st : Session) :
    (st.token.truthy = false →
      ((Auth.checkAuth st).1 = true
          ↔ jsIncludes st.location "/login" = true ∨ jsIncludes st.location "/register" = true)
        ∧ ((Auth.checkAuth st).1 = true → (Auth.checkAuth st).2 = st)
        ∧ ((Auth.checkAuth st).1 = false
          → (Auth.checkAuth st).2 = { st with location := "/login" }))
    ∧ (st.token.truthy = true → Auth.checkAuth st = (true, st)) := by
  constructor
  · intro h
    unfold Auth.checkAuth
    by_cases h1 : st.location = "/login"
    · simp [h1, jsIncludes_self]
    · by_cases h2 : st.location = "/register"
      · simp [h2, jsIncludes_self]
      · by_cases h3 : jsIncludes st.location "/login" = true
        · simp [h, h1, h2, h3]
        · by_cases h4 : jsIncludes st.location "/register" = true
          · simp [h, h1, h2, h3, h4]
          · simp [h, h1, h2, h3, h4]
  · intro h
    unfold Auth.checkAuth
    by_cases h1 : st.location = "/login" ∨ st.location = "/register"
    · simp [h1]
    · simp [h1, h]

/-- Witness for claim C11: without token the login page is admitted and the booking
page is redirected; with a token the admin page is admitted. -/
theorem checkAuth_gate_witness :
    (loginSession.token.truthy = false
      ∧ (Auth.checkAuth loginSession).1 = true
      ∧ (Auth.checkAuth emptySession).1 = false
      ∧ (Auth.checkAuth emptySession).2 = { emptySession with location := "/login" })
    ∧ (adminSession.token.truthy = true ∧ Auth.checkAuth adminSession = (true, adminSession)) :=
  ⟨⟨by decide,
    ((checkAuth_gate loginSession).1 (by decide)).1.mpr (Or.inl (by decide)),
    by decide,
    ((checkAuth_gate emptySession).1 (by decide)).2.2 (by decide)⟩,
   by decide, (checkAuth_gate adminSession).2 (by decide)⟩

/-- Counterexample to claim C11 as stated: without token, the path `/login-help`,
which is neither `/login` nor `/register`, is admitted without redirect. -/
theorem checkAuth_admits_path_containing_login :
    { emptySession with location := "/login-help" }.token.truthy = false
      ∧ { emptySession with location := "/login-help" }.location ≠ "/login"
      ∧ { emptySession with location := "/login-help" }.location ≠ "/register"
      ∧ (Auth.checkAuth { emptySession with location := "/login-help" }).1 = true
      ∧ (Auth.checkAuth { emptySession with location := "/login-help" }).2.location
        = "/login-help" := by
  refine ⟨by decide, by decide, by decide, by decide, by decide⟩

/-- Claim C12: for every response whose status is not 401, makeAuthenticatedRequest
returns that same response and leaves the token, the user, local storage and
the location unchanged; the session differs only by the request it records. -/
theorem makeAuthenticatedRequest_passes_response (server : Server) (url : String)
    (options : Option (List (String × JsVal))) (st : Session) (r : Response)
    (htoken : st.token.truthy = true)
    (hserver : server ⟨url, Auth.requestInit st.token (options.getD [])⟩
      = FetchResult.response r)
    (hstatus : r.status ≠ 401) :
    (Auth.makeAuthenticatedRequest server url options st).1 = Except.ok r
      ∧ (Auth.makeAuthenticatedRequest server url options st).2.token = st.token
      ∧ (Auth.makeAuthenticatedRequest server url options st).2.user = st.user
      ∧ (Auth.makeAuthenticatedRequest server url options st).2.localStorage = st.localStorage
      ∧ (Auth.makeAuthenticatedRequest server url options st).2.location = st.location
      ∧ (Auth.makeAuthenticatedRequest server url options st).2
        = { st with requests := st.requests
              ++ [⟨url, Auth.requestInit st.token (options.getD [])⟩] } := by
  simp [Auth.makeAuthenticatedRequest, htoken, hserver, hstatus, Auth.issue]

/-- Witness for claim C12: a 500 answer is returned as it is and the session stays. -/
theorem makeAuthenticatedRequest_passes_response_witness :
    adminSession.token.truthy = true
      ∧ (Auth.makeAuthenticatedRequest
          (answering ⟨500, Except.ok (JsVal.obj [("detail", JsVal.str "Internal Server Error")])⟩)
          "/clients/" none adminSession).1
        = Except.ok ⟨500, Except.ok (JsVal.obj [("detail", JsVal.str "Internal Server Error")])⟩
      ∧ (Auth.makeAuthenticatedRequest
          (answering ⟨500, Except.ok (JsVal.obj [("detail", JsVal.str "Internal Server Error")])⟩)
          "/clients/" none adminSession).2.token = adminSession.token
      ∧ (Auth.makeAuthenticatedRequest
          (answering ⟨500, Except.ok (JsVal.obj [("detail", JsVal.str "Internal Server Error")])⟩)
          "/clients/" none adminSession).2.localStorage = adminSession.localStorage :=
  have h := makeAuthenticatedRequest_passes_response
    (answering ⟨500, Except.ok (JsVal.obj [("detail", JsVal.str "Internal Server Error")])⟩)
    "/clients/" none adminSession
    ⟨500, Except.ok (JsVal.obj [("detail", JsVal.str "Internal Server Error")])⟩
    (by decide) rfl (by decide)
  ⟨by decide, h.1, h.2.1, h.2.2.2.1⟩

/-- Claim C13: from every session state, logout removes `authToken` and `user` from
local storage (and nothing else), sets the in-memory token and user to `null`
and the location to `/login`; applying it twice gives the same state as
applying it once. -/
theorem logout_clears_session (st : Session) :
    Storage.getItem "authToken" (Auth.logout st).localStorage = none
      ∧ Storage.getItem "user" (Auth.logout st).localStorage = none
      ∧ (∀ k, k ≠ "authToken" → k ≠ "user" →
          Storage.getItem k (Auth.logout st).localStorage = Storage.getItem k st.localStorage)
      ∧ (Auth.logout st).token = JsVal.null
      ∧ (Auth.logout st).user = JsVal.null
      ∧ (Auth.logout st).location = "/login"
      ∧ Auth.logout (Auth.logout st) = Auth.logout st := by
  refine ⟨?_, ?_, ?_, rfl, rfl, rfl, ?_⟩
  · simp only [Auth.logout]
    rw [Storage.getItem_removeItem_ne _ _ _ (by decide), Storage.getItem_removeItem]
  · simp only [Auth.logout]
    rw [Storage.getItem_removeItem]
  · intro k h1 h2
    simp only [Auth.logout]
    rw [Storage.getItem_removeItem_ne _ _ _ (Ne.symm h2),
      Storage.getItem_removeItem_ne _ _ _ (Ne.symm h1)]
  · simp only [Auth.logout, Storage.removeItem, List.filter_filter]
    congr 1
    apply List.filter_congr
    intro p _
    cases (p.1 != "user") <;> cases (p.1 != "authToken") <;> rfl

/-- Witness for claim C13: the signed-in administrator logs out. -/
theorem logout_clears_session_witness :
    Storage.getItem "authToken" (Auth.logout adminSession).localStorage = none
      ∧ Storage.getItem "user" (Auth.logout adminSession).localStorage = none
      ∧ Auth.logout (Auth.logout adminSession) = Auth.logout adminSession :=
  ⟨(logout_clears_session adminSession).1, (logout_clears_session adminSession).2.1,
    (logout_clears_session adminSession).2.2.2.2.2.2⟩

/-! ## The profile fetch of login fails (C14) -/

/-- The fallback of login keeps the token and stores the minimal user record. -/
theorem loginFallback_effect (username : String) (st : Session) :
    (Auth.loginFallback username st).token = st.token
      ∧ Storage.getItem "authToken" (Auth.loginFallback username st).localStorage
        = Storage.getItem "authToken" st.localStorage
      ∧ (Auth.loginFallback username st).user
        = JsVal.obj [("username", JsVal.str username), ("is_admin", JsVal.bool false)]
      ∧ Storage.getItem "user" (Auth.loginFallback username st).localStorage
        = some (Json.stringify (JsVal.obj [("username", JsVal.str username),
            ("is_admin", JsVal.bool false)])).toStr := by
  refine ⟨rfl, ?_, rfl, ?_⟩
  · simp only [Auth.loginFallback, Auth.setTimeout, Auth.showNotification]
    rw [Storage.getItem_setItem_ne _ _ _ _ (by decide)]
  · simp only [Auth.loginFallback, Auth.setTimeout, Auth.showNotification]
    rw [Storage.getItem_setItem]

/-- Claim C14, amended: for every login in which the token request succeeds and
the profile fetch fails otherwise than by a 401 answer (no usable token, a
network error, a non-2xx answer other than 401, or a body that is not JSON),
the token stays stored and the user, in memory and in local storage, becomes
exactly the record of the entered user name with `is_admin` false. -/
theorem login_profile_failure_keeps_token (server : Server) (username password : String)
    (st : Session) (tokenResponse : Response) (data accessToken : JsVal)
    (hok : tokenResponse.ok = true) (hbody : tokenResponse.body = Except.ok data)
    (htoken : server (Auth.tokenRequest username password) = FetchResult.response tokenResponse)
    (haccess : data.getProp "access_token" = some accessToken)
    (hfail : accessToken.truthy = false
      ∨ (∃ m, server ⟨"/users/me/", Auth.requestInit accessToken []⟩
          = FetchResult.networkError m)
      ∨ (∃ r, server ⟨"/users/me/", Auth.requestInit accessToken []⟩ = FetchResult.response r
          ∧ r.status ≠ 401 ∧ (r.ok = false ∨ ∃ m, r.body = Except.error m))) :
    (Auth.login server username password st).token = accessToken
      ∧ Storage.getItem "authToken" (Auth.login server username password st).localStorage
        = some accessToken.toStr
      ∧ (Auth.login server username password st).user
        = JsVal.obj [("username", JsVal.str username), ("is_admin", JsVal.bool false)]
      ∧ Storage.getItem "user" (Auth.login server username password st).localStorage
        = some (Json.stringify (JsVal.obj [("username", JsVal.str username),
            ("is_admin", JsVal.bool false)])).toStr := by
  have key : ∃ st₁ : Session, Auth.login server username password st
      = Auth.loginFallback username st₁ ∧ st₁.token = accessToken
        ∧ st₁.localStorage = Storage.setItem "authToken" accessToken.toStr st.localStorage := by
    simp only [Auth.login, htoken, hok, if_true, hbody, haccess, Auth.makeAuthenticatedRequest,
      Option.getD_none]
    rcases hfail with h | ⟨m, h⟩ | ⟨r, h, h401, hr⟩
    · simp only [h, Bool.not_false, if_true]
      exact ⟨_, rfl, rfl, rfl⟩
    · by_cases ht : accessToken.truthy = true
      · simp only [ht, Bool.not_true, Bool.false_eq_true, if_false, h]
        exact ⟨_, rfl, rfl, rfl⟩
      · simp only [Bool.not_eq_true] at ht
        simp only [ht, Bool.not_false, if_true]
        exact ⟨_, rfl, rfl, rfl⟩
    · by_cases ht : accessToken.truthy = true
      · simp only [ht, Bool.not_true, Bool.false_eq_true, if_false, h, h401]
        rcases hr with hr | ⟨m, hr⟩
        · simp only [hr, Bool.false_eq_true, if_false]
          exact ⟨_, rfl, rfl, rfl⟩
        · by_cases hok' : r.ok = true
          · simp only [hok', if_true, hr]
            exact ⟨_, rfl, rfl, rfl⟩
          · simp only [hok', if_false]
            exact ⟨_, rfl, rfl, rfl⟩
      · simp only [Bool.not_eq_true] at ht
        simp only [ht, Bool.not_false, if_true]
        exact ⟨_, rfl, rfl, rfl⟩
  obtain ⟨st₁, hlogin, htok, hstore⟩ := key
  obtain ⟨h1, h2, h3, h4⟩ := loginFallback_effect username st₁
  rw [hlogin]
  refine ⟨h1.trans htok, ?_, h3, h4⟩
  rw [h2, hstore, Storage.getItem_setItem]

/-- Witness for claim C14: the profile fetch is answered 500. -/
theorem login_profile_failure_keeps_token_witness :
    (Auth.login failingProfileServer "admin" "secret" loginSession).token = JsVal.str "abc"
      ∧ Storage.getItem "authToken"
          (Auth.login failingProfileServer "admin" "secret" loginSession).localStorage
        = some "abc"
      ∧ (Auth.login failingProfileServer "admin" "secret" loginSession).user
        = JsVal.obj [("username", JsVal.str "admin"), ("is_admin", JsVal.bool false)]
      ∧ Storage.getItem "user"
          (Auth.login failingProfileServer "admin" "secret" loginSession).localStorage
        = some (Json.stringify (JsVal.obj [("username", JsVal.str "admin"),
            ("is_admin", JsVal.bool false)])).toStr :=
  login_profile_failure_keeps_token failingProfileServer "admin" "secret" loginSession
    ⟨200, Except.ok (JsVal.obj [("access_token", JsVal.str "abc"),
      ("token_type", JsVal.str "bearer")])⟩
    (JsVal.obj [("access_token", JsVal.str "abc"), ("token_type", JsVal.str "bearer")])
    (JsVal.str "abc") (by decide) rfl rfl rfl
    (Or.inr (Or.inr ⟨⟨500, Except.ok (JsVal.obj
      [("detail", JsVal.str "Internal Server Error")])⟩, rfl, by decide, Or.inl (by decide)⟩))

/-- Counterexample to claim C14 as stated: when the profile fetch is answered 401,
the token is stored neither in memory nor in local storage after login. -/
theorem login_profile_401_drops_token :
    (Auth.login rejectingTokenServer "admin" "secret" loginSession).token = JsVal.null
      ∧ Storage.getItem "authToken"
          (Auth.login rejectingTokenServer "admin" "secret" loginSession).localStorage = none
      ∧ (Auth.login rejectingTokenServer "admin" "secret" loginSession).requests.map
          (fun r => r.url) = ["/token", "/users/me/"] :=
  ⟨rfl, by decide, by decide⟩

/-! ## Required fields and the default date (C15, C16) -/

/-- Claim C15: for every booking form in which the client name, the phone or the
appointment date is empty or no service is selected, createAppointment sends
no request, leaves the form as it is and shows the error notification that
asks for the required fields. -/
theorem createAppointment_requires_fields (server : Server) (now : LocalDateTime)
    (form : BookingForm) (st : Session)
    (h : form.clientName = "" ∨ form.clientPhone = "" ∨ form.appointmentDate = ""
      ∨ form.serviceSelect = none ∨ form.serviceSelect = some "") :
    (ClientApp.createAppointment server now form st).2.requests = st.requests
      ∧ (ClientApp.createAppointment server now form st).1 = form
      ∧ (ClientApp.createAppointment server now form st).2.notifications
        = st.notifications
          ++ [(JsVal.str "Пожалуйста, заполните все обязательные поля", "error")] := by
  have hempty : parseInt "" = none := by decide
  have hguard : (decide (form.clientName = "") || decide (form.clientPhone = "")
      || (match (match form.serviceSelect with
            | some value => parseInt value
            | none => none) with
          | some n => n == 0
          | none => true)
      || decide (form.appointmentDate = "")) = true := by
    rcases h with h | h | h | h | h
    · simp [h]
    · simp [h]
    · simp [h]
    · simp [h]
    · simp [h, hempty]
  simp only [ClientApp.createAppointment]
  split
  · exact ⟨rfl, rfl, rfl⟩
  · rename_i hn
    exact absurd hguard hn

/-- Witness for claim C15: the sample form with no service selected. -/
theorem createAppointment_requires_fields_witness :
    ({ sampleForm with serviceSelect := some "" }.clientName = ""
        ∨ { sampleForm with serviceSelect := some "" }.clientPhone = ""
        ∨ { sampleForm with serviceSelect := some "" }.appointmentDate = ""
        ∨ { sampleForm with serviceSelect := some "" }.serviceSelect = none
        ∨ { sampleForm with serviceSelect := some "" }.serviceSelect = some "")
      ∧ (ClientApp.createAppointment offlineServer sampleNow
          { sampleForm with serviceSelect := some "" } emptySession).2.requests
        = emptySession.requests
      ∧ (ClientApp.createAppointment offlineServer sampleNow
          { sampleForm with serviceSelect := some "" } emptySession).2.notifications
        = emptySession.notifications
          ++ [(JsVal.str "Пожалуйста, заполните все обязательные поля", "error")] :=
  have h := createAppointment_requires_fields offlineServer sampleNow
    { sampleForm with serviceSelect := some "" } emptySession
    (Or.inr (Or.inr (Or.inr (Or.inr rfl))))
  ⟨Or.inr (Or.inr (Or.inr (Or.inr rfl))), h.1, h.2.2⟩

/-- The days before a month are those before the previous month and the days of
that month. -/
theorem daysBeforeMonth_succ (y : Nat) (m : Fin 12) (h : m.val + 1 < 12) :
    CalendarDate.daysBeforeMonth y ⟨m.val + 1, h⟩
      = CalendarDate.daysBeforeMonth y m + CalendarDate.daysInMonth y m := by
  fin_cases m <;> try (simp at h)
  all_goals simp [CalendarDate.daysBeforeMonth, CalendarDate.daysInMonth, List.finRange]

/-- The days before December and its 31 days make up the year. -/
theorem daysBeforeMonth_december (y : Nat) :
    CalendarDate.daysBeforeMonth y ⟨11, by decide⟩ + 31
      = if CalendarDate.isLeapYear y then 366 else 365 := by
  simp [CalendarDate.daysBeforeMonth, CalendarDate.daysInMonth, List.finRange]
  split <;> omega

/-- The first day of the next year comes a year later. -/
theorem dayFromYear_succ (y : Nat) :
    CalendarDate.dayFromYear (y + 1)
      = CalendarDate.dayFromYear y + (if CalendarDate.isLeapYear y then 366 else 365) := by
  simp only [CalendarDate.dayFromYear, CalendarDate.isLeapYear]
  push_cast
  by_cases h4 : y % 4 = 0 <;> by_cases h100 : y % 100 = 0 <;> by_cases h400 : y % 400 = 0
    <;> simp [h4, h100, h400] <;> omega

/-- Every month has at least 28 days. -/
theorem daysInMonth_ge (y : Nat) (m : Fin 12) : 28 ≤ CalendarDate.daysInMonth y m := by
  fin_cases m <;> simp [CalendarDate.daysInMonth] <;> (try split) <;> omega

/-- On a valid date, `setDate(getDate() + 1)` gives a valid date whose day number
is one more. -/
theorem dayNumber_setDate_succ (d : CalendarDate)
    (h1 : 1 ≤ d.date) (h2 : d.date ≤ CalendarDate.daysInMonth d.year d.month) :
    (d.setDate (d.date + 1)).dayNumber = d.dayNumber + 1
      ∧ 1 ≤ (d.setDate (d.date + 1)).date
      ∧ (d.setDate (d.date + 1)).date
        ≤ CalendarDate.daysInMonth (d.setDate (d.date + 1)).year (d.setDate (d.date + 1)).month := by
  obtain ⟨y, m, dd⟩ := d
  simp only at h1 h2
  unfold CalendarDate.setDate
  simp only
  by_cases hle : dd + 1 ≤ CalendarDate.daysInMonth y m
  · rw [if_pos hle]
    refine ⟨?_, ?_, hle⟩
    · simp only [CalendarDate.dayNumber]
      push_cast
      omega
    · show 1 ≤ dd + 1
      omega
  · rw [if_neg hle]
    have hdate : dd = CalendarDate.daysInMonth y m := by omega
    by_cases hm : m.val + 1 < 12
    · rw [dif_pos hm]
      refine ⟨?_, ?_, ?_⟩
      · simp only [CalendarDate.dayNumber, daysBeforeMonth_succ y m hm]
        push_cast
        omega
      · show 1 ≤ dd + 1 - CalendarDate.daysInMonth y m
        omega
      · show dd + 1 - CalendarDate.daysInMonth y m
          ≤ CalendarDate.daysInMonth y ⟨m.val + 1, hm⟩
        have := daysInMonth_ge y ⟨m.val + 1, hm⟩
        omega
    · rw [dif_neg hm]
      have hm11 : m = ⟨11, by decide⟩ := by
        apply Fin.ext
        have := m.isLt
        show m.val = 11
        omega
      subst hm11
      have h31 : CalendarDate.daysInMonth y ⟨11, by decide⟩ = 31 := rfl
      have hdec := daysBeforeMonth_december y
      have hyear := dayFromYear_succ y
      have h0 : CalendarDate.daysBeforeMonth (y + 1) ⟨0, by decide⟩ = 0 := by
        simp [CalendarDate.daysBeforeMonth, List.finRange]
      refine ⟨?_, ?_, ?_⟩
      · show CalendarDate.dayFromYear (y + 1)
            + ((CalendarDate.daysBeforeMonth (y + 1) ⟨0, by decide⟩ : Nat) : Int)
            + ((dd + 1 - CalendarDate.daysInMonth y ⟨11, by decide⟩ : Nat) : Int) - 1
          = CalendarDate.dayFromYear y
            + ((CalendarDate.daysBeforeMonth y ⟨11, by decide⟩ : Nat) : Int) + (dd : Int) - 1 + 1
        rw [hyear, h0, h31]
        rw [h31] at hdate
        subst hdate
        generalize CalendarDate.daysBeforeMonth y ⟨11, by decide⟩ = a at hdec
        by_cases hl : CalendarDate.isLeapYear y = true
        · simp only [hl, if_true] at hdec ⊢
          push_cast
          omega
        · simp only [hl, Bool.false_eq_true, if_false] at hdec ⊢
          push_cast
          omega
      · show 1 ≤ dd + 1 - CalendarDate.daysInMonth y ⟨11, by decide⟩
        omega
      · show dd + 1 - CalendarDate.daysInMonth y ⟨11, by decide⟩
          ≤ CalendarDate.daysInMonth (y + 1) ⟨0, by decide⟩
        have := daysInMonth_ge (y + 1) ⟨0, by decide⟩
        omega

/-- A decimal digit character has the value of its digit. -/
theorem digitValue_digitChar (k : Nat) (h : k < 10) : digitValue 10 (Nat.digitChar k) = some k := by
  interval_cases k <;> rfl

/-- The two characters of a number below 100 padded to two digits. -/
theorem padStart2_data (n : Nat) (h : n < 100) :
    (padStart2 n).data = [Nat.digitChar (n / 10), Nat.digitChar (n % 10)] := by
  interval_cases n <;> rfl

/-- A number below 100 padded to two digits has two characters. -/
theorem padStart2_length (n : Nat) (h : n < 100) : (padStart2 n).length = 2 := by
  rw [String.length, padStart2_data n h]
  rfl

/-- One step of the loop that writes a decimal numeral. -/
theorem toDigitsCore_step (f n : Nat) (ds : List Char) :
    Nat.toDigitsCore 10 (f + 1) n ds
      = if n / 10 = 0 then Nat.digitChar (n % 10) :: ds
        else Nat.toDigitsCore 10 f (n / 10) (Nat.digitChar (n % 10) :: ds) := by
  simp [Nat.toDigitsCore]

/-- The four characters of a year between 1000 and 9999. -/
theorem fourDigitYear_data (y : Nat) (h1 : 1000 ≤ y) (h2 : y ≤ 9999) :
    (toString y).data = [Nat.digitChar (y / 1000), Nat.digitChar (y / 100 % 10),
      Nat.digitChar (y / 10 % 10), Nat.digitChar (y % 10)] := by
  rw [natRepr_data]
  have hf : y + 1 = (y - 3) + 1 + 1 + 1 + 1 := by omega
  rw [Nat.toDigits, hf, toDigitsCore_step, toDigitsCore_step, toDigitsCore_step,
    toDigitsCore_step]
  have e1 : ¬ y / 10 = 0 := by omega
  have e2 : ¬ y / 10 / 10 = 0 := by omega
  have e3 : ¬ y / 10 / 10 / 10 = 0 := by omega
  have e4 : y / 10 / 10 / 10 / 10 = 0 := by omega
  have d2 : y / 10 / 10 % 10 = y / 100 % 10 := by omega
  have d3 : y / 10 / 10 / 10 % 10 = y / 1000 := by omega
  simp only [e1, e2, e3, e4, if_true, if_false, d2, d3]

/-- The assembled text of a valid date-time with a four-digit year parses back to
that date-time. -/
theorem parseIsoLocal_isoMinuteText (t : LocalDateTime)
    (hy1 : 1000 ≤ t.day.year) (hy2 : t.day.year ≤ 9999) (hd1 : 1 ≤ t.day.date)
    (hd2 : t.day.date ≤ CalendarDate.daysInMonth t.day.year t.day.month)
    (hh : t.hours < 24) (hm : t.minutes < 60) :
    parseIsoLocal (isoMinuteText t) = some (t, 0) := by
  obtain ⟨⟨y, m, d⟩, h, mi⟩ := t
  simp only at hy1 hy2 hd1 hd2 hh hm
  have hdim : CalendarDate.daysInMonth y m ≤ 31 := by
    fin_cases m <;> simp [CalendarDate.daysInMonth] <;> (try split) <;> omega
  have hmlt := m.isLt
  have hdata : (isoMinuteText ⟨⟨y, m, d⟩, h, mi⟩).data
      = [Nat.digitChar (y / 1000), Nat.digitChar (y / 100 % 10), Nat.digitChar (y / 10 % 10),
          Nat.digitChar (y % 10), '-', Nat.digitChar ((m.val + 1) / 10),
          Nat.digitChar ((m.val + 1) % 10), '-', Nat.digitChar (d / 10), Nat.digitChar (d % 10),
          'T', Nat.digitChar (h / 10), Nat.digitChar (h % 10), ':', Nat.digitChar (mi / 10),
          Nat.digitChar (mi % 10)] := by
    simp only [isoMinuteText, String.data_append, fourDigitYear_data y hy1 hy2,
      padStart2_data (m.val + 1) (by omega), padStart2_data d (by omega),
      padStart2_data h (by omega), padStart2_data mi (by omega)]
    rfl
  unfold parseIsoLocal
  rw [hdata]
  simp only [digitValue_digitChar (y / 1000) (by omega), digitValue_digitChar (y / 100 % 10) (by omega),
    digitValue_digitChar (y / 10 % 10) (by omega), digitValue_digitChar (y % 10) (by omega),
    digitValue_digitChar ((m.val + 1) / 10) (by omega),
    digitValue_digitChar ((m.val + 1) % 10) (by omega),
    digitValue_digitChar (d / 10) (by omega), digitValue_digitChar (d % 10) (by omega),
    digitValue_digitChar (h / 10) (by omega), digitValue_digitChar (h % 10) (by omega),
    digitValue_digitChar (mi / 10) (by omega), digitValue_digitChar (mi % 10) (by omega),
    Option.bind_eq_bind, Option.some_bind, Option.pure_def, bind_pure_comp, pure]
  have e_mo : 10 * ((m.val + 1) / 10) + (m.val + 1) % 10 = m.val + 1 := by omega
  have e_y : 100 * (10 * (y / 1000) + y / 100 % 10) + (10 * (y / 10 % 10) + y % 10) = y := by
    omega
  have e_d : 10 * (d / 10) + d % 10 = d := by omega
  have e_h : 10 * (h / 10) + h % 10 = h := by omega
  have e_mi : 10 * (mi / 10) + mi % 10 = mi := by omega
  simp [e_mo, e_y, e_d, e_h, e_mi, hd1, hd2, hh, hm]
  omega

/-- The default value is the assembled text of tomorrow at 10:00. -/
theorem setDefaultDateTime_eq_isoMinuteText (now : LocalDateTime) :
    ClientApp.setDefaultDateTime now
      = isoMinuteText ⟨now.day.setDate (now.day.date + 1), 10, 0⟩ := rfl

/-- A booking answered with a 2xx status and a JSON body resets the form. -/
theorem createAppointment_success_resets (server : Server) (now : LocalDateTime)
    (form : BookingForm) (st : Session) (value : String) (n : Int) (r : Response) (body : JsVal)
    (hname : form.clientName ≠ "") (hphone : form.clientPhone ≠ "")
    (hdate : form.appointmentDate ≠ "") (hsel : form.serviceSelect = some value)
    (hparse : parseInt value = some n) (hn : n ≠ 0)
    (hmatch : ClientApp.createAppointment_phoneRegex.testAnchored
      (removeWhitespace form.clientPhone) = true)
    (hserver : server (ClientApp.bookingRequest form n) = FetchResult.response r)
    (hok : r.ok = true) (hbody : r.body = Except.ok body) :
    (ClientApp.createAppointment server now form st).1 = ClientApp.resetForm now form := by
  simp only [ClientApp.createAppointment, hsel, hparse, hname, hphone, hdate, hmatch]
  simp [hn, hserver, hok, hbody]

/-- Claim C16: for every current local time (a valid calendar date),
setDefaultDateTime gives the text of the year, the month and the day of the
next calendar day (its day number is one more, rolling over month and year
ends), month and day padded to two digits, followed by `T10:00`; for a
four-digit year that text parses as that day at 10:00; and after a booking
answered with a 2xx status and a JSON body the date field holds the same
default. -/
theorem setDefaultDateTime_tomorrow_at_ten (now : LocalDateTime)
    (h1 : 1 ≤ now.day.date)
    (h2 : now.day.date ≤ CalendarDate.daysInMonth now.day.year now.day.month) :
    (now.day.setDate (now.day.date + 1)).dayNumber = now.day.dayNumber + 1
      ∧ ClientApp.setDefaultDateTime now
        = toString (now.day.setDate (now.day.date + 1)).year ++ "-"
          ++ padStart2 ((now.day.setDate (now.day.date + 1)).month.val + 1) ++ "-"
          ++ padStart2 (now.day.setDate (now.day.date + 1)).date ++ "T10:00"
      ∧ (padStart2 ((now.day.setDate (now.day.date + 1)).month.val + 1)).length = 2
      ∧ (padStart2 (now.day.setDate (now.day.date + 1)).date).length = 2
      ∧ (1000 ≤ (now.day.setDate (now.day.date + 1)).year →
          (now.day.setDate (now.day.date + 1)).year ≤ 9999 →
          parseIsoLocal (ClientApp.setDefaultDateTime now)
            = some (⟨now.day.setDate (now.day.date + 1), 10, 0⟩, 0))
      ∧ (∀ (server : Server) (form : BookingForm) (st : Session) (value : String) (n : Int)
          (r : Response) (body : JsVal),
          form.clientName ≠ "" → form.clientPhone ≠ "" → form.appointmentDate ≠ "" →
          form.serviceSelect = some value → parseInt value = some n → n ≠ 0 →
          ClientApp.createAppointment_phoneRegex.testAnchored
            (removeWhitespace form.clientPhone) = true →
          server (ClientApp.bookingRequest form n) = FetchResult.response r →
          r.ok = true → r.body = Except.ok body →
          (ClientApp.createAppointment server now form st).1.appointmentDate
            = ClientApp.setDefaultDateTime now) := by
  obtain ⟨hnext, hlo, hhi⟩ := dayNumber_setDate_succ now.day h1 h2
  have hdim : ∀ (y : Nat) (m : Fin 12), CalendarDate.daysInMonth y m ≤ 31 := by
    intro y m
    fin_cases m <;> simp [CalendarDate.daysInMonth] <;> (try split) <;> omega
  have hmonth := (now.day.setDate (now.day.date + 1)).month.isLt
  have hday := hdim (now.day.setDate (now.day.date + 1)).year
    (now.day.setDate (now.day.date + 1)).month
  refine ⟨hnext, ?_, padStart2_length _ (by omega), padStart2_length _ (by omega), ?_, ?_⟩
  · simp only [ClientApp.setDefaultDateTime, String.append_assoc]
    rfl
  · intro hy1 hy2
    rw [setDefaultDateTime_eq_isoMinuteText]
    exact parseIsoLocal_isoMinuteText _ hy1 hy2 hlo hhi (by show 10 < 24; decide)
      (by show 0 < 60; decide)
  · intro server form st value n r body hname hphone hdate hsel hparse hn hmatch hserver hok hbody
    rw [createAppointment_success_resets server now form st value n r body hname hphone hdate
      hsel hparse hn hmatch hserver hok hbody]
    rfl

/-- Witness for claim C16: 4 November 2026 gives `2026-11-05T10:00`, and the last
minute of 2025 gives `2026-01-01T10:00`, also after a successful booking. -/
theorem setDefaultDateTime_tomorrow_at_ten_witness :
    (1 ≤ sampleNow.day.date
      ∧ sampleNow.day.date ≤ CalendarDate.daysInMonth sampleNow.day.year sampleNow.day.month
      ∧ ClientApp.setDefaultDateTime sampleNow = "2026-11-05T10:00")
    ∧ (1 ≤ newYearsEve.day.date
      ∧ newYearsEve.day.date
        ≤ CalendarDate.daysInMonth newYearsEve.day.year newYearsEve.day.month
      ∧ ClientApp.setDefaultDateTime newYearsEve = "2026-01-01T10:00"
      ∧ (ClientApp.createAppointment
          (answering ⟨200, Except.ok (JsVal.obj [("id", JsVal.num 7)])⟩) newYearsEve sampleForm
          emptySession).1.appointmentDate = "2026-01-01T10:00") :=
  ⟨⟨by decide, by decide,
    (setDefaultDateTime_tomorrow_at_ten sampleNow (by decide) (by decide)).2.1.trans
      (by decide)⟩,
   by decide, by decide,
    (setDefaultDateTime_tomorrow_at_ten newYearsEve (by decide) (by decide)).2.1.trans
      (by decide),
    ((setDefaultDateTime_tomorrow_at_ten newYearsEve (by decide) (by decide)).2.2.2.2.2
      (answering ⟨200, Except.ok (JsVal.obj [("id", JsVal.num 7)])⟩) sampleForm emptySession
      "2" 2 ⟨200, Except.ok (JsVal.obj [("id", JsVal.num 7)])⟩ (JsVal.obj [("id", JsVal.num 7)])
      (by decide) (by decide) (by decide) rfl (by decide) (by decide) (by decide) rfl
      (by decide) rfl).trans (by decide)⟩

/-! ## Status updates and the pending panel (C17, C18) -/

/-- A 2xx status is not 401. -/
theorem ok_status_ne_401 (r : Response) (h : r.ok = true) : r.status ≠ 401 := by
  intro e
  simp [Response.ok, e] at h

/-- With a token, loadAppointments issues its request, and keeps the token unless
the answer is 401. -/
theorem loadAppointments_session (server : Server) (app : AdminApp)
    (htoken : app.session.token.truthy = true) :
    (AdminApp.loadAppointments server app).session.requests
        = app.session.requests ++ [LoadKind.appointments.request app.session.token]
      ∧ ((∀ r, server (LoadKind.appointments.request app.session.token)
            = FetchResult.response r → r.status ≠ 401) →
          (AdminApp.loadAppointments server app).session.token = app.session.token) := by
  simp only [AdminApp.loadAppointments, Auth.makeAuthenticatedRequest, htoken, Bool.not_true,
    Bool.false_eq_true, if_false, Option.getD_none, LoadKind.request, LoadKind.url]
  cases hs : server ⟨"/appointments-with-details/", Auth.requestInit app.session.token []⟩ with
  | networkError m =>
    simp [AdminApp.showNotification, Auth.showNotification, Auth.issue]
  | response r =>
    by_cases h401 : r.status = 401
    · simp [h401, AdminApp.showNotification, Auth.showNotification, Auth.issue, Auth.logout]
    · simp only [h401, if_false]
      cases r.body with
      | error m => simp [AdminApp.showNotification, Auth.showNotification, Auth.issue]
      | ok data =>
        simp only []
        split <;> simp [AdminApp.showNotification, Auth.showNotification, Auth.issue]

/-- With a token, loadStatistics issues its request. -/
theorem loadStatistics_session (server : Server) (app : AdminApp)
    (htoken : app.session.token.truthy = true) :
    (AdminApp.loadStatistics server app).session.requests
        = app.session.requests ++ [LoadKind.statistics.request app.session.token] := by
  simp only [AdminApp.loadStatistics, Auth.makeAuthenticatedRequest, htoken, Bool.not_true,
    Bool.false_eq_true, if_false, Option.getD_none, LoadKind.request, LoadKind.url]
  cases hs : server ⟨"/statistics/", Auth.requestInit app.session.token []⟩ with
  | networkError m =>
    simp [AdminApp.showNotification, Auth.showNotification, Auth.issue]
  | response r =>
    by_cases h401 : r.status = 401
    · simp [h401, AdminApp.showNotification, Auth.showNotification, Auth.issue, Auth.logout]
    · simp only [h401, if_false]
      cases r.body with
      | error m => simp [AdminApp.showNotification, Auth.showNotification, Auth.issue]
      | ok data =>
        simp only []
        split <;> simp [AdminApp.showNotification, Auth.showNotification, Auth.issue]

/-- The statistics load only adds to the requests issued. -/
theorem loadStatistics_requests_extend (server : Server) (app : AdminApp) :
    ∃ rest, (AdminApp.loadStatistics server app).session.requests
      = app.session.requests ++ rest := by
  by_cases ht : app.session.token.truthy = true
  · exact ⟨_, loadStatistics_session server app ht⟩
  · refine ⟨[], ?_⟩
    simp only [Bool.not_eq_true] at ht
    simp [AdminApp.loadStatistics, Auth.makeAuthenticatedRequest, ht, AdminApp.showNotification,
      Auth.showNotification]

/-- A status update answered with a 2xx status and a JSON body is followed by the
fetch of the appointments and, unless that is answered 401, of the statistics. -/
theorem updateAppointmentStatus_refetches (server : Server) (appointmentId status : String)
    (app : AdminApp) (r : Response) (body : JsVal)
    (htoken : app.session.token.truthy = true)
    (hserver : server (statusUpdateRequest app.session.token appointmentId status)
      = FetchResult.response r)
    (hok : r.ok = true) (hbody : r.body = Except.ok body)
    (hrefetch : ∀ r', server (LoadKind.appointments.request app.session.token)
      = FetchResult.response r' → r'.status ≠ 401) :
    (AdminApp.updateAppointmentStatus server appointmentId status app).session.requests
      = app.session.requests
        ++ [statusUpdateRequest app.session.token appointmentId status,
            LoadKind.appointments.request app.session.token,
            LoadKind.statistics.request app.session.token] := by
  have h401 := ok_status_ne_401 r hok
  simp only [statusUpdateRequest] at hserver
  simp only [AdminApp.updateAppointmentStatus, Auth.makeAuthenticatedRequest, htoken,
    Bool.not_true, Bool.false_eq_true, if_false, Option.getD_some, hserver, h401, hok, if_true,
    hbody]
  set app₁ : AdminApp := AdminApp.showNotification
    (JsVal.str ("Статус записи обновлен на " ++ String.mk [Char.ofNat 34] ++ status
      ++ String.mk [Char.ofNat 34])) "success"
    { app with session := Auth.issue ⟨"/appointments/" ++ appointmentId ++ "/status",
        Auth.requestInit app.session.token (AdminApp.statusUpdateOptions status)⟩ app.session }
    with happ₁
  have ht₁ : app₁.session.token = app.session.token := rfl
  have hr₁ : app₁.session.requests = app.session.requests
      ++ [⟨"/appointments/" ++ appointmentId ++ "/status",
        Auth.requestInit app.session.token (AdminApp.statusUpdateOptions status)⟩] := rfl
  obtain ⟨hreq₂, htok₂⟩ := loadAppointments_session server app₁ (by rw [ht₁]; exact htoken)
  have ht₂ := htok₂ (by rw [ht₁]; exact hrefetch)
  have hreq₃ := loadStatistics_session server (AdminApp.loadAppointments server app₁)
    (by rw [ht₂, ht₁]; exact htoken)
  rw [hreq₃, hreq₂, ht₂, ht₁, hr₁]
  simp [statusUpdateRequest]

/-- A status update answered with a non-2xx status is followed by no other
request. -/
theorem updateAppointmentStatus_no_refetch (server : Server) (appointmentId status : String)
    (app : AdminApp) (r : Response)
    (htoken : app.session.token.truthy = true)
    (hserver : server (statusUpdateRequest app.session.token appointmentId status)
      = FetchResult.response r)
    (hok : r.ok = false) :
    (AdminApp.updateAppointmentStatus server appointmentId status app).session.requests
      = app.session.requests ++ [statusUpdateRequest app.session.token appointmentId status] := by
  simp only [statusUpdateRequest] at hserver
  simp only [AdminApp.updateAppointmentStatus, Auth.makeAuthenticatedRequest, htoken,
    Bool.not_true, Bool.false_eq_true, if_false, Option.getD_some, hserver]
  by_cases h401 : r.status = 401
  · simp [h401, AdminApp.showNotification, Auth.showNotification, Auth.issue, Auth.logout,
      statusUpdateRequest]
  · simp [h401, hok, AdminApp.showNotification, Auth.showNotification, Auth.issue,
      statusUpdateRequest]

/-- With a token, the status update is the first request that
updateAppointmentStatus issues. -/
theorem updateAppointmentStatus_sends_put (server : Server) (appointmentId status : String)
    (app : AdminApp) (htoken : app.session.token.truthy = true) :
    ∃ rest, (AdminApp.updateAppointmentStatus server appointmentId status app).session.requests
      = app.session.requests
        ++ statusUpdateRequest app.session.token appointmentId status :: rest := by
  cases hs : server (statusUpdateRequest app.session.token appointmentId status) with
  | networkError m =>
    refine ⟨[], ?_⟩
    simp only [statusUpdateRequest] at hs
    simp [AdminApp.updateAppointmentStatus, Auth.makeAuthenticatedRequest, htoken, hs,
      AdminApp.showNotification, Auth.showNotification, Auth.issue, statusUpdateRequest]
  | response r =>
    by_cases hok : r.ok = true
    · cases hb : r.body with
      | error m =>
        refine ⟨[], ?_⟩
        have h401 := ok_status_ne_401 r hok
        simp only [statusUpdateRequest] at hs
        simp [AdminApp.updateAppointmentStatus, Auth.makeAuthenticatedRequest, htoken, hs, h401,
          hok, hb, AdminApp.showNotification, Auth.showNotification, Auth.issue,
          statusUpdateRequest]
      | ok body =>
        have h401 := ok_status_ne_401 r hok
        simp only [statusUpdateRequest] at hs
        simp only [AdminApp.updateAppointmentStatus, Auth.makeAuthenticatedRequest, htoken,
          Bool.not_true, Bool.false_eq_true, if_false, Option.getD_some, hs, h401, hok,
          if_true, hb]
        set app₁ : AdminApp := AdminApp.showNotification
          (JsVal.str ("Статус записи обновлен на " ++ String.mk [Char.ofNat 34] ++ status
            ++ String.mk [Char.ofNat 34])) "success"
          { app with session := Auth.issue ⟨"/appointments/" ++ appointmentId ++ "/status",
              Auth.requestInit app.session.token (AdminApp.statusUpdateOptions status)⟩ app.session }
          with happ₁
        have ht₁ : app₁.session.token = app.session.token := rfl
        have hr₁ : app₁.session.requests = app.session.requests
            ++ [⟨"/appointments/" ++ appointmentId ++ "/status",
              Auth.requestInit app.session.token (AdminApp.statusUpdateOptions status)⟩] := rfl
        obtain ⟨hreq₂, _⟩ := loadAppointments_session server app₁ (by rw [ht₁]; exact htoken)
        obtain ⟨rest, hrest⟩ := loadStatistics_requests_extend server
          (AdminApp.loadAppointments server app₁)
        refine ⟨LoadKind.appointments.request app₁.session.token :: rest, ?_⟩
        rw [hrest, hreq₂, hr₁]
        simp [statusUpdateRequest]
    · simp only [Bool.not_eq_true] at hok
      exact ⟨[], updateAppointmentStatus_no_refetch server appointmentId status app r htoken hs
        hok⟩

/-- A status update answered with a 2xx status and a JSON body is followed by the
fetch of the appointments, whatever the answer to that fetch. -/
theorem updateAppointmentStatus_refetches_appointments (server : Server)
    (appointmentId status : String) (app : AdminApp) (r : Response) (body : JsVal)
    (htoken : app.session.token.truthy = true)
    (hserver : server (statusUpdateRequest app.session.token appointmentId status)
      = FetchResult.response r)
    (hok : r.ok = true) (hbody : r.body = Except.ok body) :
    ∃ rest, (AdminApp.updateAppointmentStatus server appointmentId status app).session.requests
      = app.session.requests
        ++ statusUpdateRequest app.session.token appointmentId status
          :: LoadKind.appointments.request app.session.token :: rest := by
  have h401 := ok_status_ne_401 r hok
  simp only [statusUpdateRequest] at hserver
  simp only [AdminApp.updateAppointmentStatus, Auth.makeAuthenticatedRequest, htoken,
    Bool.not_true, Bool.false_eq_true, if_false, Option.getD_some, hserver, h401, hok,
    if_true, hbody]
  set app₁ : AdminApp := AdminApp.showNotification
    (JsVal.str ("Статус записи обновлен на " ++ String.mk [Char.ofNat 34] ++ status
      ++ String.mk [Char.ofNat 34])) "success"
    { app with session := Auth.issue ⟨"/appointments/" ++ appointmentId ++ "/status",
        Auth.requestInit app.session.token (AdminApp.statusUpdateOptions status)⟩ app.session }
    with happ₁
  have ht₁ : app₁.session.token = app.session.token := rfl
  have hr₁ : app₁.session.requests = app.session.requests
      ++ [⟨"/appointments/" ++ appointmentId ++ "/status",
        Auth.requestInit app.session.token (AdminApp.statusUpdateOptions status)⟩] := rfl
  obtain ⟨hreq₂, _⟩ := loadAppointments_session server app₁ (by rw [ht₁]; exact htoken)
  obtain ⟨rest, hrest⟩ := loadStatistics_requests_extend server
    (AdminApp.loadAppointments server app₁)
  refine ⟨rest, ?_⟩
  rw [hrest, hreq₂, hr₁, ht₁]
  simp [statusUpdateRequest]

/-- Claim C17, amended: while a token is held, for every appointment id
updateAppointmentStatus sends PUT `/appointments/<id>/status` with the body
of the status, the confirm action passing `confirmed` and the reject action
`cancelled`; when the response is ok and its body is JSON it then fetches the
appointments (whatever the answer to that fetch) and the statistics (the
statistics provided the appointments fetch is not answered 401), and when the
response is not ok it fetches neither. -/
theorem status_update_request_and_refetch (server : Server) (appointment : JsVal)
    (app : AdminApp) (htoken : app.session.token.truthy = true) :
    (AdminApp.clickConfirm server appointment app
        = AdminApp.updateAppointmentStatus server (AdminApp.cardDataId appointment) "confirmed" app
      ∧ AdminApp.clickCancel server appointment app
        = AdminApp.updateAppointmentStatus server (AdminApp.cardDataId appointment) "cancelled"
          app)
    ∧ ∀ appointmentId status : String,
      (statusUpdateRequest app.session.token appointmentId status).url
          = "/appointments/" ++ appointmentId ++ "/status"
        ∧ (statusUpdateRequest app.session.token appointmentId status).init.getProp "method"
          = some (JsVal.str "PUT")
        ∧ (statusUpdateRequest app.session.token appointmentId status).init.getProp "body"
          = some (Json.stringify (JsVal.obj [("status", JsVal.str status)]))
        ∧ (∃ rest,
          (AdminApp.updateAppointmentStatus server appointmentId status app).session.requests
            = app.session.requests
              ++ statusUpdateRequest app.session.token appointmentId status :: rest)
        ∧ (∀ (r : Response) (body : JsVal),
          server (statusUpdateRequest app.session.token appointmentId status)
            = FetchResult.response r →
          r.ok = true → r.body = Except.ok body →
          (∀ r', server (LoadKind.appointments.request app.session.token)
            = FetchResult.response r' → r'.status ≠ 401) →
          (AdminApp.updateAppointmentStatus server appointmentId status app).session.requests
            = app.session.requests
              ++ [statusUpdateRequest app.session.token appointmentId status,
                  LoadKind.appointments.request app.session.token,
                  LoadKind.statistics.request app.session.token])
        ∧ (∀ r : Response,
          server (statusUpdateRequest app.session.token appointmentId status)
            = FetchResult.response r →
          r.ok = false →
          (AdminApp.updateAppointmentStatus server appointmentId status app).session.requests
            = app.session.requests
              ++ [statusUpdateRequest app.session.token appointmentId status])
        ∧ (∀ (r : Response) (body : JsVal),
          server (statusUpdateRequest app.session.token appointmentId status)
            = FetchResult.response r →
          r.ok = true → r.body = Except.ok body →
          ∃ rest,
            (AdminApp.updateAppointmentStatus server appointmentId status app).session.requests
              = app.session.requests
                ++ statusUpdateRequest app.session.token appointmentId status
                  :: LoadKind.appointments.request app.session.token :: rest) := by
  refine ⟨⟨rfl, rfl⟩, ?_⟩
  intro appointmentId status
  refine ⟨rfl, ?_, ?_, updateAppointmentStatus_sends_put server appointmentId status app htoken,
    ?_, ?_, ?_⟩
  · simp [statusUpdateRequest, requestInit_statusUpdate, JsVal.getProp, JsVal.lookup]
  · simp [statusUpdateRequest, requestInit_statusUpdate, JsVal.getProp, JsVal.lookup]
  · intro r body hs hok hb hre
    exact updateAppointmentStatus_refetches server appointmentId status app r body htoken hs hok
      hb hre
  · intro r hs hok
    exact updateAppointmentStatus_no_refetch server appointmentId status app r htoken hs hok
  · intro r body hs hok hb
    exact updateAppointmentStatus_refetches_appointments server appointmentId status app r body
      htoken hs hok hb

/-- Witness for claim C17: confirming appointment 5 sends the update and the two
fetches; rejecting it against a 404 answer sends the update alone. -/
theorem status_update_request_and_refetch_witness :
    adminApp.session.token.truthy = true
      ∧ ((AdminApp.clickConfirm acceptingServer pendingAppointment adminApp).session.requests.map
          (fun r => r.url)
        = ["/appointments/5/status", "/appointments-with-details/", "/statistics/"])
      ∧ ((AdminApp.clickCancel
            (answering ⟨404, Except.ok (JsVal.obj [("detail", JsVal.str "Not found")])⟩)
            pendingAppointment adminApp).session.requests
        = adminApp.session.requests
          ++ [statusUpdateRequest adminApp.session.token "5" "cancelled"]) := by
  have h := status_update_request_and_refetch acceptingServer pendingAppointment adminApp
    (by decide)
  have h' := status_update_request_and_refetch
    (answering ⟨404, Except.ok (JsVal.obj [("detail", JsVal.str "Not found")])⟩)
    pendingAppointment adminApp (by decide)
  refine ⟨by decide, ?_, ?_⟩
  · rw [h.1.1, (h.2 (AdminApp.cardDataId pendingAppointment) "confirmed").2.2.2.2.1
      ⟨200, Except.ok (JsVal.obj [("id", JsVal.num 5), ("status", JsVal.str "confirmed")])⟩
      (JsVal.obj [("id", JsVal.num 5), ("status", JsVal.str "confirmed")]) rfl (by decide) rfl
      (by intro r' hr'; cases hr'; decide)]
    rfl
  · rw [h'.1.2]
    exact (h'.2 (AdminApp.cardDataId pendingAppointment) "cancelled").2.2.2.2.2.1
      ⟨404, Except.ok (JsVal.obj [("detail", JsVal.str "Not found")])⟩ rfl (by decide)

/-- Counterexample to claim C17 as stated: an ok response whose body is not JSON is
followed by no fetch, a 401 answer to the appointments fetch leaves the
statistics unfetched, and without token no request is sent at all. -/
theorem status_update_not_always_sent_or_refetched :
    ((AdminApp.clickConfirm (answering ⟨200, Except.error "Unexpected end of JSON input"⟩)
          pendingAppointment adminApp).session.requests.map (fun r => r.url)
        = ["/appointments/5/status"]
      ∧ (⟨200, Except.error "Unexpected end of JSON input"⟩ : Response).ok = true)
    ∧ ((AdminApp.clickConfirm expiringServer pendingAppointment adminApp).session.requests.map
          (fun r => r.url)
        = ["/appointments/5/status", "/appointments-with-details/"])
    ∧ ((AdminApp.clickConfirm acceptingServer pendingAppointment
          { adminApp with session := emptySession }).session.requests.map (fun r => r.url)
        = []) := by
  refine ⟨⟨by decide, by decide⟩, by decide, by decide⟩

/-- Every property of a value other than `null` and `undefined` can be read. -/
theorem getProp_isSome_of_ne (x : JsVal) (h : x ≠ JsVal.null ∧ x ≠ JsVal.undefined)
    (k : String) : ∃ w, x.getProp k = some w := by
  cases x <;> simp [JsVal.getProp] at h ⊢

/-- On appointments other than `null`, the filter of renderAppointments keeps those
whose status is `pending`, in order. -/
theorem filterPending_eq_filter (xs : List JsVal)
    (h : ∀ x ∈ xs, x ≠ JsVal.null ∧ x ≠ JsVal.undefined) :
    AdminApp.filterPending xs = some (xs.filter isPendingAppointment) := by
  induction xs with
  | nil => rfl
  | cons x l ih =>
    obtain ⟨w, hw⟩ := getProp_isSome_of_ne x (h x (by simp)) "status"
    have ih' := ih (fun y hy => h y (List.mem_cons_of_mem _ hy))
    simp only [AdminApp.filterPending, hw, ih', List.filter_cons, isPendingAppointment,
      Option.getD_some]

/-- The pending panel is rendered exactly when renderAppointments runs through. -/
theorem rendersAppointments_iff (v : JsVal) :
    AdminApp.rendersAppointments v = (AdminApp.renderAppointments v).isSome := by
  cases v with
  | arr xs =>
    simp only [AdminApp.rendersAppointments, AdminApp.renderAppointments]
    induction xs with
    | nil => rfl
    | cons x l ih =>
      simp only [List.all_cons, AdminApp.filterPending]
      cases hx : x.getProp "status" with
      | none => simp
      | some w =>
        simp only [Option.isSome_some, Bool.true_and]
        rw [ih]
        cases AdminApp.filterPending l with
        | none => rfl
        | some kept =>
          simp only []
          split <;> split <;> rfl
  | _ => rfl

/-- Claim C18: for every appointment list, renderAppointments shows the empty-state
card exactly when no appointment has the status `pending`, and otherwise one
card for each appointment whose status is `pending`, each once and in list
order. -/
theorem renderAppointments_shows_pending (xs : List JsVal)
    (h : ∀ x ∈ xs, x ≠ JsVal.null ∧ x ≠ JsVal.undefined) :
    (AdminApp.renderAppointments (JsVal.arr xs) = some PendingPanel.emptyCard
        ↔ ∀ x ∈ xs, isPendingAppointment x = false)
      ∧ (AdminApp.renderAppointments (JsVal.arr xs) ≠ some PendingPanel.emptyCard →
          AdminApp.renderAppointments (JsVal.arr xs)
            = some (PendingPanel.cards (xs.filter isPendingAppointment)))
      ∧ (xs.filter isPendingAppointment).Sublist xs
      ∧ (∀ x, x ∈ xs.filter isPendingAppointment ↔ x ∈ xs ∧ isPendingAppointment x = true) := by
  have hrender : AdminApp.renderAppointments (JsVal.arr xs)
      = if (xs.filter isPendingAppointment).length = 0 then some PendingPanel.emptyCard
        else some (PendingPanel.cards (xs.filter isPendingAppointment)) := by
    simp only [AdminApp.renderAppointments, filterPending_eq_filter xs h]
  refine ⟨?_, ?_, List.filter_sublist _, fun x => List.mem_filter⟩
  · rw [hrender]
    by_cases he : (xs.filter isPendingAppointment).length = 0
    · simp only [he, if_true, true_iff]
      intro x hx
      have hnil : xs.filter isPendingAppointment = [] := List.length_eq_zero.mp he
      rw [List.filter_eq_nil_iff] at hnil
      simpa using hnil x hx
    · simp only [he, if_false]
      constructor
      · intro hc
        cases hc
      · intro hall
        exfalso
        apply he
        rw [List.length_eq_zero, List.filter_eq_nil_iff]
        intro x hx
        simp [hall x hx]
  · intro hne
    rw [hrender] at hne ⊢
    by_cases he : (xs.filter isPendingAppointment).length = 0
    · simp [he] at hne
    · simp [he]

/-- Witness for claim C18: of a pending and a confirmed appointment the panel shows
the pending one. -/
theorem renderAppointments_shows_pending_witness :
    AdminApp.renderAppointments (JsVal.arr [pendingAppointment,
        JsVal.obj [("id", JsVal.num 6), ("status", JsVal.str "confirmed")]])
      = some (PendingPanel.cards ([pendingAppointment,
        JsVal.obj [("id", JsVal.num 6), ("status", JsVal.str "confirmed")]].filter
          isPendingAppointment))
    ∧ [pendingAppointment,
        JsVal.obj [("id", JsVal.num 6), ("status", JsVal.str "confirmed")]].filter
          isPendingAppointment = [pendingAppointment] :=
  ⟨(renderAppointments_shows_pending [pendingAppointment,
      JsVal.obj [("id", JsVal.num 6), ("status", JsVal.str "confirmed")]]
      (by intro x hx; simp [pendingAppointment] at hx; rcases hx with rfl | rfl <;> simp)).2.1
      (by intro hc; cases hc), rfl⟩

/-! ## The history query (C19) -/

/-- With a token, loadHistoryAppointments issues one request, to the history
endpoint with the text of its parameters. -/
theorem loadHistoryAppointments_session (server : Server) (status dateFrom dateTo : String)
    (app : AdminApp) (htoken : app.session.token.truthy = true) :
    (AdminApp.loadHistoryAppointments server status dateFrom dateTo app).session.requests
      = app.session.requests
        ++ [⟨"/admin/all-appointments/?"
              ++ urlSearchParamsText (AdminApp.historyParams status dateFrom dateTo),
            Auth.requestInit app.session.token []⟩] := by
  simp only [AdminApp.loadHistoryAppointments, Auth.makeAuthenticatedRequest, htoken,
    Bool.not_true, Bool.false_eq_true, if_false, Option.getD_none]
  cases hs : server ⟨"/admin/all-appointments/?"
      ++ urlSearchParamsText (AdminApp.historyParams status dateFrom dateTo),
      Auth.requestInit app.session.token []⟩ with
  | networkError m =>
    simp [AdminApp.showNotification, Auth.showNotification, Auth.issue]
  | response r =>
    by_cases h401 : r.status = 401
    · simp [h401, AdminApp.showNotification, Auth.showNotification, Auth.issue, Auth.logout]
    · simp only [h401, if_false]
      cases r.body with
      | error m => simp [AdminApp.showNotification, Auth.showNotification, Auth.issue]
      | ok data =>
        simp only []
        split <;> simp [AdminApp.showNotification, Auth.showNotification, Auth.issue]

/-- The parameters of the history query: `status` when it is set and not `all`,
`date_from` and `date_to` when they are set, each with the entered value, no
other parameter, in this order. -/
theorem historyParams_spec (status dateFrom dateTo : String) :
    (∀ v, ("status", v) ∈ AdminApp.historyParams status dateFrom dateTo
        ↔ v = status ∧ status ≠ "" ∧ status ≠ "all")
      ∧ (∀ v, ("date_from", v) ∈ AdminApp.historyParams status dateFrom dateTo
        ↔ v = dateFrom ∧ dateFrom ≠ "")
      ∧ (∀ v, ("date_to", v) ∈ AdminApp.historyParams status dateFrom dateTo
        ↔ v = dateTo ∧ dateTo ≠ "")
      ∧ (∀ p ∈ AdminApp.historyParams status dateFrom dateTo,
          p.1 = "status" ∨ p.1 = "date_from" ∨ p.1 = "date_to")
      ∧ ((AdminApp.historyParams status dateFrom dateTo).map Prod.fst).Sublist
          ["status", "date_from", "date_to"] := by
  by_cases h1 : status = "" <;> by_cases h2 : status = "all" <;> by_cases h3 : dateFrom = ""
    <;> by_cases h4 : dateTo = ""
    <;> simp [AdminApp.historyParams, h1, h2, h3, h4]

/-- Claim C19: for every state of the history filters, the request that
loadHistoryAppointments sends goes to `/admin/all-appointments/?` followed by
the text of its parameters, which hold `status` exactly when the status is set
and is not `all`, `date_from` exactly when the from-date is set and `date_to`
exactly when the to-date is set, each with the entered value, and no other
parameter. -/
theorem loadHistoryAppointments_query (server : Server) (status dateFrom dateTo : String)
    (app : AdminApp) (htoken : app.session.token.truthy = true) :
    (∃ req : Request,
      (AdminApp.loadHistoryAppointments server status dateFrom dateTo app).session.requests
          = app.session.requests ++ [req]
        ∧ req.url = "/admin/all-appointments/?"
          ++ urlSearchParamsText (AdminApp.historyParams status dateFrom dateTo))
      ∧ (∀ v, ("status", v) ∈ AdminApp.historyParams status dateFrom dateTo
        ↔ v = status ∧ status ≠ "" ∧ status ≠ "all")
      ∧ (∀ v, ("date_from", v) ∈ AdminApp.historyParams status dateFrom dateTo
        ↔ v = dateFrom ∧ dateFrom ≠ "")
      ∧ (∀ v, ("date_to", v) ∈ AdminApp.historyParams status dateFrom dateTo
        ↔ v = dateTo ∧ dateTo ≠ "")
      ∧ (∀ p ∈ AdminApp.historyParams status dateFrom dateTo,
          p.1 = "status" ∨ p.1 = "date_from" ∨ p.1 = "date_to")
      ∧ ((AdminApp.historyParams status dateFrom dateTo).map Prod.fst).Sublist
          ["status", "date_from", "date_to"] :=
  ⟨⟨_, loadHistoryAppointments_session server status dateFrom dateTo app htoken, rfl⟩,
    historyParams_spec status dateFrom dateTo⟩

/-- Witness for claim C19: the filters `pending` and a to-date give
`?status=pending&date_to=2025-01-31`; the filter `all` alone gives no parameter. -/
theorem loadHistoryAppointments_query_witness :
    adminApp.session.token.truthy = true
      ∧ (∃ req : Request,
        (AdminApp.loadHistoryAppointments offlineServer "pending" "" "2025-01-31"
            adminApp).session.requests = adminApp.session.requests ++ [req]
          ∧ req.url = "/admin/all-appointments/?"
            ++ urlSearchParamsText (AdminApp.historyParams "pending" "" "2025-01-31"))
      ∧ "/admin/all-appointments/?"
          ++ urlSearchParamsText (AdminApp.historyParams "pending" "" "2025-01-31")
        = "/admin/all-appointments/?status=pending&date_to=2025-01-31"
      ∧ urlSearchParamsText (AdminApp.historyParams "all" "" "") = "" :=
  ⟨by decide,
    (loadHistoryAppointments_query offlineServer "pending" "" "2025-01-31" adminApp
      (by decide)).1, by decide, by decide⟩

/-! ## The initial load (C20) -/

/-- The `catch` of a load changes no field of the console. -/
theorem LoadKind.read_failed (j k : LoadKind) (app : AdminApp) :
    k.read (j.failed app) = k.read app := by
  cases j <;> cases k <;> rfl

/-- A load assigns no field but its own. -/
theorem LoadKind.read_store_ne (j k : LoadKind) (data : JsVal) (app : AdminApp) (h : j ≠ k) :
    k.read (j.store data app) = k.read app := by
  cases j <;> cases k <;> first | rfl | exact absurd rfl h

/-- A load assigns its own field. -/
theorem LoadKind.read_store (k : LoadKind) (data : JsVal) (app : AdminApp) :
    k.read (k.store data app) = data := by
  cases k <;> rfl

/-- The end of one load leaves the field of another as it is. -/
theorem LoadKind.read_settle_ne (j k : LoadKind) (res : FetchResult) (app : AdminApp)
    (h : j ≠ k) : k.read (j.settle res app).1 = k.read app := by
  unfold LoadKind.settle
  cases res with
  | networkError m => exact LoadKind.read_failed j k app
  | response r =>
    simp only []
    split
    · rw [LoadKind.read_failed]; cases k <;> rfl
    · cases r.body with
      | error m => exact LoadKind.read_failed j k app
      | ok data =>
        simp only []
        split
        · exact LoadKind.read_store_ne j k data app h
        · rw [LoadKind.read_failed]; exact LoadKind.read_store_ne j k data app h

/-- A load whose answer is not 401 and has a JSON body assigns that body, and
renders it when the render runs through. -/
theorem LoadKind.settle_success (k : LoadKind) (r : Response) (data : JsVal) (app : AdminApp)
    (h401 : r.status ≠ 401) (hbody : r.body = Except.ok data) :
    k.read (k.settle (FetchResult.response r) app).1 = data
      ∧ ((k.settle (FetchResult.response r) app).2 = k.renders data) := by
  simp only [LoadKind.settle, h401, if_false, hbody]
  by_cases hr : k.renders data = true
  · simp only [hr, if_true]
    exact ⟨LoadKind.read_store k data app, trivial⟩
  · simp only [Bool.not_eq_true] at hr
    simp only [hr, Bool.false_eq_true, if_false]
    exact ⟨by rw [LoadKind.read_failed]; exact LoadKind.read_store k data app, trivial⟩

/-- The loads that finish leave the field of a load that is not among them as it
is. -/
theorem foldl_settleStep_read_of_not_mem (server : Server) (token : JsVal) (k : LoadKind)
    (l : List LoadKind) : ∀ acc : AdminApp × List LoadKind, k ∉ l →
      k.read (l.foldl (LoadKind.settleStep server token) acc).1 = k.read acc.1 := by
  induction l with
  | nil => intro acc _; rfl
  | cons j t ih =>
    intro acc hk
    simp only [List.mem_cons, not_or] at hk
    simp only [List.foldl_cons]
    rw [ih _ hk.2]
    exact LoadKind.read_settle_ne j k _ _ (fun e => hk.1 e.symm)

/-- A rendered region stays rendered. -/
theorem foldl_settleStep_rendered_mono (server : Server) (token : JsVal) (k : LoadKind)
    (l : List LoadKind) : ∀ acc : AdminApp × List LoadKind, k ∈ acc.2 →
      k ∈ (l.foldl (LoadKind.settleStep server token) acc).2 := by
  induction l with
  | nil => intro acc h; exact h
  | cons j t ih =>
    intro acc h
    simp only [List.foldl_cons]
    apply ih
    simp only [LoadKind.settleStep]
    split
    · exact List.mem_append_left _ h
    · exact h

/-- A load that is among those that finish and whose fetch succeeds has its data
stored at the end, and its region rendered when the render runs through. -/
theorem foldl_settleStep_success (server : Server) (token : JsVal) (k : LoadKind)
    (r : Response) (data : JsVal)
    (hserver : server (k.request token) = FetchResult.response r)
    (h401 : r.status ≠ 401) (hbody : r.body = Except.ok data) (l : List LoadKind) :
    ∀ acc : AdminApp × List LoadKind, k ∈ l →
      k.read (l.foldl (LoadKind.settleStep server token) acc).1 = data
        ∧ (k.renders data = true → k ∈ (l.foldl (LoadKind.settleStep server token) acc).2) := by
  induction l with
  | nil => intro acc h; simp at h
  | cons j t ih =>
    intro acc hk
    simp only [List.foldl_cons]
    by_cases hmem : k ∈ t
    · exact ih _ hmem
    · have hj : j = k := by
        rcases List.mem_cons.mp hk with e | e
        · exact e.symm
        · exact absurd e hmem
      subst hj
      obtain ⟨h1, h2⟩ := LoadKind.settle_success j r data acc.1 h401 hbody
      refine ⟨?_, ?_⟩
      · rw [foldl_settleStep_read_of_not_mem server token j t _ hmem]
        simp only [LoadKind.settleStep, hserver]
        exact h1
      · intro hr
        apply foldl_settleStep_rendered_mono
        simp only [LoadKind.settleStep, hserver, h2, hr, if_true]
        simp

/-- A region is rendered only by a load whose fetch succeeded. -/
theorem foldl_settleStep_rendered_sound (server : Server) (token : JsVal) (k : LoadKind)
    (l : List LoadKind) : ∀ acc : AdminApp × List LoadKind,
      k ∈ (l.foldl (LoadKind.settleStep server token) acc).2 →
      k ∈ acc.2 ∨ ∃ r data, server (k.request token) = FetchResult.response r
        ∧ r.status ≠ 401 ∧ r.body = Except.ok data ∧ k.renders data = true := by
  induction l with
  | nil => intro acc h; exact Or.inl h
  | cons j t ih =>
    intro acc h
    simp only [List.foldl_cons] at h
    rcases ih _ h with h' | h'
    · simp only [LoadKind.settleStep] at h'
      by_cases hs : (j.settle (server (j.request token)) acc.1).2 = true
      · simp only [hs, if_true, List.mem_append, List.mem_singleton] at h'
        rcases h' with h' | h'
        · exact Or.inl h'
        · subst h'
          right
          simp only [LoadKind.settle] at hs
          cases hres : server (k.request token) with
          | networkError m => simp [hres] at hs
          | response r =>
            simp only [hres] at hs
            by_cases h401 : r.status = 401
            · simp [h401] at hs
            · simp only [h401, if_false] at hs
              cases hb : r.body with
              | error m => simp [hb] at hs
              | ok data =>
                simp only [hb] at hs
                by_cases hr : k.renders data = true
                · exact ⟨r, data, rfl, h401, hb, hr⟩
                · simp [hr] at hs
      · simp only [hs, if_false] at h'
        exact Or.inl h'
    · exact Or.inr h'

/-- With a token, loadInitialData starts the five loads and finishes them in
arrival order. -/
theorem loadInitialData_eq (server : Server) (arrival : List LoadKind) (app : AdminApp)
    (htoken : app.session.token.truthy = true) :
    AdminApp.loadInitialData server arrival app
      = arrival.foldl (LoadKind.settleStep server app.session.token)
          (LoadKind.all.foldl (fun app k => k.begin app) app, []) := by
  simp only [AdminApp.loadInitialData, htoken, Bool.not_true, Bool.false_eq_true, if_false]

/-- The method loadAppointments is its start followed by its end. -/
theorem loadAppointments_eq_settle (server : Server) (app : AdminApp)
    (htoken : app.session.token.truthy = true) :
    AdminApp.loadAppointments server app
      = (LoadKind.appointments.settle (server (LoadKind.appointments.request app.session.token))
          (LoadKind.appointments.begin app)).1 := by
  simp only [AdminApp.loadAppointments, Auth.makeAuthenticatedRequest, htoken, Bool.not_true,
    Bool.false_eq_true, if_false, Option.getD_none, LoadKind.settle, LoadKind.begin,
    LoadKind.request, LoadKind.url]
  cases server ⟨"/appointments-with-details/", Auth.requestInit app.session.token []⟩ with
  | networkError m => rfl
  | response r =>
    by_cases h401 : r.status = 401
    · simp only [h401, if_true]
      rfl
    · simp only [h401, if_false]
      cases r.body with
      | error m => rfl
      | ok data =>
        simp only [LoadKind.renders, LoadKind.store]
        split <;> rfl

/-- The method loadClients is its start followed by its end. -/
theorem loadClients_eq_settle (server : Server) (app : AdminApp)
    (htoken : app.session.token.truthy = true) :
    AdminApp.loadClients server app
      = (LoadKind.clients.settle (server (LoadKind.clients.request app.session.token))
          (LoadKind.clients.begin app)).1 := by
  simp only [AdminApp.loadClients, Auth.makeAuthenticatedRequest, htoken, Bool.not_true,
    Bool.false_eq_true, if_false, Option.getD_none, LoadKind.settle, LoadKind.begin,
    LoadKind.request, LoadKind.url]
  cases server ⟨"/clients/", Auth.requestInit app.session.token []⟩ with
  | networkError m => rfl
  | response r =>
    by_cases h401 : r.status = 401
    · simp only [h401, if_true]
      rfl
    · simp only [h401, if_false]
      cases r.body with
      | error m => rfl
      | ok data =>
        simp only [LoadKind.renders, LoadKind.store]
        split <;> rfl

/-- The method loadServices is its start followed by its end. -/
theorem loadServices_eq_settle (server : Server) (app : AdminApp)
    (htoken : app.session.token.truthy = true) :
    AdminApp.loadServices server app
      = (LoadKind.services.settle (server (LoadKind.services.request app.session.token))
          (LoadKind.services.begin app)).1 := by
  simp only [AdminApp.loadServices, Auth.makeAuthenticatedRequest, htoken, Bool.not_true,
    Bool.false_eq_true, if_false, Option.getD_none, LoadKind.settle, LoadKind.begin,
    LoadKind.request, LoadKind.url]
  cases server ⟨"/services/", Auth.requestInit app.session.token []⟩ with
  | networkError m => rfl
  | response r =>
    by_cases h401 : r.status = 401
    · simp only [h401, if_true]
      rfl
    · simp only [h401, if_false]
      cases r.body with
      | error m => rfl
      | ok data =>
        simp only [LoadKind.renders, LoadKind.store]
        split <;> rfl

/-- The method loadStatistics is its start followed by its end. -/
theorem loadStatistics_eq_settle (server : Server) (app : AdminApp)
    (htoken : app.session.token.truthy = true) :
    AdminApp.loadStatistics server app
      = (LoadKind.statistics.settle (server (LoadKind.statistics.request app.session.token))
          (LoadKind.statistics.begin app)).1 := by
  simp only [AdminApp.loadStatistics, Auth.makeAuthenticatedRequest, htoken, Bool.not_true,
    Bool.false_eq_true, if_false, Option.getD_none, LoadKind.settle, LoadKind.begin,
    LoadKind.request, LoadKind.url]
  cases server ⟨"/statistics/", Auth.requestInit app.session.token []⟩ with
  | networkError m => rfl
  | response r =>
    by_cases h401 : r.status = 401
    · simp only [h401, if_true]
      rfl
    · simp only [h401, if_false]
      cases r.body with
      | error m => rfl
      | ok data =>
        simp only [LoadKind.renders, LoadKind.store]
        split <;> rfl

/-- The method loadSettings is its start followed by its end. -/
theorem loadSettings_eq_settle (server : Server) (app : AdminApp)
    (htoken : app.session.token.truthy = true) :
    AdminApp.loadSettings server app
      = (LoadKind.settings.settle (server (LoadKind.settings.request app.session.token))
          (LoadKind.settings.begin app)).1 := by
  simp only [AdminApp.loadSettings, Auth.makeAuthenticatedRequest, htoken, Bool.not_true,
    Bool.false_eq_true, if_false, Option.getD_none, LoadKind.settle, LoadKind.begin,
    LoadKind.request, LoadKind.url]
  cases server ⟨"/admin/settings/", Auth.requestInit app.session.token []⟩ with
  | networkError m => rfl
  | response r =>
    by_cases h401 : r.status = 401
    · simp only [h401, if_true]
      rfl
    · simp only [h401, if_false]
      cases r.body with
      | error m => rfl
      | ok data =>
        simp only [LoadKind.renders, LoadKind.store]
        split <;> rfl

/-- Claim C20: for every combination of outcomes of the five initial fetches and
every order in which the answers arrive, loadInitialData completes, and each
load whose own fetch is answered with a 2xx status and a JSON body has that
body stored and its region rendered (when the body has the shape the render
reads), whatever the outcome of the other four; no region is rendered without
such an answer. -/
theorem loadInitialData_loads_independently (server : Server) (arrival : List LoadKind)
    (app : AdminApp) (harrival : arrival.Perm LoadKind.all)
    (htoken : app.session.token.truthy = true) (k : LoadKind) (r : Response) (data : JsVal)
    (hserver : server (k.request app.session.token) = FetchResult.response r)
    (hok : r.ok = true) (hbody : r.body = Except.ok data) :
    k.read (AdminApp.loadInitialData server arrival app).1 = data
      ∧ (k.renders data = true → k ∈ (AdminApp.loadInitialData server arrival app).2)
      ∧ (∀ j, j ∈ (AdminApp.loadInitialData server arrival app).2 →
          ∃ r' data', server (j.request app.session.token) = FetchResult.response r'
            ∧ r'.status ≠ 401 ∧ r'.body = Except.ok data' ∧ j.renders data' = true) := by
  have hk : k ∈ arrival := by
    rw [harrival.mem_iff]
    cases k <;> simp [LoadKind.all]
  rw [loadInitialData_eq server arrival app htoken]
  obtain ⟨h1, h2⟩ := foldl_settleStep_success server app.session.token k r data hserver
    (ok_status_ne_401 r hok) hbody arrival
    (LoadKind.all.foldl (fun app k => k.begin app) app, []) hk
  refine ⟨h1, h2, ?_⟩
  intro j hj
  rcases foldl_settleStep_rendered_sound server app.session.token j arrival _ hj with h | h
  · simp at h
  · exact h

/-- Witness for claim C20: with `/statistics/` unreachable the settings are stored
and rendered, as are clients, appointments and services. -/
theorem loadInitialData_loads_independently_witness :
    [LoadKind.settings, LoadKind.statistics, LoadKind.clients, LoadKind.appointments,
        LoadKind.services].Perm LoadKind.all
      ∧ adminApp.session.token.truthy = true
      ∧ LoadKind.settings.read (AdminApp.loadInitialData statisticsDownServer
          [LoadKind.settings, LoadKind.statistics, LoadKind.clients, LoadKind.appointments,
            LoadKind.services] adminApp).1
        = JsVal.obj [("business_name", JsVal.str "Salon")]
      ∧ LoadKind.settings ∈ (AdminApp.loadInitialData statisticsDownServer
          [LoadKind.settings, LoadKind.statistics, LoadKind.clients, LoadKind.appointments,
            LoadKind.services] adminApp).2
      ∧ (AdminApp.loadInitialData statisticsDownServer
          [LoadKind.settings, LoadKind.statistics, LoadKind.clients, LoadKind.appointments,
            LoadKind.services] adminApp).2
        = [LoadKind.settings, LoadKind.clients, LoadKind.appointments, LoadKind.services] :=
  have h := loadInitialData_loads_independently statisticsDownServer
    [LoadKind.settings, LoadKind.statistics, LoadKind.clients, LoadKind.appointments,
      LoadKind.services] adminApp (by decide) (by decide) LoadKind.settings
    ⟨200, Except.ok (JsVal.obj [("business_name", JsVal.str "Salon")])⟩
    (JsVal.obj [("business_name", JsVal.str "Salon")]) rfl (by decide) rfl
  ⟨by decide, by decide, h.1, h.2.1 (by decide), by decide⟩

/-! ## The settings form (C21) -/

/-- A decimal digit is no whitespace. -/
theorem isJsWhitespace_of_isDigit (c : Char) (h : c.isDigit = true) : isJsWhitespace c = false := by
  simp only [Char.isDigit, Bool.and_eq_true, decide_eq_true_eq] at h
  have h1 : 48 ≤ c.toNat := by
    exact h.1
  have h2 : c.toNat ≤ 57 := by
    exact h.2
  simp only [isJsWhitespace, Bool.or_eq_false_iff, Bool.and_eq_false_iff, decide_eq_false_iff_not,
    beq_eq_false_iff_ne, ne_eq]
  refine ⟨⟨⟨⟨⟨⟨⟨⟨⟨⟨?_, ?_⟩, ?_⟩, ?_⟩, ?_⟩, ?_⟩, ?_⟩, ?_⟩, ?_⟩, ?_⟩, ?_⟩ <;> omega

/-- The value of a decimal digit character. -/
theorem digitValue_of_isDigit (c : Char) (h : c.isDigit = true) :
    digitValue 10 c = some (c.toNat - 48) := by
  simp only [Char.isDigit, Bool.and_eq_true, decide_eq_true_eq] at h
  have h1 : 48 ≤ c.toNat := by
    exact h.1
  have h2 : c.toNat ≤ 57 := by
    exact h.2
  have h3 : c.toNat - 48 < 10 := by omega
  simp [digitValue, h1, h2, h3]

/-- On a run of decimal digits `parseDigits` reads the number. -/
theorem parseDigits_digits (ds : List Char) (h : ∀ c ∈ ds, c.isDigit = true) :
    ∀ acc : Nat, parseDigits 10 ds (some acc) = some (readDecimal acc ds) := by
  induction ds with
  | nil => intro acc; rfl
  | cons c t ih =>
    intro acc
    simp only [parseDigits, digitValue_of_isDigit c (h c (by simp)), Option.getD_some]
    rw [ih (fun x hx => h x (List.mem_cons_of_mem _ hx))]
    rfl

/-- On a text that is a run of decimal digits `parseInt` reads the number. -/
theorem parseInt_digits (c : Char) (rest : List Char) (h : ∀ x ∈ c :: rest, x.isDigit = true) :
    parseInt (String.mk (c :: rest)) = some (readDecimal 0 (c :: rest) : Int) := by
  have hc := h c (by simp)
  have hws := isJsWhitespace_of_isDigit c hc
  have hminus : c ≠ '-' := by intro e; rw [e] at hc; exact absurd hc (by decide)
  have hplus : c ≠ '+' := by intro e; rw [e] at hc; exact absurd hc (by decide)
  unfold parseInt
  simp only [List.dropWhile_cons, hws, Bool.false_eq_true, if_false]
  have hsign : parseInt.match_1 (fun _ => Bool × List Char) (c :: rest) (fun r => (true, r))
      (fun r => (false, r)) (fun r => (false, r)) = (false, c :: rest) := by
    split
    · rename_i r heq
      exact absurd (List.cons.inj heq).1 hminus
    · rename_i r heq
      exact absurd (List.cons.inj heq).1 hplus
    · rfl
  have hradix : parseInt.match_2 (fun _ => Nat × List Char) (c :: rest) (fun r => (16, r))
      (fun r => (16, r)) (fun r => (10, r)) = (10, c :: rest) := by
    split
    · rename_i r heq
      have := h 'x' (by rw [heq]; simp)
      exact absurd this (by decide)
    · rename_i r heq
      have := h 'X' (by rw [heq]; simp)
      exact absurd this (by decide)
    · rfl
  rw [hsign]
  simp only [hradix]
  have hd := digitValue_of_isDigit c hc
  simp only [parseDigits, hd, Option.getD_none, Nat.zero_mul, Nat.zero_add]
  rw [parseDigits_digits rest (fun x hx => h x (List.mem_cons_of_mem _ hx))]
  simp [readDecimal]

/-- The decimal text of a natural number is read back by `parseInt`. -/
theorem parseInt_natRepr (m : Nat) : parseInt (toString m) = some (m : Int) := by
  have hdig : ∀ x ∈ (toString m).data, x.isDigit = true := by
    rw [natRepr_data]
    exact toDigitsCore_isDigit (m + 1) m [] (by simp)
  have hread : readDecimal 0 (toString m).data = m := by
    rw [natRepr_data]
    have := readDecimal_toDigitsCore (m + 1) m [] (by omega)
    simpa [Nat.toDigits, readDecimal] using this
  cases hdata : (toString m).data with
  | nil =>
    exfalso
    rw [hdata] at hread
    have h0 : m = 0 := by simpa [readDecimal] using hread.symm
    subst h0
    exact absurd hdata (by decide)
  | cons c rest =>
    have hs : toString m = String.mk (c :: rest) := by
      rw [← hdata]
    rw [hs, parseInt_digits c rest (by rw [← hdata]; exact hdig), ← hdata, hread]

/-- On a minus sign followed by a run of decimal digits `parseInt` reads the
negative number. -/
theorem parseInt_minus_digits (c : Char) (rest : List Char)
    (h : ∀ x ∈ c :: rest, x.isDigit = true) :
    parseInt (String.mk ('-' :: c :: rest)) = some (-(readDecimal 0 (c :: rest) : Int)) := by
  have hc := h c (by simp)
  have hws : isJsWhitespace '-' = false := by decide
  unfold parseInt
  simp only [List.dropWhile_cons, hws, Bool.false_eq_true, if_false]
  have hradix : parseInt.match_2 (fun _ => Nat × List Char) (c :: rest) (fun r => (16, r))
      (fun r => (16, r)) (fun r => (10, r)) = (10, c :: rest) := by
    split
    · rename_i r heq
      have := h 'x' (by rw [heq]; simp)
      exact absurd this (by decide)
    · rename_i r heq
      have := h 'X' (by rw [heq]; simp)
      exact absurd this (by decide)
    · rfl
  simp only [hradix]
  have hd := digitValue_of_isDigit c hc
  simp only [parseDigits, hd, Option.getD_none, Nat.zero_mul, Nat.zero_add]
  rw [parseDigits_digits rest (fun x hx => h x (List.mem_cons_of_mem _ hx))]
  simp [readDecimal]

/-- The decimal text of an integer is read back by `parseInt`. -/
theorem parseInt_intRepr (n : Int) : parseInt (toString n) = some n := by
  cases n with
  | ofNat m => exact parseInt_natRepr m
  | negSucc m =>
    have hdig : ∀ x ∈ (toString (m + 1)).data, x.isDigit = true := by
      rw [natRepr_data]
      exact toDigitsCore_isDigit (m + 1 + 1) (m + 1) [] (by simp)
    have hread : readDecimal 0 (toString (m + 1)).data = m + 1 := by
      rw [natRepr_data]
      have := readDecimal_toDigitsCore (m + 1 + 1) (m + 1) [] (by omega)
      simpa [Nat.toDigits, readDecimal] using this
    have hs : toString (Int.negSucc m) = String.mk ('-' :: (toString (m + 1)).data) := rfl
    cases hdata : (toString (m + 1)).data with
    | nil =>
      exfalso
      rw [hdata] at hread
      simp [readDecimal] at hread
    | cons c rest =>
      rw [hs, hdata, parseInt_minus_digits c rest (by rw [← hdata]; exact hdig), ← hdata, hread]
      rfl

/-- With a token, an authenticated request records exactly its own request,
whatever the answer. -/
theorem makeAuthenticatedRequest_requests (server : Server) (url : String)
    (options : Option (List (String × JsVal))) (st : Session)
    (htoken : st.token.truthy = true) :
    (Auth.makeAuthenticatedRequest server url options st).2.requests
      = st.requests ++ [⟨url, Auth.requestInit st.token (options.getD [])⟩] := by
  simp only [Auth.makeAuthenticatedRequest, htoken, Bool.not_true, Bool.false_eq_true, if_false]
  cases server ⟨url, Auth.requestInit st.token (options.getD [])⟩ with
  | networkError m => rfl
  | response r =>
    simp only []
    split <;> rfl

/-- Every authenticated request only adds to the requests issued. -/
theorem makeAuthenticatedRequest_requests_extend (server : Server) (url : String)
    (options : Option (List (String × JsVal))) (st : Session) :
    ∃ rest, (Auth.makeAuthenticatedRequest server url options st).2.requests
      = st.requests ++ rest := by
  by_cases ht : st.token.truthy = true
  · exact ⟨_, makeAuthenticatedRequest_requests server url options st ht⟩
  · refine ⟨[], ?_⟩
    simp only [Bool.not_eq_true] at ht
    simp [Auth.makeAuthenticatedRequest, ht]

/-- The settings load only adds to the requests issued. -/
theorem loadSettings_requests_extend (server : Server) (app : AdminApp) :
    ∃ rest, (AdminApp.loadSettings server app).session.requests
      = app.session.requests ++ rest := by
  obtain ⟨rest, h⟩ := makeAuthenticatedRequest_requests_extend server "/admin/settings/" none
    app.session
  refine ⟨rest, ?_⟩
  rw [← h]
  simp only [AdminApp.loadSettings]
  generalize Auth.makeAuthenticatedRequest server "/admin/settings/" none app.session = p
  obtain ⟨res, st⟩ := p
  cases res with
  | error e => rfl
  | ok response =>
    simp only []
    cases response.body <;> rfl

/-- With a token, the first request `updateSettings` issues is the one to
`/admin/settings/` built from the form data. -/
theorem updateSettings_sends_put (server : Server) (form : SettingsForm) (app : AdminApp)
    (htoken : app.session.token.truthy = true) :
    ∃ rest, (AdminApp.updateSettings server form app).session.requests
      = app.session.requests
        ++ ⟨"/admin/settings/",
            Auth.requestInit app.session.token (AdminApp.settingsUpdateOptions form)⟩ :: rest := by
  have hreq := makeAuthenticatedRequest_requests server "/admin/settings/"
    (some (AdminApp.settingsUpdateOptions form)) app.session htoken
  simp only [Option.getD_some] at hreq
  simp only [AdminApp.updateSettings]
  generalize Auth.makeAuthenticatedRequest server "/admin/settings/"
    (some (AdminApp.settingsUpdateOptions form)) app.session = p at hreq ⊢
  obtain ⟨res, st⟩ := p
  simp only at hreq
  cases res with
  | error e =>
    refine ⟨[], ?_⟩
    simp only [AdminApp.showNotification, Auth.showNotification]
    exact hreq
  | ok response =>
    simp only []
    split
    · obtain ⟨rest, hrest⟩ := loadSettings_requests_extend server
        (AdminApp.showNotification (JsVal.str "Настройки успешно обновлены!") "success"
          { app with session := st })
      refine ⟨rest, ?_⟩
      rw [hrest]
      simp only [AdminApp.showNotification, Auth.showNotification]
      rw [hreq]
      simp
    · refine ⟨[], ?_⟩
      simp only [AdminApp.showNotification, Auth.showNotification]
      exact hreq

/-- The request `updateSettings` issues carries the method PUT and, as its
body, the text of the form data. -/
theorem requestInit_settingsUpdate (token : JsVal) (form : SettingsForm) :
    (Auth.requestInit token (AdminApp.settingsUpdateOptions form)).getProp "method"
        = some (JsVal.str "PUT")
      ∧ (Auth.requestInit token (AdminApp.settingsUpdateOptions form)).getProp "body"
        = some (Json.stringify (AdminApp.settingsData form)) := by
  constructor <;>
    simp [Auth.requestInit, AdminApp.settingsUpdateOptions, JsVal.spreadInto, JsVal.spreadProps,
      JsVal.setProp, JsVal.getProp, JsVal.lookup]

/-- On a record `renderSettings` runs through and fills the notification field
with the text of `notification_reminder_hours || 24`. -/
theorem renderSettings_record (props : List (String × JsVal)) :
    ∃ form, AdminApp.renderSettings (JsVal.obj props) = some form
      ∧ form.notificationHours
        = (((JsVal.lookup "notification_reminder_hours" props).getD JsVal.undefined).or
            (JsVal.num 24)).toStr :=
  ⟨_, rfl, rfl⟩

/-- Claim C21, amended: for every settings record, renderSettings fills the
notification field with the text of the record's notification_reminder_hours
when that value is truthy (for a number: when it is not 0), and with 24 when
the record has no such value or the value is falsy; for a non-zero integer
value and for the default, the integer parsed from the field is that value.
While a token is held, updateSettings sends PUT `/admin/settings/` whose body
carries as notification_reminder_hours the integer parsed from the field, and
`null` when the field holds no integer. -/
theorem settings_reminder_hours (props : List (String × JsVal)) :
    (∃ form, AdminApp.renderSettings (JsVal.obj props) = some form
      ∧ (∀ v, JsVal.lookup "notification_reminder_hours" props = some v → v.truthy = true →
          form.notificationHours = v.toStr)
      ∧ (∀ n : Int, JsVal.lookup "notification_reminder_hours" props = some (JsVal.num n) →
          n ≠ 0 →
          form.notificationHours = toString n
            ∧ (AdminApp.settingsData form).getProp "notification_reminder_hours"
              = some (JsVal.num n))
      ∧ (JsVal.lookup "notification_reminder_hours" props = none
          ∨ (∃ v, JsVal.lookup "notification_reminder_hours" props = some v ∧ v.truthy = false) →
          form.notificationHours = "24"
            ∧ (AdminApp.settingsData form).getProp "notification_reminder_hours"
              = some (JsVal.num 24)))
    ∧ ∀ (server : Server) (form : SettingsForm) (app : AdminApp),
        app.session.token.truthy = true →
        (∃ rest, (AdminApp.updateSettings server form app).session.requests
          = app.session.requests
            ++ ⟨"/admin/settings/",
                Auth.requestInit app.session.token (AdminApp.settingsUpdateOptions form)⟩ :: rest)
        ∧ (Auth.requestInit app.session.token (AdminApp.settingsUpdateOptions form)).getProp
            "method" = some (JsVal.str "PUT")
        ∧ (Auth.requestInit app.session.token (AdminApp.settingsUpdateOptions form)).getProp "body"
            = some (Json.stringify (AdminApp.settingsData form))
        ∧ (∀ n : Int, parseInt form.notificationHours = some n →
            (AdminApp.settingsData form).getProp "notification_reminder_hours"
              = some (JsVal.num n))
        ∧ (parseInt form.notificationHours = none →
            (AdminApp.settingsData form).getProp "notification_reminder_hours"
              = some JsVal.null) := by
  constructor
  · obtain ⟨form, hform, hfield⟩ := renderSettings_record props
    refine ⟨form, hform, ?_, ?_, ?_⟩
    · intro v hv ht
      rw [hfield, hv]
      simp [JsVal.or, ht]
    · intro n hv hn
      have hfield' : form.notificationHours = toString n := by
        rw [hfield, hv]
        simp [JsVal.or, JsVal.truthy, hn, JsVal.toStr]
      refine ⟨hfield', ?_⟩
      show some (nanAsJson (parseInt form.notificationHours)) = some (JsVal.num n)
      rw [hfield', parseInt_intRepr]
      rfl
    · intro h
      have hfield' : form.notificationHours = "24" := by
        rw [hfield]
        rcases h with h | ⟨v, hv, ht⟩
        · rw [h]; rfl
        · rw [hv]
          simp only [Option.getD_some, JsVal.or, ht, Bool.false_eq_true, if_false]
          rfl
      refine ⟨hfield', ?_⟩
      show some (nanAsJson (parseInt form.notificationHours)) = some (JsVal.num 24)
      rw [hfield']
      rfl
  · intro server form app htoken
    refine ⟨updateSettings_sends_put server form app htoken,
      (requestInit_settingsUpdate _ form).1, (requestInit_settingsUpdate _ form).2, ?_, ?_⟩
    · intro n hn
      show some (nanAsJson (parseInt form.notificationHours)) = some (JsVal.num n)
      rw [hn]
      rfl
    · intro hn
      show some (nanAsJson (parseInt form.notificationHours)) = some JsVal.null
      rw [hn]
      rfl

/-- Witness for claim C21: a record with 48 hours fills the field with `48`, which
is submitted as 48; the empty record fills it with `24`. -/
theorem settings_reminder_hours_witness :
    (∃ form, AdminApp.renderSettings sampleSettings = some form
      ∧ form.notificationHours = "48"
      ∧ (AdminApp.settingsData form).getProp "notification_reminder_hours"
        = some (JsVal.num 48))
    ∧ (∃ form, AdminApp.renderSettings (JsVal.obj []) = some form
      ∧ form.notificationHours = "24") := by
  obtain ⟨⟨form, hform, -, hnum, -⟩, -⟩ := settings_reminder_hours
    [("business_name", JsVal.str "Salon"), ("notification_reminder_hours", JsVal.num 48)]
  obtain ⟨⟨form', hform', -, -, hdefault⟩, -⟩ := settings_reminder_hours []
  exact ⟨⟨form, hform, (hnum 48 rfl (by decide)).1, (hnum 48 rfl (by decide)).2⟩,
    ⟨form', hform', (hdefault (Or.inl rfl)).1⟩⟩

/-- Counterexample to claim C21 as stated: a record whose
notification_reminder_hours is 0 has such a value, with the text `0`, yet the
field is filled with `24`; and a field holding `0` is submitted as 0. -/
theorem renderSettings_zero_hours_shows_default :
    zeroReminderSettings.getProp "notification_reminder_hours" = some (JsVal.num 0)
      ∧ (JsVal.num 0).toStr = "0"
      ∧ (AdminApp.renderSettings zeroReminderSettings).map (fun form => form.notificationHours)
        = some "24"
      ∧ (AdminApp.settingsData ⟨"Salon", "", "", "", "", "0"⟩).getProp
          "notification_reminder_hours" = some (JsVal.num 0) := by
  refine ⟨rfl, rfl, rfl, rfl⟩

/-! ## Held collections after a load (C22) -/

/-- With a token, each load method is its start followed by its end. -/
theorem LoadKind.load_eq_settle (k : LoadKind) (server : Server) (app : AdminApp)
    (htoken : app.session.token.truthy = true) :
    k.load server app = (k.settle (server (k.request app.session.token)) (k.begin app)).1 := by
  cases k
  · exact loadAppointments_eq_settle server app htoken
  · exact loadClients_eq_settle server app htoken
  · exact loadServices_eq_settle server app htoken
  · exact loadStatistics_eq_settle server app htoken
  · exact loadSettings_eq_settle server app htoken

/-- The start of a load changes no field of the console. -/
theorem LoadKind.read_begin (j k : LoadKind) (app : AdminApp) :
    k.read (j.begin app) = k.read app := by
  unfold LoadKind.begin
  split
  · exact LoadKind.read_failed j k app
  · cases k <;> rfl

/-- Without token a load changes no field of the console. -/
theorem LoadKind.read_load_without_token (j k : LoadKind) (server : Server) (app : AdminApp)
    (htoken : app.session.token.truthy = false) :
    k.read (j.load server app) = k.read app := by
  cases j <;> cases k <;>
    simp [LoadKind.load, AdminApp.loadAppointments, AdminApp.loadClients, AdminApp.loadServices,
      AdminApp.loadStatistics, AdminApp.loadSettings, Auth.makeAuthenticatedRequest, htoken,
      LoadKind.read, AdminApp.showNotification]

/-- A load leaves the field of every other load as it is. -/
theorem LoadKind.read_load_ne (j k : LoadKind) (server : Server) (app : AdminApp) (h : j ≠ k) :
    k.read (j.load server app) = k.read app := by
  by_cases htoken : app.session.token.truthy = true
  · rw [LoadKind.load_eq_settle j server app htoken, LoadKind.read_settle_ne j k _ _ h,
      LoadKind.read_begin]
  · simp only [Bool.not_eq_true] at htoken
    exact LoadKind.read_load_without_token j k server app htoken

/-- What a load leaves in its own field: the JSON body of the answer when a token
is held and the answer is a response with a status other than 401 and a JSON
body, whether the status is 2xx or not; and what was there before in every
other case. -/
theorem LoadKind.read_load (k : LoadKind) (server : Server) (app : AdminApp) :
    (∀ (r : Response) (data : JsVal), app.session.token.truthy = true →
        server (k.request app.session.token) = FetchResult.response r →
        r.status ≠ 401 → r.body = Except.ok data →
        k.read (k.load server app) = data)
      ∧ (app.session.token.truthy = false → k.read (k.load server app) = k.read app)
      ∧ (∀ m, server (k.request app.session.token) = FetchResult.networkError m →
          k.read (k.load server app) = k.read app)
      ∧ (∀ r, server (k.request app.session.token) = FetchResult.response r →
          (r.status = 401 ∨ ∃ m, r.body = Except.error m) →
          k.read (k.load server app) = k.read app) := by
  refine ⟨?_, LoadKind.read_load_without_token k k server app, ?_, ?_⟩
  · intro r data htoken hs h401 hbody
    rw [LoadKind.load_eq_settle k server app htoken, hs]
    exact (LoadKind.settle_success k r data _ h401 hbody).1
  · intro m hs
    by_cases htoken : app.session.token.truthy = true
    · rw [LoadKind.load_eq_settle k server app htoken, hs]
      simp only [LoadKind.settle]
      rw [LoadKind.read_failed, LoadKind.read_begin]
    · simp only [Bool.not_eq_true] at htoken
      exact LoadKind.read_load_without_token k k server app htoken
  · intro r hs hr
    by_cases htoken : app.session.token.truthy = true
    · rw [LoadKind.load_eq_settle k server app htoken, hs]
      simp only [LoadKind.settle]
      by_cases h401 : r.status = 401
      · simp only [h401, if_true]
        rw [LoadKind.read_failed]
        have : k.read { k.begin app with session := Auth.logout (k.begin app).session }
            = k.read (k.begin app) := by cases k <;> rfl
        rw [this, LoadKind.read_begin]
      · rcases hr with hr | ⟨m, hr⟩
        · exact absurd hr h401
        · simp only [h401, if_false, hr]
          rw [LoadKind.read_failed, LoadKind.read_begin]
    · simp only [Bool.not_eq_true] at htoken
      exact LoadKind.read_load_without_token k k server app htoken

/-- A sequence of loads followed by one more load. -/
theorem runLoads_append (ops : List (LoadKind × Server)) (k : LoadKind) (server : Server)
    (app : AdminApp) :
    AdminApp.runLoads (ops ++ [(k, server)]) app = k.load server (AdminApp.runLoads ops app) := by
  simp [AdminApp.runLoads, List.foldl_append]

/-- Claim C22 (code defect): after any sequence of load operations, a load whose
fetch is answered with a non-2xx status other than 401 and a JSON body leaves
that body in the held collection: the loads of admin.js 96-177 assign
`await response.json()` without looking at `response.ok`. -/
theorem load_stores_body_of_refused_fetch (ops : List (LoadKind × Server)) (k : LoadKind)
    (server : Server) (app : AdminApp) (r : Response) (data : JsVal)
    (htoken : (AdminApp.runLoads ops app).session.token.truthy = true)
    (hserver : server (k.request (AdminApp.runLoads ops app).session.token)
      = FetchResult.response r)
    (_hok : r.ok = false) (h401 : r.status ≠ 401) (hbody : r.body = Except.ok data) :
    k.read (AdminApp.runLoads (ops ++ [(k, server)]) app) = data := by
  rw [runLoads_append]
  exact (LoadKind.read_load k server (AdminApp.runLoads ops app)).1 r data htoken hserver h401
    hbody

/-- Witness for claim C22: the clients are loaded, then loaded again against a
server that answers 403 with an error body; the held clients are then the
error body, not the list of the last 2xx answer. -/
theorem load_stores_body_of_refused_fetch_witness :
    (AdminApp.runLoads [(LoadKind.clients, clientListServer)] adminApp).clients
        = JsVal.arr [JsVal.obj [("id", JsVal.num 1), ("name", JsVal.str "Ivan")]]
      ∧ (⟨403, Except.ok (JsVal.obj [("detail", JsVal.str "Not enough permissions")])⟩
          : Response).ok = false
      ∧ (AdminApp.runLoads
          [(LoadKind.clients, clientListServer), (LoadKind.clients, forbiddingServer)]
          adminApp).clients
        = JsVal.obj [("detail", JsVal.str "Not enough permissions")] :=
  ⟨rfl, by decide,
    load_stores_body_of_refused_fetch [(LoadKind.clients, clientListServer)] LoadKind.clients
      forbiddingServer adminApp
      ⟨403, Except.ok (JsVal.obj [("detail", JsVal.str "Not enough permissions")])⟩
      (JsVal.obj [("detail", JsVal.str "Not enough permissions")])
      (by decide) rfl (by decide) (by decide) rfl⟩

/-! ## Session consistency (C23) -/

/-- What login leaves in local storage when its profile fetch is not answered
401: what was there, or the token and then the user record written on top. -/
theorem login_localStorage (server : Server) (username password : String) (st : Session)
    (h401 : ∀ (init : JsVal) (r : Response),
      server ⟨"/users/me/", init⟩ = FetchResult.response r → r.status ≠ 401) :
    (Auth.login server username password st).localStorage = st.localStorage
      ∨ ∃ user token, (Auth.login server username password st).localStorage
          = Storage.setItem "user" user (Storage.setItem "authToken" token st.localStorage) := by
  unfold Auth.login
  simp only []
  cases server (Auth.tokenRequest username password) with
  | networkError m => left; rfl
  | response response =>
    simp only []
    by_cases hok : response.ok = true
    · simp only [hok, if_true]
      cases response.body with
      | error m => left; rfl
      | ok data =>
        simp only []
        cases data.getProp "access_token" with
        | none => left; rfl
        | some accessToken =>
          right
          simp only [Auth.makeAuthenticatedRequest, Option.getD_none]
          by_cases ht : accessToken.truthy = true
          · simp only [ht, Bool.not_true, Bool.false_eq_true, if_false]
            cases hs : server ⟨"/users/me/", Auth.requestInit accessToken []⟩ with
            | networkError m => exact ⟨_, _, rfl⟩
            | response r =>
              have hr := h401 _ r hs
              simp only [hr, if_false]
              by_cases hok' : r.ok = true
              · simp only [hok', if_true]
                cases r.body with
                | error m => exact ⟨_, _, rfl⟩
                | ok user => exact ⟨_, _, rfl⟩
              · simp only [hok', if_false]
                exact ⟨_, _, rfl⟩
          · simp only [Bool.not_eq_true] at ht
            simp only [ht, Bool.not_false, if_true]
            exact ⟨_, _, rfl⟩
    · simp only [hok, if_false]
      left; rfl

/-- Every operation other than a login whose profile fetch is answered 401
keeps the session consistent. -/
theorem SessionOp.run_userOnlyWithToken (op : SessionOp) (st : Session)
    (hop : op.ProfileNot401) (hst : st.userOnlyWithToken = true) :
    (op.run st).userOnlyWithToken = true := by
  cases op with
  | login server username password =>
    rcases login_localStorage server username password st hop with h | ⟨user, token, h⟩
    · simp only [SessionOp.run, Session.userOnlyWithToken, h]
      exact hst
    · simp only [SessionOp.run, Session.userOnlyWithToken, h]
      rw [Storage.getItem_setItem_ne "authToken" "user" _ _ (by decide),
        Storage.getItem_setItem "authToken"]
      simp
  | logout =>
    simp only [SessionOp.run, Session.userOnlyWithToken, Auth.logout]
    rw [Storage.getItem_removeItem]
    rfl
  | request server url options =>
    simp only [SessionOp.run, Auth.makeAuthenticatedRequest]
    split
    · exact hst
    · cases server ⟨url, Auth.requestInit st.token (options.getD [])⟩ with
      | networkError m => exact hst
      | response r =>
        simp only []
        split
        · simp only [Session.userOnlyWithToken, Auth.logout, Auth.issue]
          rw [Storage.getItem_removeItem]
          rfl
        · exact hst

/-- Every sequence of logins, logouts and authenticated requests in which no
profile fetch of a login is answered 401 keeps the session consistent. -/
theorem runOps_userOnlyWithToken (ops : List SessionOp) (st : Session)
    (hops : ∀ op ∈ ops, op.ProfileNot401) (hst : st.userOnlyWithToken = true) :
    (Session.runOps ops st).userOnlyWithToken = true := by
  induction ops generalizing st with
  | nil => exact hst
  | cons op rest ih =>
    simp only [Session.runOps, List.foldl_cons]
    exact ih (op.run st) (fun o ho => hops o (List.mem_cons_of_mem _ ho))
      (SessionOp.run_userOnlyWithToken op st (hops op (by simp)) hst)

/-- A login whose profile fetch is answered 401 runs the logout and then the
fallback. -/
theorem login_of_profile_401 (server : Server) (username password : String)
    (st : Session) (tokenResponse : Response) (data accessToken : JsVal)
    (body : Except String JsVal)
    (hok : tokenResponse.ok = true) (hbody : tokenResponse.body = Except.ok data)
    (htoken : server (Auth.tokenRequest username password) = FetchResult.response tokenResponse)
    (haccess : data.getProp "access_token" = some accessToken)
    (htruthy : accessToken.truthy = true)
    (hprofile : server ⟨"/users/me/", Auth.requestInit accessToken []⟩
      = FetchResult.response ⟨401, body⟩) :
    Auth.login server username password st
      = Auth.loginFallback username (Auth.logout (Auth.issue
          ⟨"/users/me/", Auth.requestInit accessToken []⟩
          { Auth.issue (Auth.tokenRequest username password) st with
            token := accessToken
            localStorage := Storage.setItem "authToken" accessToken.toStr st.localStorage })) := by
  simp only [Auth.login, htoken, hok, if_true, hbody, haccess,
    Auth.makeAuthenticatedRequest, htruthy, Bool.not_true, Bool.false_eq_true, if_false,
    Option.getD_none, hprofile]
  rfl

/-- Claim C23 (code defect): from the empty session, after any sequence of
operations that ends with a login whose token request succeeds and whose
profile fetch is answered 401, local storage holds a user record and no
token: the `catch` of auth.js 64-72 stores the fallback user after the logout
of line 132 has removed the token. -/
theorem login_leaves_user_without_token (ops : List SessionOp) (server : Server)
    (username password : String) (tokenResponse : Response) (data accessToken : JsVal)
    (body : Except String JsVal)
    (hok : tokenResponse.ok = true) (hbody : tokenResponse.body = Except.ok data)
    (htoken : server (Auth.tokenRequest username password) = FetchResult.response tokenResponse)
    (haccess : data.getProp "access_token" = some accessToken)
    (htruthy : accessToken.truthy = true)
    (hprofile : server ⟨"/users/me/", Auth.requestInit accessToken []⟩
      = FetchResult.response ⟨401, body⟩) :
    (Storage.getItem "user" (Session.runOps
        (ops ++ [SessionOp.login server username password]) emptySession).localStorage).isSome
        = true
      ∧ Storage.getItem "authToken" (Session.runOps
          (ops ++ [SessionOp.login server username password]) emptySession).localStorage = none
      ∧ (Session.runOps (ops ++ [SessionOp.login server username password])
          emptySession).userOnlyWithToken = false := by
  have hrun : Session.runOps (ops ++ [SessionOp.login server username password]) emptySession
      = Auth.login server username password (Session.runOps ops emptySession) := by
    simp [Session.runOps, List.foldl_append, SessionOp.run]
  rw [hrun, login_of_profile_401 server username password _ tokenResponse data accessToken body
    hok hbody htoken haccess htruthy hprofile]
  have huser : Storage.getItem "user" (Auth.loginFallback username (Auth.logout (Auth.issue
      ⟨"/users/me/", Auth.requestInit accessToken []⟩
      { Auth.issue (Auth.tokenRequest username password) (Session.runOps ops emptySession) with
        token := accessToken
        localStorage := Storage.setItem "authToken" accessToken.toStr
          (Session.runOps ops emptySession).localStorage }))).localStorage
      = some (Json.stringify (JsVal.obj [("username", JsVal.str username),
          ("is_admin", JsVal.bool false)])).toStr := by
    simp [Auth.loginFallback, Auth.setTimeout, Auth.showNotification, Storage.getItem_setItem]
  have htok : Storage.getItem "authToken" (Auth.loginFallback username (Auth.logout (Auth.issue
      ⟨"/users/me/", Auth.requestInit accessToken []⟩
      { Auth.issue (Auth.tokenRequest username password) (Session.runOps ops emptySession) with
        token := accessToken
        localStorage := Storage.setItem "authToken" accessToken.toStr
          (Session.runOps ops emptySession).localStorage }))).localStorage = none := by
    simp only [Auth.loginFallback, Auth.setTimeout, Auth.showNotification, Auth.logout,
      Auth.issue]
    rw [Storage.getItem_setItem_ne _ _ _ _ (by decide),
      Storage.getItem_removeItem_ne _ _ _ (by decide), Storage.getItem_removeItem]
  refine ⟨?_, htok, ?_⟩
  · rw [huser]; rfl
  · simp only [Session.userOnlyWithToken, huser, htok]
    rfl

/-- Witness for claim C23: one login as `admin` against a server that rejects the
token it has just issued. -/
theorem login_leaves_user_without_token_witness :
    Storage.getItem "user"
        (Session.runOps [SessionOp.login rejectingTokenServer "admin" "secret"]
          emptySession).localStorage
        = some (Json.stringify (JsVal.obj [("username", JsVal.str "admin"),
            ("is_admin", JsVal.bool false)])).toStr
      ∧ Storage.getItem "authToken"
          (Session.runOps [SessionOp.login rejectingTokenServer "admin" "secret"]
            emptySession).localStorage = none
      ∧ (Session.runOps [SessionOp.login rejectingTokenServer "admin" "secret"]
          emptySession).userOnlyWithToken = false :=
  have h := login_leaves_user_without_token [] rejectingTokenServer "admin" "secret"
    ⟨200, Except.ok (JsVal.obj [("access_token", JsVal.str "abc"),
      ("token_type", JsVal.str "bearer")])⟩
    (JsVal.obj [("access_token", JsVal.str "abc"), ("token_type", JsVal.str "bearer")])
    (JsVal.str "abc")
    (Except.ok (JsVal.obj [("detail", JsVal.str "Could not validate credentials")]))
    (by decide) rfl rfl rfl (by decide) rfl
  ⟨by decide, h.2.1, h.2.2⟩

/-! ## The start of the admin console (C24) -/

/-- The outcome of `checkAuth`: the session as it was, or the same session on
the login page. -/
theorem checkAuth_cases (st : Session) :
    Auth.checkAuth st = (true, st) ∨ Auth.checkAuth st = (false, { st with location := "/login" }) := by
  unfold Auth.checkAuth
  split
  · left; rfl
  · split
    · right; rfl
    · left; rfl

/-- Claim C24, amended: for every session in which checkAuth fails, the user is
null, or the user's is_admin is falsy, AdminApp.init binds no events and issues
no request; when checkAuth succeeds and is_admin is falsy (the user being null
included) an error notification is shown and a redirect to `/` is scheduled
after 2000 ms; when checkAuth fails the only change is the redirect to
`/login`. -/
theorem init_gate (server : Server) (arrival : List LoadKind) (page : AdminPage)
    (app : AdminApp) :
    ((Auth.checkAuth app.session).1 = false ∨ app.session.user = JsVal.null
        ∨ (app.session.user.optProp "is_admin").truthy = false →
      (AdminApp.init server arrival page app).2 = []
        ∧ (AdminApp.init server arrival page app).1.session.requests = app.session.requests)
    ∧ ((Auth.checkAuth app.session).1 = true →
        (app.session.user.optProp "is_admin").truthy = false →
        (AdminApp.init server arrival page app).1.session.notifications
            = app.session.notifications
              ++ [(JsVal.str "Недостаточно прав для доступа к админке", "error")]
          ∧ (AdminApp.init server arrival page app).1.session.timers
            = app.session.timers ++ [(2000, TimerAction.goto "/")]
          ∧ (Auth.runTimer (TimerAction.goto "/")
              (AdminApp.init server arrival page app).1.session).location = "/")
    ∧ ((Auth.checkAuth app.session).1 = false →
        (AdminApp.init server arrival page app).1.session
            = { app.session with location := "/login" }) := by
  have hnull : app.session.user = JsVal.null →
      (app.session.user.optProp "is_admin").truthy = false := by
    intro h; rw [h]; rfl
  refine ⟨?_, ?_, ?_⟩
  · intro h
    rcases checkAuth_cases app.session with hc | hc
    · have hfalsy : (app.session.user.optProp "is_admin").truthy = false := by
        rcases h with h | h | h
        · rw [hc] at h; exact absurd h (Bool.noConfusion)
        · exact hnull h
        · exact h
      simp [AdminApp.init, hc, hfalsy, Auth.setTimeout, Auth.showNotification]
    · simp [AdminApp.init, hc]
  · intro hpass hfalsy
    rcases checkAuth_cases app.session with hc | hc
    · simp [AdminApp.init, hc, hfalsy, Auth.setTimeout, Auth.showNotification, Auth.runTimer]
    · rw [hc] at hpass; exact absurd hpass Bool.false_ne_true
  · intro hfail
    rcases checkAuth_cases app.session with hc | hc
    · rw [hc] at hfail; exact absurd hfail (Bool.noConfusion)
    · simp only [AdminApp.init, hc]

/-- Witness for claim C24: a signed-in user who is no administrator gets no
listener, no request and the scheduled redirect; a visitor without token gets
no listener. -/
theorem init_gate_witness :
    ((Auth.checkAuth (consoleOf visitorSession).session).1 = true
      ∧ ((consoleOf visitorSession).session.user.optProp "is_admin").truthy = false
      ∧ (AdminApp.init clientListServer LoadKind.all fullAdminPage (consoleOf visitorSession)).2
        = []
      ∧ (AdminApp.init clientListServer LoadKind.all fullAdminPage
          (consoleOf visitorSession)).1.session.requests = []
      ∧ (AdminApp.init clientListServer LoadKind.all fullAdminPage
          (consoleOf visitorSession)).1.session.timers = [(2000, TimerAction.goto "/")])
    ∧ ((Auth.checkAuth (consoleOf emptySession).session).1 = false
      ∧ (AdminApp.init clientListServer LoadKind.all fullAdminPage (consoleOf emptySession)).2
        = []) :=
  have h := init_gate clientListServer LoadKind.all fullAdminPage (consoleOf visitorSession)
  have h' := init_gate clientListServer LoadKind.all fullAdminPage (consoleOf emptySession)
  ⟨⟨by decide, by decide, (h.1 (Or.inr (Or.inr (by decide)))).1,
      (h.1 (Or.inr (Or.inr (by decide)))).2, (h.2.1 (by decide) (by decide)).2.1⟩,
    by decide, (h'.1 (Or.inl (by decide))).1⟩

/-- Counterexample to claim C24 as stated: a user whose is_admin is the string
`false`, which is not `true`, has the eight listeners bound and the five data
requests issued; and a non-admin user record without token is sent to `/login`
without notification and without a redirect to `/`. -/
theorem init_admits_truthy_flag_and_skips_notice :
    (stringFlagSession.user.getProp "is_admin" = some (JsVal.str "false")
      ∧ (AdminApp.init clientListServer LoadKind.all fullAdminPage
          (consoleOf stringFlagSession)).2 = AdminApp.bindEvents fullAdminPage
      ∧ (AdminApp.bindEvents fullAdminPage).length = 8
      ∧ (AdminApp.init clientListServer LoadKind.all fullAdminPage
          (consoleOf stringFlagSession)).1.session.requests.map (fun r => r.url)
        = ["/appointments-with-details/", "/clients/", "/services/", "/statistics/",
            "/admin/settings/"])
    ∧ (staleUserSession.user.getProp "is_admin" = some (JsVal.bool false)
      ∧ (AdminApp.init clientListServer LoadKind.all fullAdminPage
          (consoleOf staleUserSession)).1.session.notifications = []
      ∧ (AdminApp.init clientListServer LoadKind.all fullAdminPage
          (consoleOf staleUserSession)).1.session.timers = []
      ∧ (AdminApp.init clientListServer LoadKind.all fullAdminPage
          (consoleOf staleUserSession)).1.session.location = "/login") := by
  refine ⟨⟨rfl, rfl, by decide, by decide⟩, rfl, rfl, rfl, by decide⟩

/-! ## Requests without token (C25) -/

/-- Claim C25: when no token is held (the token is `null`, `undefined` or empty),
makeAuthenticatedRequest fails with `Not authenticated` for every url and
options, issues no request and leaves the whole session state, the location
included, unchanged. -/
theorem makeAuthenticatedRequest_requires_token (server : Server) (url : String)
    (options : Option (List (String × JsVal))) (st : Session)
    (htoken : st.token.truthy = false) :
    (Auth.makeAuthenticatedRequest server url options st).1
        = Except.error ⟨"Not authenticated"⟩
      ∧ (Auth.makeAuthenticatedRequest server url options st).2 = st
      ∧ (Auth.makeAuthenticatedRequest server url options st).2.requests = st.requests
      ∧ (Auth.makeAuthenticatedRequest server url options st).2.location = st.location := by
  simp [Auth.makeAuthenticatedRequest, htoken]

/-- Witness for claim C25: the empty session, and a session whose token is the
empty string. -/
theorem makeAuthenticatedRequest_requires_token_witness :
    emptySession.token.truthy = false
      ∧ (Auth.makeAuthenticatedRequest clientListServer "/clients/" none emptySession).1
        = Except.error ⟨"Not authenticated"⟩
      ∧ (Auth.makeAuthenticatedRequest clientListServer "/clients/" none emptySession).2
        = emptySession
      ∧ (Auth.makeAuthenticatedRequest clientListServer "/appointments/5/status"
          (some (AdminApp.statusUpdateOptions "confirmed"))
          { emptySession with token := JsVal.str "" }).2.requests = [] :=
  ⟨by decide,
    (makeAuthenticatedRequest_requires_token clientListServer "/clients/" none emptySession
      (by decide)).1,
    (makeAuthenticatedRequest_requires_token clientListServer "/clients/" none emptySession
      (by decide)).2.1,
    (makeAuthenticatedRequest_requires_token clientListServer "/appointments/5/status"
      (some (AdminApp.statusUpdateOptions "confirmed"))
      { emptySession with token := JsVal.str "" } (by decide)).2.2.1⟩

/-! ## The fields of a booking request (C26) -/

/-- Trimming a string of whitespace leaves nothing. -/
theorem jsTrim_of_isBlank (s : String) (h : isBlank s = true) : jsTrim s = "" := by
  have h1 : s.data.dropWhile isJsWhitespace = [] := by
    rw [List.dropWhile_eq_nil_iff]
    simpa [isBlank, List.all_eq_true] using h
  simp only [jsTrim, h1]
  rfl

/-- Trimming a string that has a character other than whitespace leaves
something. -/
theorem jsTrim_ne_empty (s : String) (c : Char) (hc : c ∈ s.data)
    (hws : isJsWhitespace c = false) : jsTrim s ≠ "" := by
  have h1 : s.data.dropWhile isJsWhitespace ≠ [] := by
    intro h
    rw [List.dropWhile_eq_nil_iff] at h
    have := h c hc
    rw [hws] at this
    exact Bool.false_ne_true this
  have h2 : (s.data.dropWhile isJsWhitespace).reverse.dropWhile isJsWhitespace ≠ [] := by
    intro h
    rw [List.dropWhile_eq_nil_iff] at h
    cases hd : s.data.dropWhile isJsWhitespace with
    | nil => exact h1 hd
    | cons x xs =>
      have hx : isJsWhitespace x = false := by
        have := List.head_dropWhile_not isJsWhitespace s.data (by rw [hd]; simp)
        simpa [hd] using this
      have := h x (by rw [hd]; simp)
      rw [hx] at this
      exact Bool.false_ne_true this
  intro h
  apply h2
  have := congrArg String.data h
  simpa [jsTrim] using this

/-- A phone that passes the pattern has a character other than whitespace, so
its trimmed text is not empty. -/
theorem jsTrim_phone_ne_empty (phone : String)
    (h : ClientApp.createAppointment_phoneRegex.testAnchored (removeWhitespace phone) = true) :
    jsTrim phone ≠ "" := by
  have hspec : phoneSpec phone = true := by
    rw [← phonePattern_eq_spec]
    exact h
  simp only [phoneSpec, Bool.and_eq_true, decide_eq_true_eq] at hspec
  have hq : phone.data.filter (fun c => !isJsWhitespace c) ≠ [] := by
    intro hnil
    rw [hnil] at hspec
    simp at hspec
  obtain ⟨c, hc⟩ := List.exists_mem_of_ne_nil _ hq
  rw [List.mem_filter] at hc
  exact jsTrim_ne_empty phone c hc.1 (by simpa using hc.2)

/-- A form that passes both validations is sent: the booking request is the one
request recorded. -/
theorem createAppointment_validated_requests (server : Server) (now : LocalDateTime)
    (form : BookingForm) (st : Session) (value : String) (n : Int)
    (hname : form.clientName ≠ "") (hphone : form.clientPhone ≠ "")
    (hdate : form.appointmentDate ≠ "") (hsel : form.serviceSelect = some value)
    (hparse : parseInt value = some n) (hn : n ≠ 0)
    (hmatch : ClientApp.createAppointment_phoneRegex.testAnchored
      (removeWhitespace form.clientPhone) = true) :
    (ClientApp.createAppointment server now form st).2.requests
      = st.requests ++ [ClientApp.bookingRequest form n] := by
  have hn0 : (n == 0) = false := by simpa using hn
  simp only [ClientApp.createAppointment, hsel, hparse, hname, hphone, hdate, hmatch, hn0,
    decide_False, Bool.or_self, Bool.false_eq_true, if_false, Bool.not_true, Option.getD_some]
  cases server (ClientApp.bookingRequest form n) with
  | networkError m => rfl
  | response r =>
    simp only []
    split
    · cases r.body <;> rfl
    · rfl

/-- What `createAppointment` sends: nothing, or, for a form that passes both
validations, the one booking request of the form. -/
theorem createAppointment_requests (server : Server) (now : LocalDateTime) (form : BookingForm)
    (st : Session) :
    (ClientApp.createAppointment server now form st).2.requests = st.requests
      ∨ ∃ value n, form.clientName ≠ "" ∧ form.clientPhone ≠ "" ∧ form.appointmentDate ≠ ""
          ∧ form.serviceSelect = some value ∧ parseInt value = some n ∧ n ≠ 0
          ∧ ClientApp.createAppointment_phoneRegex.testAnchored
              (removeWhitespace form.clientPhone) = true
          ∧ (ClientApp.createAppointment server now form st).2.requests
              = st.requests ++ [ClientApp.bookingRequest form n] := by
  by_cases hname : form.clientName = ""
  · left; simp [ClientApp.createAppointment, hname, ClientApp.showNotification,
      Auth.showNotification]
  by_cases hphone : form.clientPhone = ""
  · left; simp [ClientApp.createAppointment, hphone, ClientApp.showNotification,
      Auth.showNotification]
  by_cases hdate : form.appointmentDate = ""
  · left; simp [ClientApp.createAppointment, hdate, ClientApp.showNotification,
      Auth.showNotification]
  cases hsel : form.serviceSelect with
  | none =>
    left; simp [ClientApp.createAppointment, hsel, ClientApp.showNotification,
      Auth.showNotification]
  | some value =>
    cases hparse : parseInt value with
    | none =>
      left; simp [ClientApp.createAppointment, hsel, hparse, ClientApp.showNotification,
        Auth.showNotification]
    | some n =>
      by_cases hn : n = 0
      · left; simp [ClientApp.createAppointment, hsel, hparse, hn, ClientApp.showNotification,
          Auth.showNotification]
      by_cases hmatch : ClientApp.createAppointment_phoneRegex.testAnchored
          (removeWhitespace form.clientPhone) = true
      · right
        exact ⟨value, n, hname, hphone, hdate, rfl, hparse, hn, hmatch,
          createAppointment_validated_requests server now form st value n hname hphone hdate
            hsel hparse hn hmatch⟩
      · left
        simp only [Bool.not_eq_true] at hmatch
        simp [ClientApp.createAppointment, hsel, hparse, hname, hphone, hdate, hn, hmatch,
          ClientApp.showNotification, Auth.showNotification]

/-- The `client_phone` of every booking request sent is not empty, and its
`client_name` is empty exactly when the entered name is whitespace only. -/
theorem createAppointment_sent_fields (server : Server) (now : LocalDateTime)
    (form : BookingForm) (st : Session)
    (hsent : (ClientApp.createAppointment server now form st).2.requests ≠ st.requests) :
    ∃ n, (ClientApp.createAppointment server now form st).2.requests
        = st.requests ++ [ClientApp.bookingRequest form n]
      ∧ (ClientApp.bookingData form n).getProp "client_phone"
        = some (JsVal.str (jsTrim form.clientPhone))
      ∧ jsTrim form.clientPhone ≠ ""
      ∧ (ClientApp.bookingData form n).getProp "client_name"
        = some (JsVal.str (jsTrim form.clientName))
      ∧ (jsTrim form.clientName = "" ↔ isBlank form.clientName = true) := by
  rcases createAppointment_requests server now form st with h | ⟨value, n, -, -, -, -, -, -, hm, h⟩
  · exact absurd h hsent
  · refine ⟨n, h, rfl, jsTrim_phone_ne_empty _ hm, rfl, ?_⟩
    constructor
    · intro hempty
      by_contra hb
      simp only [isBlank, List.all_eq_true, not_forall] at hb
      obtain ⟨c, hc, hws⟩ := hb
      exact jsTrim_ne_empty _ c hc (by simpa using hws) hempty
    · exact jsTrim_of_isBlank _

/-- Claim C26 (code defect): for every form that passes the validation with a
name made of whitespace only, createAppointment sends the booking request with
an empty client_name (the client_phone is not empty): main.js 233 tests the
name as entered and line 247 sends it trimmed. -/
theorem createAppointment_sends_blank_name_as_empty (server : Server) (now : LocalDateTime)
    (form : BookingForm) (st : Session) (value : String) (n : Int)
    (hname : form.clientName ≠ "") (hblank : isBlank form.clientName = true)
    (hdate : form.appointmentDate ≠ "") (hsel : form.serviceSelect = some value)
    (hparse : parseInt value = some n) (hn : n ≠ 0)
    (hmatch : ClientApp.createAppointment_phoneRegex.testAnchored
      (removeWhitespace form.clientPhone) = true) :
    (ClientApp.createAppointment server now form st).2.requests
        = st.requests ++ [ClientApp.bookingRequest form n]
      ∧ (ClientApp.bookingRequest form n).init.getProp "body"
        = some (Json.stringify (ClientApp.bookingData form n))
      ∧ (ClientApp.bookingData form n).getProp "client_name" = some (JsVal.str "")
      ∧ (∃ phone, (ClientApp.bookingData form n).getProp "client_phone"
          = some (JsVal.str phone) ∧ phone ≠ "") := by
  have hphone : form.clientPhone ≠ "" := by
    intro h
    have := jsTrim_phone_ne_empty _ hmatch
    rw [h] at this
    exact this (by decide)
  refine ⟨createAppointment_validated_requests server now form st value n hname hphone hdate
    hsel hparse hn hmatch, rfl, ?_, ⟨_, rfl, jsTrim_phone_ne_empty _ hmatch⟩⟩
  show some (JsVal.str (jsTrim form.clientName)) = some (JsVal.str "")
  rw [jsTrim_of_isBlank _ hblank]

/-- Witness for claim C26: the sample form with the name of one space. -/
theorem createAppointment_sends_blank_name_as_empty_witness :
    blankNameForm.clientName ≠ "" ∧ isBlank blankNameForm.clientName = true
      ∧ (ClientApp.createAppointment offlineServer sampleNow blankNameForm emptySession).2.requests
        = [ClientApp.bookingRequest blankNameForm 2]
      ∧ (ClientApp.bookingData blankNameForm 2).getProp "client_name" = some (JsVal.str "") :=
  ⟨by decide, by decide,
    (createAppointment_sends_blank_name_as_empty offlineServer sampleNow blankNameForm
      emptySession "2" 2 (by decide) (by decide) (by decide) rfl (by decide) (by decide)
      (by decide)).1,
    (createAppointment_sends_blank_name_as_empty offlineServer sampleNow blankNameForm
      emptySession "2" 2 (by decide) (by decide) (by decide) rfl (by decide) (by decide)
      (by decide)).2.2.1⟩

/-! ## The default date and the minimum (C27) -/

/-- The minimum is the assembled text of the current time. -/
theorem setupDateTimeInput_min_eq_isoMinuteText (now : LocalDateTime) :
    ClientApp.setupDateTimeInput_min now = isoMinuteText now := rfl

/-- The call `setDate` stays in the year or moves into the next. -/
theorem setDate_year (d : CalendarDate) (n : Nat) :
    d.year ≤ (d.setDate n).year ∧ (d.setDate n).year ≤ d.year + 1 := by
  unfold CalendarDate.setDate
  split
  · exact ⟨Nat.le_refl _, Nat.le_succ _⟩
  · split
    · exact ⟨Nat.le_refl _, Nat.le_succ _⟩
    · exact ⟨Nat.le_succ _, Nat.le_refl _⟩

/-- Ten o'clock of the day after a moment that is not before `now` is later than
`now` (the two calls of `new Date()` in `setupDateTimeInput` and
`setDefaultDateTime` need not read the same minute). -/
theorem minuteNumber_lt_tomorrow_at_ten (now later : LocalDateTime)
    (hnow : now.Valid) (hlater : later.Valid) (hle : now.minuteNumber ≤ later.minuteNumber) :
    now.minuteNumber
      < (⟨later.day.setDate (later.day.date + 1), 10, 0⟩ : LocalDateTime).minuteNumber := by
  obtain ⟨hnext, -, -⟩ := dayNumber_setDate_succ later.day hlater.1 hlater.2.1
  obtain ⟨-, -, hh, hm⟩ := hnow
  obtain ⟨-, -, hh', hm'⟩ := hlater
  simp only [LocalDateTime.minuteNumber] at hle ⊢
  rw [hnext]
  push_cast
  omega

/-- Claim C27: for every current local time, the minimum is the text of that time
and the default the text of 10:00 of the next day, which is a strictly later
minute; and when both years have four digits, the time value the default
parses to is strictly greater than the one the minimum parses to. -/
theorem default_later_than_minimum (now : LocalDateTime) (hnow : now.Valid) :
    ClientApp.setupDateTimeInput_min now = isoMinuteText now
      ∧ ClientApp.setDefaultDateTime now
        = isoMinuteText ⟨now.day.setDate (now.day.date + 1), 10, 0⟩
      ∧ now.minuteNumber
        < (⟨now.day.setDate (now.day.date + 1), 10, 0⟩ : LocalDateTime).minuteNumber
      ∧ (1000 ≤ now.day.year → (now.day.setDate (now.day.date + 1)).year ≤ 9999 →
          ∃ minimum value : Int,
            isoHost.timeValue (ClientApp.setupDateTimeInput_min now) = some minimum
              ∧ isoHost.timeValue (ClientApp.setDefaultDateTime now) = some value
              ∧ minimum < value) := by
  have hlt := minuteNumber_lt_tomorrow_at_ten now now hnow hnow (le_refl _)
  refine ⟨rfl, rfl, hlt, ?_⟩
  intro hy1 hy2
  obtain ⟨hnext, hlo, hhi⟩ := dayNumber_setDate_succ now.day hnow.1 hnow.2.1
  obtain ⟨hyear1, hyear2⟩ := setDate_year now.day (now.day.date + 1)
  have hmin := parseIsoLocal_isoMinuteText now hy1 (by omega) hnow.1 hnow.2.1 hnow.2.2.1
    hnow.2.2.2
  have hval := parseIsoLocal_isoMinuteText ⟨now.day.setDate (now.day.date + 1), 10, 0⟩
    (by show 1000 ≤ (now.day.setDate (now.day.date + 1)).year; omega) hy2 hlo hhi
    (by show 10 < 24; decide) (by show 0 < 60; decide)
  have hmin' : isoHost.timeValue (ClientApp.setupDateTimeInput_min now)
      = some (now.day.dayNumber * 86400000 + (now.hours : Int) * 3600000
        + (now.minutes : Int) * 60000 + ((0 : Nat) : Int) * 1000) := by
    simp only [isoHost, setupDateTimeInput_min_eq_isoMinuteText, hmin, Option.map_some']
  have hval' : isoHost.timeValue (ClientApp.setDefaultDateTime now)
      = some ((now.day.dayNumber + 1) * 86400000 + ((10 : Nat) : Int) * 3600000
        + ((0 : Nat) : Int) * 60000 + ((0 : Nat) : Int) * 1000) := by
    simp only [isoHost, setDefaultDateTime_eq_isoMinuteText, hval, Option.map_some', hnext]
  refine ⟨_, _, hmin', hval', ?_⟩
  obtain ⟨-, -, hh, hm⟩ := hnow
  push_cast
  omega

/-- Witness for claim C27: in the last minute of 2025 the minimum is
`2025-12-31T23:59` and the default `2026-01-01T10:00`. -/
theorem default_later_than_minimum_witness :
    newYearsEve.Valid
      ∧ ClientApp.setupDateTimeInput_min newYearsEve = "2025-12-31T23:59"
      ∧ ClientApp.setDefaultDateTime newYearsEve = "2026-01-01T10:00"
      ∧ newYearsEve.minuteNumber
        < (⟨newYearsEve.day.setDate (newYearsEve.day.date + 1), 10, 0⟩
            : LocalDateTime).minuteNumber :=
  ⟨by decide,
    (default_later_than_minimum newYearsEve (by decide)).1.trans (by decide),
    (default_later_than_minimum newYearsEve (by decide)).2.1.trans (by decide),
    (default_later_than_minimum newYearsEve (by decide)).2.2.1⟩

/-! ## The phone check in booking and lookup (C4) -/

/-- What `searchAppointments` sends: the lookup request when the entered phone
passes the pattern, and nothing otherwise. -/
theorem searchAppointments_requests (server : Server) (phone : String)
    (clientAppointments : JsVal) (st : Session) :
    (ClientApp.searchAppointments server phone clientAppointments st).2.requests
      = if ClientApp.searchAppointments_phoneRegex.testAnchored (removeWhitespace phone) = true
        then st.requests ++ [⟨"/client-appointments/" ++ encodeURIComponent phone, JsVal.undefined⟩]
        else st.requests := by
  by_cases hempty : phone = ""
  · subst hempty
    have h : ClientApp.searchAppointments_phoneRegex.testAnchored (removeWhitespace "") = false := by
      decide
    simp [ClientApp.searchAppointments, h, ClientApp.showNotification, Auth.showNotification]
  · by_cases hmatch : ClientApp.searchAppointments_phoneRegex.testAnchored
        (removeWhitespace phone) = true
    · simp only [ClientApp.searchAppointments, hempty, if_false, hmatch, Bool.not_true,
        Bool.false_eq_true, if_true]
      cases server ⟨"/client-appointments/" ++ encodeURIComponent phone, JsVal.undefined⟩ with
      | networkError m => rfl
      | response r =>
        simp only []
        split
        · cases r.body with
          | error m => rfl
          | ok found =>
            simp only []
            split <;> rfl
        · rfl
    · simp only [Bool.not_eq_true] at hmatch
      simp [ClientApp.searchAppointments, hempty, hmatch, ClientApp.showNotification,
        Auth.showNotification]

/-- A phone that is entered and fails the pattern: `searchAppointments` keeps the
stored appointments and shows the phone-format error. -/
theorem searchAppointments_rejected_phone (server : Server) (phone : String)
    (clientAppointments : JsVal) (st : Session) (hphone : phone ≠ "")
    (hmatch : ClientApp.searchAppointments_phoneRegex.testAnchored (removeWhitespace phone)
      = false) :
    ClientApp.searchAppointments server phone clientAppointments st
      = (clientAppointments, ClientApp.showNotification
          (JsVal.str "Пожалуйста, введите корректный номер телефона") "error" st) := by
  simp [ClientApp.searchAppointments, hphone, hmatch]

/-- A phone that is entered and fails the pattern, in a form whose other required
fields are filled in: `createAppointment` keeps the form and shows the
phone-format error. -/
theorem createAppointment_rejected_phone (server : Server) (now : LocalDateTime)
    (form : BookingForm) (st : Session) (value : String) (n : Int)
    (hname : form.clientName ≠ "") (hphone : form.clientPhone ≠ "")
    (hdate : form.appointmentDate ≠ "") (hsel : form.serviceSelect = some value)
    (hparse : parseInt value = some n) (hn : n ≠ 0)
    (hmatch : ClientApp.createAppointment_phoneRegex.testAnchored
      (removeWhitespace form.clientPhone) = false) :
    ClientApp.createAppointment server now form st
      = (form, ClientApp.showNotification
          (JsVal.str "Пожалуйста, введите корректный номер телефона") "error" st) := by
  have hn0 : (n == 0) = false := by simpa using hn
  simp [ClientApp.createAppointment, hsel, hparse, hname, hphone, hdate, hmatch, hn0]

/-- What `createAppointment` sends for a form whose name, date and service are
filled in: the booking request when the entered phone passes the pattern, and
nothing otherwise. -/
theorem createAppointment_requests_of_filled (server : Server) (now : LocalDateTime)
    (form : BookingForm) (st : Session) (value : String) (n : Int)
    (hname : form.clientName ≠ "") (hdate : form.appointmentDate ≠ "")
    (hsel : form.serviceSelect = some value) (hparse : parseInt value = some n) (hn : n ≠ 0) :
    (ClientApp.createAppointment server now form st).2.requests
      = if ClientApp.createAppointment_phoneRegex.testAnchored
            (removeWhitespace form.clientPhone) = true
        then st.requests ++ [ClientApp.bookingRequest form n]
        else st.requests := by
  by_cases hmatch : ClientApp.createAppointment_phoneRegex.testAnchored
      (removeWhitespace form.clientPhone) = true
  · have hphone : form.clientPhone ≠ "" := by
      intro h
      rw [h] at hmatch
      exact absurd hmatch (by decide)
    rw [if_pos hmatch]
    exact createAppointment_validated_requests server now form st value n hname hphone hdate
      hsel hparse hn hmatch
  · rw [if_neg hmatch]
    rcases createAppointment_requests server now form st with h | ⟨_, _, _, _, _, _, _, _, hm, _⟩
    · exact h
    · exact absurd hm hmatch

/-- Claim C4: for every string `p`, the phone check of createAppointment and the
phone check of searchAppointments both accept `p` exactly when `p`, with all
whitespace removed, is an optional leading `+` followed by at least 10
characters each of which is a digit, `-`, `(` or `)`.  The pattern of each
method decides that format, and each method acts on it: searchAppointments
sends its lookup request exactly when `p` has the format, createAppointment
(name, date and service filled in) sends its booking request exactly when
`p` has the format, and both answer a phone that is entered and does not have
it by the same error notification, changing nothing else. -/
theorem phone_check_matches_spec (p : String) :
    (ClientApp.createAppointment_phoneRegex.testAnchored (removeWhitespace p) = phoneSpec p
      ∧ ClientApp.searchAppointments_phoneRegex.testAnchored (removeWhitespace p) = phoneSpec p)
    ∧ (∀ (server : Server) (clientAppointments : JsVal) (st : Session),
        (ClientApp.searchAppointments server p clientAppointments st).2.requests
            = (if phoneSpec p = true
              then st.requests
                ++ [⟨"/client-appointments/" ++ encodeURIComponent p, JsVal.undefined⟩]
              else st.requests)
          ∧ (p ≠ "" → phoneSpec p = false →
              ClientApp.searchAppointments server p clientAppointments st
                = (clientAppointments, ClientApp.showNotification
                    (JsVal.str "Пожалуйста, введите корректный номер телефона") "error" st)))
    ∧ (∀ (server : Server) (now : LocalDateTime) (form : BookingForm) (st : Session)
          (value : String) (n : Int),
        form.clientPhone = p → form.clientName ≠ "" → form.appointmentDate ≠ "" →
        form.serviceSelect = some value → parseInt value = some n → n ≠ 0 →
        (ClientApp.createAppointment server now form st).2.requests
            = (if phoneSpec p = true then st.requests ++ [ClientApp.bookingRequest form n]
              else st.requests)
          ∧ (p ≠ "" → phoneSpec p = false →
              ClientApp.createAppointment server now form st
                = (form, ClientApp.showNotification
                    (JsVal.str "Пожалуйста, введите корректный номер телефона") "error" st))) := by
  have hc : ClientApp.createAppointment_phoneRegex.testAnchored (removeWhitespace p)
      = phoneSpec p := phonePattern_eq_spec p
  have hs : ClientApp.searchAppointments_phoneRegex.testAnchored (removeWhitespace p)
      = phoneSpec p := phonePattern_eq_spec p
  refine ⟨⟨hc, hs⟩, ?_, ?_⟩
  · intro server clientAppointments st
    refine ⟨?_, ?_⟩
    · rw [searchAppointments_requests, hs]
    · intro hp hspec
      exact searchAppointments_rejected_phone server p clientAppointments st hp
        (hs.trans hspec)
  · intro server now form st value n hphone hname hdate hsel hparse hn
    subst hphone
    refine ⟨?_, ?_⟩
    · rw [createAppointment_requests_of_filled server now form st value n hname hdate hsel
        hparse hn, hc]
    · intro hp hspec
      exact createAppointment_rejected_phone server now form st value n hname hp hdate hsel
        hparse hn (hc.trans hspec)

/-- Witness for claim C4: the phone `+7 999 123 45 67` is sent by the lookup and by
the booking; the phone `12345` is sent by neither, and both show the same
notification. -/
theorem phone_check_matches_spec_witness :
    (phoneSpec "+7 999 123 45 67" = true
      ∧ (ClientApp.searchAppointments offlineServer "+7 999 123 45 67" (JsVal.arr [])
          emptySession).2.requests
        = [⟨"/client-appointments/" ++ encodeURIComponent "+7 999 123 45 67", JsVal.undefined⟩]
      ∧ (ClientApp.createAppointment offlineServer sampleNow sampleForm emptySession).2.requests
        = [ClientApp.bookingRequest sampleForm 2])
    ∧ (phoneSpec "12345" = false
      ∧ (ClientApp.searchAppointments offlineServer "12345" (JsVal.arr [])
          emptySession).2.requests = []
      ∧ (ClientApp.createAppointment offlineServer sampleNow
          { sampleForm with clientPhone := "12345" } emptySession).2.requests = []
      ∧ (ClientApp.searchAppointments offlineServer "12345" (JsVal.arr [])
          emptySession).2.notifications
        = (ClientApp.createAppointment offlineServer sampleNow
            { sampleForm with clientPhone := "12345" } emptySession).2.notifications) :=
  have h := phone_check_matches_spec "+7 999 123 45 67"
  have h' := phone_check_matches_spec "12345"
  have hs := (h'.2.1 offlineServer (JsVal.arr []) emptySession).2 (by decide) (by decide)
  have hc := (h'.2.2 offlineServer sampleNow { sampleForm with clientPhone := "12345" }
    emptySession "2" 2 rfl (by decide) (by decide) rfl (by decide) (by decide)).2
    (by decide) (by decide)
  ⟨⟨by decide,
    ((h.2.1 offlineServer (JsVal.arr []) emptySession).1).trans (if_pos (by decide)),
    ((h.2.2 offlineServer sampleNow sampleForm emptySession "2" 2 rfl (by decide) (by decide)
      rfl (by decide) (by decide)).1).trans (if_pos (by decide))⟩,
   by decide,
    ((h'.2.1 offlineServer (JsVal.arr []) emptySession).1).trans (if_neg (by decide)),
    ((h'.2.2 offlineServer sampleNow { sampleForm with clientPhone := "12345" } emptySession
      "2" 2 rfl (by decide) (by decide) rfl (by decide) (by decide)).1).trans
      (if_neg (by decide)),
    by rw [hs, hc]⟩
